import Mathlib

/-!
# ResOpt: the Case / Model / Launcher / Runner evaluation loop

A shallow embedding of `src/case.h`, `src/launcher.cpp`, `src/productionwell.cpp` and the
evaluation and summary functions of `src/runner.cpp`.

Conventions of the embedding:

* a C++ `double` is idealised as a rational number (`ℚ`): the Launcher only copies and
  compares such values, the production well adds, multiplies and divides them. Rounding,
  infinities and NaN are not modelled; the statements on a division assume a divisor other
  than 0;
* a `QVector<T>` is a `List T`; `QVector::at(i)` and `QVector::replace(i, v)` with an index
  outside `0 ≤ i < size()` are taken as a failed access (`none`), which stops the running
  call (`Status.indexOutOfRange`). `case.h` itself has no bounds check: this is the
  assertion of Qt's debug build, and Qt leaves the behaviour of a build without assertions
  undefined. The theorems on the claims are therefore stated for calls whose reads stay
  within the bounds (the contract of a `Case`, `case.h`: its numbers of real and binary
  variables match the Model);
* an `int` that the code does arithmetic on (the iteration counter of the Runner) is an
  integer kept in the 32-bit two's complement range by `wrapInt32`;
* `exit(1)` stops the running call with `Status.exited 1`;
* objects reached through pointers (`p_model`, `p_simulator`, the `Case *c`) are passed
  explicitly and returned in the result;
* everything the Launcher prints, emits or calls on its collaborators is appended to a log
  of `Event`s, oldest first.
-/

namespace ResOpt

/-! ## Containers -/

/-- Read `QVector::at(i)`: the element at index `i`; an index that is negative or not smaller
than the size is taken as a failed access (`none`), as in Qt's debug build. -/
def qvectorAt {α : Type} (xs : List α) (i : Int) : Option α :=
  if 0 ≤ i ∧ i < (xs.length : Int) then xs[i.toNat]? else none

/-- Write `QVector::replace(i, v)`; an index out of bounds is taken as a failed access
(`none`), as in Qt's debug build. -/
def qvectorReplace {α : Type} (xs : List α) (i : Int) (v : α) : Option (List α) :=
  if 0 ≤ i ∧ i < (xs.length : Int) then some (xs.set i.toNat v) else none

/-! ## Case (`src/case.h`) -/

/-- Container of variable, constraint and objective values (class `Case`); the derivative
pointers of the class are not read by any function embedded here and are left out. -/
structure Case where
  m_real_var_values : List ℚ
  m_binary_var_values : List ℚ
  m_integer_var_values : List Int
  m_constraint_values : List ℚ
  m_objective_value : ℚ
  m_infeasibility : ℚ
deriving DecidableEq

namespace Case

def clearConstraints (c : Case) : Case := { c with m_constraint_values := [] }

def addRealVariableValue (c : Case) (v : ℚ) : Case :=
  { c with m_real_var_values := c.m_real_var_values ++ [v] }

def addBinaryVariableValue (c : Case) (v : ℚ) : Case :=
  { c with m_binary_var_values := c.m_binary_var_values ++ [v] }

def addIntegerVariableValue (c : Case) (v : Int) : Case :=
  { c with m_integer_var_values := c.m_integer_var_values ++ [v] }

def addConstraintValue (c : Case) (v : ℚ) : Case :=
  { c with m_constraint_values := c.m_constraint_values ++ [v] }

def setObjectiveValue (c : Case) (v : ℚ) : Case := { c with m_objective_value := v }

def setRealVariableValue (c : Case) (i : Int) (v : ℚ) : Option Case :=
  (qvectorReplace c.m_real_var_values i v).map fun xs => { c with m_real_var_values := xs }

def setBinaryVariableValue (c : Case) (i : Int) (v : ℚ) : Option Case :=
  (qvectorReplace c.m_binary_var_values i v).map fun xs => { c with m_binary_var_values := xs }

def setIntegerVariableValue (c : Case) (i : Int) (v : Int) : Option Case :=
  (qvectorReplace c.m_integer_var_values i v).map fun xs => { c with m_integer_var_values := xs }

def setInfeasibility (c : Case) (i : ℚ) : Case := { c with m_infeasibility := i }

def numberOfRealVariables (c : Case) : Int := c.m_real_var_values.length

def numberOfBinaryVariables (c : Case) : Int := c.m_binary_var_values.length

def numberOfIntegerVariables (c : Case) : Int := c.m_integer_var_values.length

def numberOfConstraints (c : Case) : Int := c.m_constraint_values.length

def realVariableValue (c : Case) (i : Int) : Option ℚ := qvectorAt c.m_real_var_values i

def binaryVariableValue (c : Case) (i : Int) : Option ℚ := qvectorAt c.m_binary_var_values i

def integerVariableValue (c : Case) (i : Int) : Option Int := qvectorAt c.m_integer_var_values i

def constraintValue (c : Case) (i : Int) : Option ℚ := qvectorAt c.m_constraint_values i

def objectiveValue (c : Case) : ℚ := c.m_objective_value

def infeasibility (c : Case) : ℚ := c.m_infeasibility

end Case

/-! ## The parts of the Model the Launcher reads and writes -/

/-- Time step record of a component: `Stream(time, oil rate, gas rate, water rate, pressure)`. -/
structure Stream where
  time : ℚ
  oilRate : ℚ
  gasRate : ℚ
  waterRate : ℚ
  pressure : ℚ
deriving DecidableEq

/-- Dynamic type of a component, as far as `dynamic_cast` in the Launcher tells them apart. -/
inductive ComponentKind where
  | well
  | pipe
  | separator
deriving DecidableEq

/-- Target of a `Component*` held by a variable: the dynamic type and the component id. -/
structure ComponentRef where
  kind : ComponentKind
  id : Nat
deriving DecidableEq

/-- Real variable of the Model: its current value and its `parent()` (possibly null). -/
structure RealVariable where
  value : ℚ
  parent : Option ComponentRef
deriving DecidableEq

/-- Binary variable of the Model. -/
structure BinaryVariable where
  value : ℚ
  parent : Option ComponentRef
deriving DecidableEq

/-- Constraint of the Model: current value and bounds. -/
structure Constraint where
  value : ℚ
  min : ℚ
  max : ℚ
deriving DecidableEq

/-- Well of the Model: its id and its streams, one per time step. -/
structure Well where
  id : Nat
  streams : List Stream
deriving DecidableEq

/-- Result of `dynamic_cast<Well*>(v->parent()) != 0`. -/
def RealVariable.parentIsWell (v : RealVariable) : Bool :=
  match v.parent with
  | some r => decide (r.kind = ComponentKind.well)
  | none => false

def RealVariable.setValue (v : RealVariable) (x : ℚ) : RealVariable := { v with value := x }

def BinaryVariable.setValue (v : BinaryVariable) (x : ℚ) : BinaryVariable := { v with value := x }

/-- State of a `Model` object. `rest` stands for all state of the component graph that the
Launcher itself never touches (pipe streams, separators, ...); the operations of the Model
and of the simulator may read and write it. -/
structure Model (ρ : Type) where
  realVariables : List RealVariable
  binaryVariables : List BinaryVariable
  constraints : List Constraint
  objective : ℚ
  wells : List Well
  upToDate : Bool
  rest : ρ

namespace Model

variable {ρ : Type}

def isUpToDate (m : Model ρ) : Bool := m.upToDate

def setUpToDate (m : Model ρ) (b : Bool) : Model ρ := { m with upToDate := b }

/-- Effect of `realVariables().at(i)->setValue(x)` for an index inside the vector. -/
def setRealVariableValue (m : Model ρ) (i : Nat) (x : ℚ) : Model ρ :=
  { m with realVariables := m.realVariables.modify (fun v => v.setValue x) i }

/-- Effect of `binaryVariables().at(i)->setValue(x)` for an index inside the vector. -/
def setBinaryVariableValue (m : Model ρ) (i : Nat) (x : ℚ) : Model ρ :=
  { m with binaryVariables := m.binaryVariables.modify (fun v => v.setValue x) i }

end Model

/-! ## Launcher (`src/launcher.cpp`) -/

/-- Loop of `rerunReservoirSimulator`: `vars` are the Model's real variables from index `i`
on. `none` is a failed `realVariableValue(i)`. -/
def rerunLoop (c : Case) : Nat → List RealVariable → Option Bool
  | _, [] => some false
  | i, v :: vars =>
    if v.parentIsWell then
      match c.realVariableValue (i : Int) with
      | none => none
      | some x => if x ≠ v.value then some true else rerunLoop c (i + 1) vars
    else rerunLoop c (i + 1) vars

/-- Decision of `Launcher::rerunReservoirSimulator`. -/
def rerunReservoirSimulator {ρ : Type} (m : Model ρ) (c : Case) : Option Bool :=
  if !m.isUpToDate then some true
  else rerunLoop c 0 m.realVariables

/-- Observable steps of a Launcher call, in the order they happen. -/
inductive Event where
  /-- Signal `runningReservoirSimulator()`. -/
  | runningReservoirSimulator
  /-- Call `p_simulator->generateInputFiles(p_model)`. -/
  | generateInputFiles
  /-- Call `p_simulator->launchSimulator()`. -/
  | launchSimulator
  /-- Call `p_simulator->readOutput(p_model)`. -/
  | readOutput
  /-- Call `p_model->updateStreams()`. -/
  | updateStreams
  /-- Call `p_model->calculatePipePressures()`. -/
  | calculatePipePressures
  /-- Call `p_model->updateConstraints()`. -/
  | updateConstraints
  /-- Call `p_model->updateObjectiveValue()`. -/
  | updateObjectiveValue
  /-- Call `p->calculator()->pressureDrop(s, p_outlet)` on the pipe with this number. -/
  | pressureDrop (pipeNumber : Int) (s : Stream) (p_outlet : ℚ)
  /-- Text `###  Runtime Error  ###` and its explanation printed on `cout`. -/
  | runtimeError
  /-- Text `No need to run reservoir simulator, it is already up to date...` on `cout`. -/
  | noRerunMessage
  /-- Signal `finished(this, comp)`. -/
  | finished
deriving DecidableEq

/-- Calls on the reservoir simulator strategy. -/
def Event.isSimulatorCall : Event → Bool
  | Event.generateInputFiles => true
  | Event.launchSimulator => true
  | Event.readOutput => true
  | _ => false

/-- Calls of a pressure drop calculator. -/
def Event.isPressureDropCall : Event → Bool
  | Event.pressureDrop _ _ _ => true
  | _ => false

/-- How a Launcher call ends. -/
inductive Status where
  /-- The function ran to its end. -/
  | returned
  /-- The process was stopped by `exit(code)`. -/
  | exited (code : Int)
  /-- The process was stopped by an access outside the bounds of a vector. -/
  | indexOutOfRange
deriving DecidableEq

/-- Operations of the Model called by the Launcher. Their code is not part of the embedded
sources; each is an arbitrary transformation of the Model state. -/
structure ModelOps (ρ : Type) where
  updateStreams : Model ρ → Model ρ
  calculatePipePressures : Model ρ → Model ρ
  updateConstraints : Model ρ → Model ρ
  updateObjectiveValue : Model ρ → Model ρ

/-- Strategy interface of the reservoir simulator, over a simulator state `σ` (its working
folder): `generateInputFiles` reads the Model, `launchSimulator` runs the external
process, `readOutput` sets the results to the Model. -/
structure ReservoirSimulator (ρ σ : Type) where
  generateInputFiles : Model ρ → σ → σ
  launchSimulator : σ → σ
  readOutput : σ → Model ρ → Model ρ

/-- Pipe handed to `evaluatePipe`: its number and its pressure drop calculator. -/
structure Pipe where
  number : Int
  calculator : Stream → ℚ → ℚ

/-- Component handed to `Launcher::evaluate`, by dynamic type. -/
inductive Component where
  | pipe (p : Pipe)
  | well (id : Nat)
  | separator (id : Nat)

/-- State of a `Launcher`: the objects behind `p_model` and `p_simulator`, and the log of
what it has done so far. -/
structure Launcher (ρ σ : Type) where
  p_model : Model ρ
  p_simulator : σ
  log : List Event

/-- Outcome of a Launcher call: how it ended, the Launcher state and the Case it leaves. -/
structure Evaluation (ρ σ : Type) where
  status : Status
  launcher : Launcher ρ σ
  c : Case

section LauncherCode

variable {ρ σ : Type}

def Launcher.emit (l : Launcher ρ σ) (e : Event) : Launcher ρ σ :=
  { l with log := l.log ++ [e] }

/-- The block `emit runningReservoirSimulator(); generateInputFiles; launchSimulator;
readOutput` shared by `evaluateEntireModel` and `evaluateWell`. -/
def runReservoirSimulator (sim : ReservoirSimulator ρ σ) (l : Launcher ρ σ) : Launcher ρ σ :=
  let l1 := l.emit Event.runningReservoirSimulator
  let l2 := { l1.emit Event.generateInputFiles with
    p_simulator := sim.generateInputFiles l1.p_model l1.p_simulator }
  let l3 := { l2.emit Event.launchSimulator with
    p_simulator := sim.launchSimulator l2.p_simulator }
  { l3.emit Event.readOutput with p_model := sim.readOutput l3.p_simulator l3.p_model }

/-- Loop `for(i ...) realVariables().at(i)->setValue(c->realVariableValue(i))` with `n`
iterations left, at index `i`. The flag is `false` when a Case access failed. -/
def writeRealVariables (c : Case) : Nat → Nat → Model ρ → Model ρ × Bool
  | 0, _, m => (m, true)
  | n + 1, i, m =>
    match c.realVariableValue (i : Int) with
    | none => (m, false)
    | some x => writeRealVariables c n (i + 1) (m.setRealVariableValue i x)

/-- Loop `for(i ...) binaryVariables().at(i)->setValue(c->binaryVariableValue(i))`. -/
def writeBinaryVariables (c : Case) : Nat → Nat → Model ρ → Model ρ × Bool
  | 0, _, m => (m, true)
  | n + 1, i, m =>
    match c.binaryVariableValue (i : Int) with
    | none => (m, false)
    | some x => writeBinaryVariables c n (i + 1) (m.setBinaryVariableValue i x)

/-- Loop `for(i ...) c->addConstraintValue(constraints().at(i)->value())`. -/
def copyConstraints (cons : List Constraint) (c : Case) : Case :=
  cons.foldl (fun acc k => acc.addConstraintValue k.value) c

/-- Embedding of `Launcher::evaluateEntireModel`. -/
def evaluateEntireModel (ops : ModelOps ρ) (sim : ReservoirSimulator ρ σ)
    (l : Launcher ρ σ) (c : Case) : Evaluation ρ σ :=
  match rerunReservoirSimulator l.p_model c with
  | none => { status := Status.indexOutOfRange, launcher := l, c := c }
  | some run_res_sim =>
    match writeRealVariables c l.p_model.realVariables.length 0 l.p_model with
    | (m1, false) =>
      { status := Status.indexOutOfRange, launcher := { l with p_model := m1 }, c := c }
    | (m1, true) =>
      match writeBinaryVariables c m1.binaryVariables.length 0 m1 with
      | (m2, false) =>
        { status := Status.indexOutOfRange, launcher := { l with p_model := m2 }, c := c }
      | (m2, true) =>
        let l3 : Launcher ρ σ := { l with p_model := m2.setUpToDate false }
        let l4 := if run_res_sim then runReservoirSimulator sim l3
          else l3.emit Event.noRerunMessage
        let l5 := { l4.emit Event.updateStreams with
          p_model := ops.updateStreams l4.p_model }
        let l6 := { l5.emit Event.calculatePipePressures with
          p_model := ops.calculatePipePressures l5.p_model }
        let l7 := { l6.emit Event.updateConstraints with
          p_model := ops.updateConstraints l6.p_model }
        let l8 := { l7.emit Event.updateObjectiveValue with
          p_model := ops.updateObjectiveValue l7.p_model }
        let l9 := { l8 with p_model := l8.p_model.setUpToDate true }
        let c1 := copyConstraints l9.p_model.constraints c
        { status := Status.returned, launcher := l9,
          c := c1.setObjectiveValue l9.p_model.objective }

/-- Embedding of `Launcher::evaluatePipe`. -/
def evaluatePipe (l : Launcher ρ σ) (c : Case) (p : Pipe) : Evaluation ρ σ :=
  if c.numberOfRealVariables ≠ 4 then
    { status := Status.exited 1, launcher := l.emit Event.runtimeError, c := c }
  else
    match c.realVariableValue 0, c.realVariableValue 1, c.realVariableValue 2,
        c.realVariableValue 3 with
    | some qo, some qg, some qw, some p_out =>
      let s : Stream := { time := 0, oilRate := qo, gasRate := qg, waterRate := qw,
                          pressure := 0 }
      let dp := p.calculator s p_out
      { status := Status.returned, launcher := l.emit (Event.pressureDrop p.number s p_out),
        c := c.setObjectiveValue dp }
    | _, _, _, _ => { status := Status.indexOutOfRange, launcher := l, c := c }

/-- Modelled from the spec: `Model::realVariables(Component *c)`, whose code (model.cpp) is
not among the sources. The spec calls its result for a well "the decision variables owned
by that well": here, the positions, in Model order, of the real variables whose parent is
the well with id `w`. The returned `shared_ptr`s alias the Model's own variables, so a
position stands for the variable object. -/
def Model.realVariablesOf (m : Model ρ) (w : Nat) : List Nat :=
  (List.range m.realVariables.length).filter fun i =>
    match m.realVariables[i]? with
    | some v => decide (v.parent = some { kind := ComponentKind.well, id := w })
    | none => false

/-- Streams of the well with id `w`. `Well::stream(i)` (well.h, not among the sources) is
taken to be the bounds-checked read of this vector at index `i`. -/
def Model.wellStreams (m : Model ρ) (w : Nat) : List Stream :=
  match m.wells.find? (fun x => decide (x.id = w)) with
  | some x => x.streams
  | none => []

/-- Loop `for(i ...) well_vars.at(i)->setValue(c->realVariableValue(i))` of `evaluateWell`,
with `n` iterations left, at index `i`. -/
def writeWellVariables (c : Case) (well_vars : List Nat) : Nat → Nat → Model ρ → Model ρ × Bool
  | 0, _, m => (m, true)
  | n + 1, i, m =>
    match qvectorAt well_vars (i : Int), c.realVariableValue (i : Int) with
    | some k, some x => writeWellVariables c well_vars n (i + 1) (m.setRealVariableValue k x)
    | _, _ => (m, false)

/-- Embedding of `Launcher::evaluateWell`, for the well with id `w`. -/
def evaluateWell (sim : ReservoirSimulator ρ σ) (l : Launcher ρ σ) (c : Case) (w : Nat) :
    Evaluation ρ σ :=
  let well_vars := l.p_model.realVariablesOf w
  if c.numberOfRealVariables ≠ (well_vars.length : Int) then
    { status := Status.exited 1, launcher := l.emit Event.runtimeError, c := c }
  else
    match writeWellVariables c well_vars c.m_real_var_values.length 0 l.p_model with
    | (m1, false) =>
      { status := Status.indexOutOfRange, launcher := { l with p_model := m1 }, c := c }
    | (m1, true) =>
      let l2 := runReservoirSimulator sim { l with p_model := m1 }
      match qvectorAt (l2.p_model.wellStreams w) 0 with
      | none => { status := Status.indexOutOfRange, launcher := l2, c := c }
      | some s => { status := Status.returned, launcher := l2,
                    c := c.setObjectiveValue s.pressure }

/-- Embedding of `Launcher::evaluate`: `none` is the null component pointer. -/
def evaluate (ops : ModelOps ρ) (sim : ReservoirSimulator ρ σ) (l : Launcher ρ σ) (c : Case)
    (comp : Option Component) : Evaluation ρ σ :=
  let r : Evaluation ρ σ :=
    match comp with
    | none => evaluateEntireModel ops sim l c
    | some (Component.pipe p) => evaluatePipe l c p
    | some (Component.well w) => evaluateWell sim l c w
    | some (Component.separator _) => { status := Status.returned, launcher := l, c := c }
  match r.status with
  | Status.returned => { r with launcher := r.launcher.emit Event.finished }
  | _ => r

end LauncherCode

/-! ## The collaborators, as the spec describes them -/

/-- The four update calls of `evaluateEntireModel`, in their order: `updateStreams`,
`calculatePipePressures`, `updateConstraints`, `updateObjectiveValue`. -/
def ModelOps.updateCycle {ρ : Type} (ops : ModelOps ρ) (m : Model ρ) : Model ρ :=
  ops.updateObjectiveValue (ops.updateConstraints (ops.calculatePipePressures
    (ops.updateStreams m)))

/-- Modelled from the spec: the behaviour of the Model's update operations and of the
simulator's `readOutput`, whose code (model.cpp, the simulator back ends) is not among the
sources. The spec says that the variable collections are "built once at model-load time,
then mutated only in their value fields", that streams "are recomputed, not appended, on
each update cycle" and that `updateConstraints` "recomputes every constraint's value from
the now-current streams/pressures". Accordingly: `readOutput` and the update cycle leave
the real and binary variables as they are, and an update cycle run on an already updated
Model, whatever its up-to-date flag, gives the same constraints and the same objective. -/
structure RecomputesInPlace {ρ σ : Type} (ops : ModelOps ρ) (sim : ReservoirSimulator ρ σ) :
    Prop where
  readOutput_realVariables : ∀ (s : σ) (m : Model ρ),
    (sim.readOutput s m).realVariables = m.realVariables
  readOutput_binaryVariables : ∀ (s : σ) (m : Model ρ),
    (sim.readOutput s m).binaryVariables = m.binaryVariables
  updateCycle_realVariables : ∀ m : Model ρ,
    (ops.updateCycle m).realVariables = m.realVariables
  updateCycle_binaryVariables : ∀ m : Model ρ,
    (ops.updateCycle m).binaryVariables = m.binaryVariables
  updateCycle_again_constraints : ∀ (m : Model ρ) (b : Bool),
    (ops.updateCycle ((ops.updateCycle m).setUpToDate b)).constraints =
      (ops.updateCycle m).constraints
  updateCycle_again_objective : ∀ (m : Model ρ) (b : Bool),
    (ops.updateCycle ((ops.updateCycle m).setUpToDate b)).objective =
      (ops.updateCycle m).objective

/-! ## ProductionWell (`src/productionwell.cpp`)

The progress and error lines these functions print on `cout` are not modelled. -/

/-- Pipe of the network as a well reaches it through a pipe connection: the `Pipe`, its
streams (one per time step), and its dynamic type. `midPipe` is `some g` exactly when
`dynamic_cast<MidPipe*>` succeeds; `MidPipe::flowFraction` (midpipe.cpp) is not among the
sources and is a parameter: `g n` is what it returns for the target pipe with number `n`. -/
structure NetworkPipe extends Pipe where
  streams : List Stream
  midPipe : Option (Int → ℚ)

/-- Pipe connection of a well: the routing variable (`variable()`) and the pipe (`pipe()`). -/
structure PipeConnection where
  routingVariable : BinaryVariable
  pipe : NetworkPipe

/-- State of a `ProductionWell`: the `Well` part (id, streams), the pipe connections, the
bottomhole pressure constraint and the pipe routing constraint. -/
structure ProductionWell extends Well where
  pipeConnections : List PipeConnection
  p_bhp_contraint : Constraint
  p_connection_constraint : Constraint

/-- How a call of `updateBhpConstraint` ends. -/
inductive UpdateStatus where
  /-- The function ran to its end. -/
  | returned
  /-- The process was stopped by `exit(code)`. -/
  | exited (code : Int)
  /-- The null pipe pointer was dereferenced: no connection was selected. -/
  | nullPipe
  /-- A stream was read outside the bounds of its vector. -/
  | indexOutOfRange
deriving DecidableEq

/-- Outcome of `updateBhpConstraint`: how it ended and the well it leaves. -/
structure BhpUpdate where
  status : UpdateStatus
  well : ProductionWell

/-- First loop of `updateBhpConstraint`: the state is the pair `(p, frac)`. -/
def highestFraction : List PipeConnection → Option NetworkPipe × ℚ → Option NetworkPipe × ℚ
  | [], st => st
  | conn :: rest, (p, frac) =>
    if frac < conn.routingVariable.value then
      highestFraction rest (some conn.pipe, conn.routingVariable.value)
    else highestFraction rest (p, frac)

/-- Pipe held by `p` after the first loop of `updateBhpConstraint` (`none` is the null
pointer). -/
def ProductionWell.selectedPipe (w : ProductionWell) : Option NetworkPipe :=
  (highestFraction w.pipeConnections (none, -1)).1

/-- Second loop of `updateBhpConstraint`, at time step `i` with current value `c`, over the
well's remaining streams; `none` is a failed `p->stream(i)`. The quotient is the exact one:
it is the code's quotient only where the well pressure `s.pressure` is not 0 (a `double`
division by 0 gives an infinity or NaN), and the statements on this loop assume so. -/
def bhpLoop (p : NetworkPipe) : Nat → ℚ → List Stream → Option ℚ
  | _, c, [] => some c
  | i, c, s :: rest =>
    match qvectorAt p.streams (i : Int) with
    | none => none
    | some q =>
      let c_ts := (s.pressure - q.pressure) / s.pressure
      bhpLoop p (i + 1) (if c_ts < c then c_ts else c) rest

/-- Embedding of `ProductionWell::updateBhpConstraint`. -/
def ProductionWell.updateBhpConstraint (w : ProductionWell) : BhpUpdate :=
  match w.selectedPipe with
  | none => { status := UpdateStatus.nullPipe, well := w }
  | some p =>
    if w.streams.length ≠ p.streams.length then
      { status := UpdateStatus.exited 1, well := w }
    else
      match bhpLoop p 0 1 w.streams with
      | none => { status := UpdateStatus.indexOutOfRange, well := w }
      | some c =>
        { status := UpdateStatus.returned,
          well := { w with p_bhp_contraint := { w.p_bhp_contraint with value := c } } }

section StatementHelpers

variable {ρ σ : Type}

/-- Steps logged by a whole-model evaluation that runs the simulator. -/
def rerunSteps : List Event :=
  [Event.runningReservoirSimulator, Event.generateInputFiles, Event.launchSimulator,
   Event.readOutput, Event.updateStreams, Event.calculatePipePressures,
   Event.updateConstraints, Event.updateObjectiveValue]

/-- Steps logged by a whole-model evaluation that skips the simulator. -/
def skipSteps : List Event :=
  [Event.noRerunMessage, Event.updateStreams, Event.calculatePipePressures,
   Event.updateConstraints, Event.updateObjectiveValue]

/-- Model handed to the update cycle: the result of `readOutput` when the simulator ran, the
written Model otherwise. -/
def afterSimulator (sim : ReservoirSimulator ρ σ) (run_res_sim : Bool) (s : σ) (m : Model ρ) :
    Model ρ :=
  if run_res_sim then sim.readOutput (sim.launchSimulator (sim.generateInputFiles m s)) m
  else m

end StatementHelpers

/-! ## Example data -/

/-- Well-owned real variable with value `x`, owned by the well with id `w`. -/
def wellVariable (w : Nat) (x : ℚ) : RealVariable :=
  { value := x, parent := some { kind := ComponentKind.well, id := w } }

/-- Real variable with value `x` owned by the pipe with id `p`. -/
def pipeVariable (p : Nat) (x : ℚ) : RealVariable :=
  { value := x, parent := some { kind := ComponentKind.pipe, id := p } }

/-- Up-to-date Model with a well variable (value 5) and a pipe variable (value 1). -/
def freshModel : Model Unit :=
  { realVariables := [wellVariable 0 5, pipeVariable 0 1], binaryVariables := [],
    constraints := [{ value := 3, min := 0, max := 10 }], objective := 7,
    wells := [{ id := 0, streams := [{ time := 0, oilRate := 1, gasRate := 2, waterRate := 3,
                                       pressure := 40 }] }],
    upToDate := true, rest := () }

/-- Case with the given real values and nothing else. -/
def caseOfReals (xs : List ℚ) : Case :=
  { m_real_var_values := xs, m_binary_var_values := [], m_integer_var_values := [],
    m_constraint_values := [], m_objective_value := 0, m_infeasibility := 0 }

/-- Model operations that leave the Model as it is. -/
def idleOps : ModelOps Unit :=
  { updateStreams := id, calculatePipePressures := id, updateConstraints := id,
    updateObjectiveValue := id }

/-- Model operations that recompute the results from the variables: `updateConstraints`
makes one constraint per real variable, holding its value, and `updateObjectiveValue` takes
the value of the first constraint. -/
def mirrorOps : ModelOps Unit :=
  { updateStreams := id, calculatePipePressures := id,
    updateConstraints := fun m =>
      { m with constraints := m.realVariables.map fun v => { value := v.value, min := 0,
                                                             max := 10 } },
    updateObjectiveValue := fun m =>
      { m with objective := (m.constraints.map fun k => k.value).headD 0 } }

/-- Simulator that counts its launches and leaves the Model as it is. -/
def countingSimulator : ReservoirSimulator Unit Nat :=
  { generateInputFiles := fun _ s => s, launchSimulator := fun s => s + 1,
    readOutput := fun _ m => m }

/-- Launcher on `freshModel` with an empty log. -/
def freshLauncher : Launcher Unit Nat := { p_model := freshModel, p_simulator := 0, log := [] }

/-- Up-to-date Model with one well variable (value 5) and one binary variable. -/
def binaryModel : Model Unit :=
  { freshModel with realVariables := [wellVariable 0 5],
                    binaryVariables := [{ value := 0, parent := none }] }

/-- Launcher on `binaryModel` with an empty log. -/
def binaryLauncher : Launcher Unit Nat :=
  { p_model := binaryModel, p_simulator := 0, log := [] }

/-- Pipe number 3 whose calculator adds the three rates to the outlet pressure. -/
def samplePipe : Pipe :=
  { number := 3, calculator := fun s p_out => p_out + s.oilRate + s.gasRate + s.waterRate }

/-- Stream at time `t` with pressure `p` and no rates. -/
def pressureStream (t p : ℚ) : Stream :=
  { time := t, oilRate := 0, gasRate := 0, waterRate := 0, pressure := p }

/-- Pipe number `n` that is not a MidPipe, with the given streams. -/
def plainPipe (n : Int) (streams : List Stream) : NetworkPipe :=
  { number := n, calculator := fun _ p_out => p_out, streams := streams, midPipe := none }

/-- Connection with routing value `x` to the pipe `p`. -/
def connectionTo (x : ℚ) (p : NetworkPipe) : PipeConnection :=
  { routingVariable := { value := x, parent := none }, pipe := p }

/-- Production well with two time steps (pressures 100 and 80), routed fully to pipe 1
(pressures 50 and 90) and not to pipe 2 (a single stream). -/
def sampleWell : ProductionWell :=
  { id := 1, streams := [pressureStream 0 100, pressureStream 1 80],
    pipeConnections :=
      [connectionTo 1 (plainPipe 1 [pressureStream 0 50, pressureStream 1 90]),
       connectionTo 0 (plainPipe 2 [pressureStream 0 10])],
    p_bhp_contraint := { value := 0, min := 0, max := 1 },
    p_connection_constraint := { value := 0, min := 1, max := 1 } }

/-- The well `sampleWell` routed fully to pipe 2 instead, which has one stream only. -/
def mismatchedWell : ProductionWell :=
  { sampleWell with
    pipeConnections :=
      [connectionTo 0 (plainPipe 1 [pressureStream 0 50, pressureStream 1 90]),
       connectionTo 1 (plainPipe 2 [pressureStream 0 10])] }

/-- Value of an `int` computation whose exact result is `x`: `x` reduced to the 32-bit two's
complement range `-2147483648 .. 2147483647`. -/
def wrapInt32 (x : Int) : Int := (x + 2147483648) % 4294967296 - 2147483648

/-- Tab-terminated field of the summary file. -/
inductive Cell where
  /-- An `int` written with `<<`. -/
  | counter (n : Int)
  /-- A `double` written with `<<`. -/
  | number (v : ℚ)
  /-- A text tag directly followed by an `int`, as in `"VAR_C" << i + 1`. -/
  | label (tag : String) (index : Int)
  /-- A plain text. -/
  | text (s : String)
deriving DecidableEq

/-- Line of the summary file: a line of free text, or a row of tab-terminated fields ended
by a newline. -/
inductive SummaryLine where
  | description (s : String)
  | row (cells : List Cell)
deriving DecidableEq

/-- State of a `Runner`: the Model, the simulator, the summary file (`none` when `p_summary`
is null, otherwise the lines written so far), the iteration counter and the status flag. -/
structure Runner (ρ σ : Type) where
  p_model : Model ρ
  p_simulator : σ
  p_summary : Option (List SummaryLine)
  m_number_of_runs : Int
  m_up_to_date : Bool

section RunnerCode

variable {ρ σ : Type}

/-- Fields written by `writeIterationToSummary` (runner.cpp 364-383) for the counter `n`
and the Model `m`. -/
def iterationRow (n : Int) (m : Model ρ) : List Cell :=
  [Cell.counter n, Cell.number m.objective] ++
  m.realVariables.map (fun v => Cell.number v.value) ++
  m.binaryVariables.map (fun v => Cell.number v.value) ++
  m.constraints.map (fun k => Cell.number k.value)

/-- Embedding of `Runner::writeIterationToSummary`. -/
def Runner.writeIterationToSummary (r : Runner ρ σ) : Runner ρ σ :=
  match r.p_summary with
  | none => r
  | some lines =>
    let row := SummaryLine.row (iterationRow r.m_number_of_runs r.p_model)
    { r with p_summary := some (lines ++ [row]) }

/-- Fields of the header row written by `writeProblemDefToSummary` (runner.cpp 326-347); the
label index `i + 1` stays in the range of an `int`, `i` being below the size of a `QVector`. -/
def columnHeader (m : Model ρ) : List Cell :=
  [Cell.text "#", Cell.text "OBJ"] ++
  (List.range m.realVariables.length).map (fun (i : Nat) => Cell.label "VAR_C" ((i : Int) + 1)) ++
  (List.range m.binaryVariables.length).map (fun (i : Nat) => Cell.label "VAR_B" ((i : Int) + 1)) ++
  (List.range m.constraints.length).map (fun (i : Nat) => Cell.label "CON" ((i : Int) + 1))

/-- Embedding of `Runner::writeProblemDefToSummary`. The text block written before the
header row (runner.cpp 277-323) names wells, pipes, variable names and bounds that are not
part of the embedded Model; it is the parameter `block`. -/
def Runner.writeProblemDefToSummary (block : List SummaryLine) (r : Runner ρ σ) : Runner ρ σ :=
  match r.p_summary with
  | none => r
  | some lines =>
    let header := SummaryLine.row (columnHeader r.p_model)
    { r with p_summary := some (lines ++ block ++ [header]) }

/-- Embedding of `Runner::evaluate`; the returned flag is `ok`. -/
def Runner.evaluate (ops : ModelOps ρ) (sim : ReservoirSimulator ρ σ) (r : Runner ρ σ) :
    Runner ρ σ × Bool :=
  let r1 := { r with m_number_of_runs := wrapInt32 (r.m_number_of_runs + 1) }
  let s1 := sim.generateInputFiles r1.p_model r1.p_simulator
  let s2 := sim.launchSimulator s1
  let m1 := sim.readOutput s2 r1.p_model
  let m2 := ops.calculatePipePressures m1
  let m3 := ops.updateConstraints m2
  let m4 := ops.updateObjectiveValue m3
  let r2 : Runner ρ σ := { r1 with p_model := m4, p_simulator := s2, m_up_to_date := true }
  (r2.writeIterationToSummary, true)

/-- State after `k` calls of `Runner::evaluate`. -/
def Runner.evaluateTimes (ops : ModelOps ρ) (sim : ReservoirSimulator ρ σ) :
    Nat → Runner ρ σ → Runner ρ σ
  | 0, r => r
  | k + 1, r => (Runner.evaluate ops sim (Runner.evaluateTimes ops sim k r)).1

end RunnerCode

/-! ## Further helper definitions for the statements -/

section MoreHelpers

variable {ρ σ : Type}

/-- Model after the two write loops of `evaluateEntireModel` and `setUpToDate(false)`. -/
def writtenModel (c : Case) (m : Model ρ) : Model ρ :=
  ((writeBinaryVariables c
    (writeRealVariables c m.realVariables.length 0 m).1.binaryVariables.length 0
    (writeRealVariables c m.realVariables.length 0 m).1).1).setUpToDate false

/-- A sequence of calls of `Launcher::evaluate`, each on the state the previous one left;
`none` when one of them does not return. -/
def evaluateAll (ops : ModelOps ρ) (sim : ReservoirSimulator ρ σ) :
    Launcher ρ σ → List (Case × Option Component) → Option (Launcher ρ σ)
  | l, [] => some l
  | l, (c, comp) :: rest =>
    match (evaluate ops sim l c comp).status with
    | Status.returned => evaluateAll ops sim (evaluate ops sim l c comp).launcher rest
    | _ => none

/-- Values of the well-owned variables of a list of real variables, position by position
(`none` at the position of a variable that no Well owns). -/
def wellValues (vars : List RealVariable) : List (Option ℚ) :=
  vars.map fun v => if v.parentIsWell then some v.value else none

/-- Invariant behind the rerun skip, for an observer `seen` that reads off the simulator
state the real variables handed to the most recent `generateInputFiles`: when the Model is
marked up to date, its well-owned variables hold the values of that most recent simulator
run. -/
def CacheSound (seen : σ → Option (List RealVariable)) (l : Launcher ρ σ) : Prop :=
  l.p_model.isUpToDate = true →
    ∃ vs, seen l.p_simulator = some vs ∧ wellValues vs = wellValues l.p_model.realVariables

/-- Simulator whose state is the list of real variables it was last given by
`generateInputFiles`. -/
def recordingSimulator : ReservoirSimulator Unit (Option (List RealVariable)) :=
  { generateInputFiles := fun m _ => some m.realVariables, launchSimulator := fun s => s,
    readOutput := fun _ m => m }

/-- Launcher on the stale version of `freshModel`, with the recording simulator. -/
def staleLauncher : Launcher Unit (Option (List RealVariable)) :=
  { p_model := freshModel.setUpToDate false, p_simulator := none, log := [] }

/-- Runner on `freshModel` with an open, empty summary file and the counter at 0. -/
def freshRunner : Runner Unit Nat :=
  { p_model := freshModel, p_simulator := 0, p_summary := some [], m_number_of_runs := 0,
    m_up_to_date := false }

/-- The runner `freshRunner` with the counter at 2147483647, the largest `int`: its state
after 2147483647 evaluations, as far as the counter goes. -/
def lastCountRunner : Runner Unit Nat :=
  { freshRunner with m_number_of_runs := 2147483647 }

end MoreHelpers

/-- Two evaluations: the whole model with the Case `(6, 1)`, then well 0 alone with the
Case `(8)`. -/
def sampleRequests : List (Case × Option Component) :=
  [(caseOfReals [6, 1], none), (caseOfReals [8], some (Component.well 0))]

/-- State of `staleLauncher` after `sampleRequests`. -/
def launcherAfterRequests : Launcher Unit (Option (List RealVariable)) :=
  (evaluate mirrorOps recordingSimulator
    (evaluate mirrorOps recordingSimulator staleLauncher (caseOfReals [6, 1]) none).launcher
    (caseOfReals [8]) (some (Component.well 0))).launcher

/-! ## Lemmas on the containers -/

theorem qvectorAt_natCast {α : Type} (xs : List α) (i : Nat) :
    qvectorAt xs (i : Int) = xs[i]? := by
  unfold qvectorAt
  by_cases h : i < xs.length
  · simp [h]
  · have h2 : xs.length ≤ i := Nat.le_of_not_lt h
    simp [h, List.getElem?_eq_none h2]

theorem qvectorAt_append_last {α : Type} (xs : List α) (v : α) :
    qvectorAt (xs ++ [v]) (xs.length : Int) = some v := by
  rw [qvectorAt_natCast]
  simp

theorem qvectorAt_append_before {α : Type} (xs : List α) (v : α) (i : Int) (h0 : 0 ≤ i)
    (h1 : i < (xs.length : Int)) : qvectorAt (xs ++ [v]) i = qvectorAt xs i := by
  have hlt : i.toNat < xs.length := by omega
  unfold qvectorAt
  have h2 : i < ((xs ++ [v]).length : Int) := by
    simp only [List.length_append, List.length_singleton]; omega
  simp only [h0, h1, h2, and_self, if_true]
  rw [List.getElem?_append_left hlt]

/-! ## The rerun decision -/

theorem rerunLoop_spec (c : Case) (vars : List RealVariable) (i : Nat)
    (h : i + vars.length ≤ c.m_real_var_values.length) :
    ∃ b, rerunLoop c i vars = some b ∧
      (b = true ↔ ∃ j v x, vars[j]? = some v ∧ v.parentIsWell = true ∧
        c.m_real_var_values[i + j]? = some x ∧ x ≠ v.value) := by
  induction vars generalizing i with
  | nil => exact ⟨false, rfl, by simp⟩
  | cons v vars ih =>
    have hlen : i + 1 + vars.length ≤ c.m_real_var_values.length := by
      simp only [List.length_cons] at h; omega
    obtain ⟨b, hb, hiff⟩ := ih (i + 1) hlen
    have hi : i < c.m_real_var_values.length := by
      simp only [List.length_cons] at h; omega
    have hget : c.realVariableValue (i : Int) = some (c.m_real_var_values[i]) := by
      unfold Case.realVariableValue
      rw [qvectorAt_natCast, List.getElem?_eq_getElem hi]
    by_cases hw : v.parentIsWell = true
    · by_cases hx : c.m_real_var_values[i] = v.value
      · refine ⟨b, ?_, ?_⟩
        · simp [rerunLoop, hw, hget, hx, hb]
        · rw [hiff]
          constructor
          · rintro ⟨j, v2, x, h1, h2, h3, h4⟩
            refine ⟨j + 1, v2, x, by simpa using h1, h2, ?_, h4⟩
            rw [← h3]; congr 1; omega
          · rintro ⟨j, v2, x, h1, h2, h3, h4⟩
            cases j with
            | zero =>
              simp only [List.getElem?_cons_zero, Option.some.injEq] at h1
              subst h1
              simp only [Nat.add_zero, List.getElem?_eq_getElem hi, Option.some.injEq] at h3
              exact absurd (h3 ▸ hx) h4
            | succ j =>
              refine ⟨j, v2, x, by simpa using h1, h2, ?_, h4⟩
              rw [← h3]; congr 1; omega
      · refine ⟨true, ?_, ?_⟩
        · simp [rerunLoop, hw, hget, hx]
        · simp only [true_iff]
          exact ⟨0, v, c.m_real_var_values[i], by simp, hw,
            by simp [List.getElem?_eq_getElem hi], hx⟩
    · refine ⟨b, ?_, ?_⟩
      · simp [rerunLoop, hw, hb]
      · rw [hiff]
        constructor
        · rintro ⟨j, v2, x, h1, h2, h3, h4⟩
          refine ⟨j + 1, v2, x, by simpa using h1, h2, ?_, h4⟩
          rw [← h3]; congr 1; omega
        · rintro ⟨j, v2, x, h1, h2, h3, h4⟩
          cases j with
          | zero =>
            simp only [List.getElem?_cons_zero, Option.some.injEq] at h1
            subst h1
            exact absurd h2 hw
          | succ j =>
            refine ⟨j, v2, x, by simpa using h1, h2, ?_, h4⟩
            rw [← h3]; congr 1; omega

theorem rerunLoop_congr (c1 c2 : Case) (vars : List RealVariable) (i : Nat)
    (h : ∀ (j : Nat) (v : RealVariable), vars[j]? = some v → v.parentIsWell = true →
      c1.realVariableValue ((i + j : Nat) : Int) = c2.realVariableValue ((i + j : Nat) : Int)) :
    rerunLoop c1 i vars = rerunLoop c2 i vars := by
  induction vars generalizing i with
  | nil => rfl
  | cons v vars ih =>
    have htail : rerunLoop c1 (i + 1) vars = rerunLoop c2 (i + 1) vars := by
      apply ih
      intro j w hj hw
      have := h (j + 1) w (by simpa using hj) hw
      have e : i + (j + 1) = i + 1 + j := by omega
      rw [e] at this
      exact this
    by_cases hw : v.parentIsWell = true
    · have h0 := h 0 v (by simp) hw
      simp only [Nat.add_zero] at h0
      simp only [rerunLoop, hw, if_true, h0, htail]
    · simp only [rerunLoop, hw, htail]
      simp

theorem rerunReservoirSimulator_of_same {ρ : Type} (m : Model ρ) (c : Case)
    (hlen : m.realVariables.length ≤ c.m_real_var_values.length)
    (hfresh : m.isUpToDate = true)
    (hsame : ∀ (i : Nat) (v : RealVariable), m.realVariables[i]? = some v →
      v.parentIsWell = true → c.m_real_var_values[i]? = some v.value) :
    rerunReservoirSimulator m c = some false := by
  obtain ⟨b, hb, hiff⟩ := rerunLoop_spec c m.realVariables 0 (by omega)
  have hloop : rerunReservoirSimulator m c = rerunLoop c 0 m.realVariables := by
    simp [rerunReservoirSimulator, hfresh]
  rw [hloop, hb]
  cases b with
  | false => rfl
  | true =>
    obtain ⟨j, v, x, hv, hw, hx, hne⟩ := hiff.mp rfl
    rw [Nat.zero_add, hsame j v hv hw] at hx
    exact absurd (Option.some.inj hx).symm hne

theorem rerunReservoirSimulator_of_diff {ρ : Type} (m : Model ρ) (c : Case)
    (hlen : m.realVariables.length ≤ c.m_real_var_values.length)
    (hdiff : ∃ (i : Nat) (v : RealVariable) (x : ℚ), m.realVariables[i]? = some v ∧
      v.parentIsWell = true ∧ c.m_real_var_values[i]? = some x ∧ x ≠ v.value) :
    rerunReservoirSimulator m c = some true := by
  by_cases hu : m.isUpToDate = true
  · obtain ⟨b, hb, hiff⟩ := rerunLoop_spec c m.realVariables 0 (by omega)
    have hloop : rerunReservoirSimulator m c = rerunLoop c 0 m.realVariables := by
      simp [rerunReservoirSimulator, hu]
    have hbt : b = true := by
      rw [hiff]
      obtain ⟨i, v, x, h1, h2, h3, h4⟩ := hdiff
      exact ⟨i, v, x, h1, h2, by rw [Nat.zero_add]; exact h3, h4⟩
    rw [hloop, hb, hbt]
  · simp [rerunReservoirSimulator, hu]

theorem rerunReservoirSimulator_isSome {ρ : Type} (m : Model ρ) (c : Case)
    (hlen : m.realVariables.length ≤ c.m_real_var_values.length) :
    ∃ b, rerunReservoirSimulator m c = some b := by
  by_cases hu : m.isUpToDate = true
  · obtain ⟨b, hb, _⟩ := rerunLoop_spec c m.realVariables 0 (by omega)
    exact ⟨b, by simp [rerunReservoirSimulator, hu, hb]⟩
  · exact ⟨true, by simp [rerunReservoirSimulator, hu]⟩

/-! ## The write loops -/

section WriteLoops

variable {ρ : Type}

theorem writeRealVariables_ok (c : Case) (n i : Nat) (m : Model ρ)
    (h : i + n ≤ c.m_real_var_values.length) : (writeRealVariables c n i m).2 = true := by
  induction n generalizing i m with
  | zero => rfl
  | succ n ih =>
    have hi : i < c.m_real_var_values.length := by omega
    have hget : c.realVariableValue (i : Int) = some (c.m_real_var_values[i]) := by
      unfold Case.realVariableValue
      rw [qvectorAt_natCast, List.getElem?_eq_getElem hi]
    simp only [writeRealVariables, hget]
    exact ih (i + 1) _ (by omega)

theorem writeBinaryVariables_ok (c : Case) (n i : Nat) (m : Model ρ)
    (h : i + n ≤ c.m_binary_var_values.length) : (writeBinaryVariables c n i m).2 = true := by
  induction n generalizing i m with
  | zero => rfl
  | succ n ih =>
    have hi : i < c.m_binary_var_values.length := by omega
    have hget : c.binaryVariableValue (i : Int) = some (c.m_binary_var_values[i]) := by
      unfold Case.binaryVariableValue
      rw [qvectorAt_natCast, List.getElem?_eq_getElem hi]
    simp only [writeBinaryVariables, hget]
    exact ih (i + 1) _ (by omega)

/-- The real-variable loop changes nothing but the real variables, and keeps their number. -/
theorem writeRealVariables_frame (c : Case) (n i : Nat) (m : Model ρ) :
    (writeRealVariables c n i m).1.binaryVariables = m.binaryVariables ∧
    (writeRealVariables c n i m).1.constraints = m.constraints ∧
    (writeRealVariables c n i m).1.objective = m.objective ∧
    (writeRealVariables c n i m).1.wells = m.wells ∧
    (writeRealVariables c n i m).1.upToDate = m.upToDate ∧
    (writeRealVariables c n i m).1.rest = m.rest ∧
    (writeRealVariables c n i m).1.realVariables.length = m.realVariables.length := by
  induction n generalizing i m with
  | zero => simp [writeRealVariables]
  | succ n ih =>
    cases hget : c.realVariableValue (i : Int) with
    | none => simp [writeRealVariables, hget]
    | some x =>
      simp only [writeRealVariables, hget]
      have := ih (i + 1) (m.setRealVariableValue i x)
      simpa [Model.setRealVariableValue] using this

/-- The binary-variable loop changes nothing but the binary variables, and keeps their
number. -/
theorem writeBinaryVariables_frame (c : Case) (n i : Nat) (m : Model ρ) :
    (writeBinaryVariables c n i m).1.realVariables = m.realVariables ∧
    (writeBinaryVariables c n i m).1.constraints = m.constraints ∧
    (writeBinaryVariables c n i m).1.objective = m.objective ∧
    (writeBinaryVariables c n i m).1.wells = m.wells ∧
    (writeBinaryVariables c n i m).1.upToDate = m.upToDate ∧
    (writeBinaryVariables c n i m).1.rest = m.rest ∧
    (writeBinaryVariables c n i m).1.binaryVariables.length = m.binaryVariables.length := by
  induction n generalizing i m with
  | zero => simp [writeBinaryVariables]
  | succ n ih =>
    cases hget : c.binaryVariableValue (i : Int) with
    | none => simp [writeBinaryVariables, hget]
    | some x =>
      simp only [writeBinaryVariables, hget]
      have := ih (i + 1) (m.setBinaryVariableValue i x)
      simpa [Model.setBinaryVariableValue] using this

end WriteLoops

/-! ## What the whole-model write loops leave in the Model -/

section WrittenValues

variable {ρ : Type}

theorem modify_eq_self {α : Type} (f : α → α) (l : List α) (i : Nat)
    (h : ∀ a, l[i]? = some a → f a = a) : l.modify f i = l := by
  apply List.ext_getElem?
  intro k
  rw [List.getElem?_modify]
  by_cases hik : i = k
  · subst hik
    cases ha : l[i]? with
    | none => rfl
    | some a => simp [h a ha]
  · cases l[k]? <;> simp [hik]

/-- After the real-variable loop, the variable at each visited index holds the Case value of
that index and the other variables are untouched. -/
theorem writeRealVariables_get (c : Case) (n i : Nat) (m : Model ρ) :
    (∀ (j : Nat) (x : ℚ), i ≤ j → j < i + n → c.m_real_var_values[j]? = some x →
      (writeRealVariables c n i m).2 = true →
      (writeRealVariables c n i m).1.realVariables[j]? =
        (m.realVariables[j]?).map (fun v => v.setValue x)) ∧
    (∀ j : Nat, (j < i ∨ i + n ≤ j) →
      (writeRealVariables c n i m).1.realVariables[j]? = m.realVariables[j]?) := by
  induction n generalizing i m with
  | zero =>
    refine ⟨?_, ?_⟩
    · intro j x h1 h2; omega
    · intro j _; rfl
  | succ n ih =>
    cases hget : c.realVariableValue (i : Int) with
    | none =>
      refine ⟨?_, ?_⟩
      · intro j x _ _ _ hok
        simp [writeRealVariables, hget] at hok
      · intro j _
        simp [writeRealVariables, hget]
    | some y =>
      have hy : c.m_real_var_values[i]? = some y := by
        rwa [Case.realVariableValue, qvectorAt_natCast] at hget
      obtain ⟨iha, ihb⟩ := ih (i + 1) (m.setRealVariableValue i y)
      have hstep : writeRealVariables c (n + 1) i m =
          writeRealVariables c n (i + 1) (m.setRealVariableValue i y) := by
        simp only [writeRealVariables, hget]
      rw [hstep]
      refine ⟨?_, ?_⟩
      · intro j x h1 h2 hx hok
        by_cases hji : j = i
        · subst hji
          rw [hy] at hx
          cases hx
          rw [ihb j (Or.inl (Nat.lt_succ_self j))]
          simp [Model.setRealVariableValue, List.getElem?_modify_eq]
        · rw [iha j x (by omega) (by omega) hx hok]
          have hne : i ≠ j := fun h => hji h.symm
          simp [Model.setRealVariableValue, List.getElem?_modify_ne _ _ hne]
      · intro j hj
        rw [ihb j (by omega)]
        have hne : i ≠ j := by omega
        simp [Model.setRealVariableValue, List.getElem?_modify_ne _ _ hne]

/-- After the binary-variable loop, the variable at each visited index holds the Case value
of that index and the other variables are untouched. -/
theorem writeBinaryVariables_get (c : Case) (n i : Nat) (m : Model ρ) :
    (∀ (j : Nat) (x : ℚ), i ≤ j → j < i + n → c.m_binary_var_values[j]? = some x →
      (writeBinaryVariables c n i m).2 = true →
      (writeBinaryVariables c n i m).1.binaryVariables[j]? =
        (m.binaryVariables[j]?).map (fun v => v.setValue x)) ∧
    (∀ j : Nat, (j < i ∨ i + n ≤ j) →
      (writeBinaryVariables c n i m).1.binaryVariables[j]? = m.binaryVariables[j]?) := by
  induction n generalizing i m with
  | zero =>
    refine ⟨?_, ?_⟩
    · intro j x h1 h2; omega
    · intro j _; rfl
  | succ n ih =>
    cases hget : c.binaryVariableValue (i : Int) with
    | none =>
      refine ⟨?_, ?_⟩
      · intro j x _ _ _ hok
        simp [writeBinaryVariables, hget] at hok
      · intro j _
        simp [writeBinaryVariables, hget]
    | some y =>
      have hy : c.m_binary_var_values[i]? = some y := by
        rwa [Case.binaryVariableValue, qvectorAt_natCast] at hget
      obtain ⟨iha, ihb⟩ := ih (i + 1) (m.setBinaryVariableValue i y)
      have hstep : writeBinaryVariables c (n + 1) i m =
          writeBinaryVariables c n (i + 1) (m.setBinaryVariableValue i y) := by
        simp only [writeBinaryVariables, hget]
      rw [hstep]
      refine ⟨?_, ?_⟩
      · intro j x h1 h2 hx hok
        by_cases hji : j = i
        · subst hji
          rw [hy] at hx
          cases hx
          rw [ihb j (Or.inl (Nat.lt_succ_self j))]
          simp [Model.setBinaryVariableValue, List.getElem?_modify_eq]
        · rw [iha j x (by omega) (by omega) hx hok]
          have hne : i ≠ j := fun h => hji h.symm
          simp [Model.setBinaryVariableValue, List.getElem?_modify_ne _ _ hne]
      · intro j hj
        rw [ihb j (by omega)]
        have hne : i ≠ j := by omega
        simp [Model.setBinaryVariableValue, List.getElem?_modify_ne _ _ hne]

/-- Writing values the Model already holds leaves the Model as it is. -/
theorem writeRealVariables_same (c : Case) (n i : Nat) (m : Model ρ)
    (h : ∀ j : Nat, i ≤ j → j < i + n →
      ∃ v, m.realVariables[j]? = some v ∧ c.m_real_var_values[j]? = some v.value) :
    writeRealVariables c n i m = (m, true) := by
  induction n generalizing i with
  | zero => rfl
  | succ n ih =>
    obtain ⟨v, hv, hx⟩ := h i (Nat.le_refl i) (by omega)
    have hget : c.realVariableValue (i : Int) = some v.value := by
      rw [Case.realVariableValue, qvectorAt_natCast, hx]
    have hm : m.setRealVariableValue i v.value = m := by
      unfold Model.setRealVariableValue
      rw [modify_eq_self]
      intro a ha
      rw [hv] at ha
      cases ha
      rfl
    simp only [writeRealVariables, hget, hm]
    exact ih (i + 1) (fun j h1 h2 => h j (by omega) (by omega))

/-- Writing binary values the Model already holds leaves the Model as it is. -/
theorem writeBinaryVariables_same (c : Case) (n i : Nat) (m : Model ρ)
    (h : ∀ j : Nat, i ≤ j → j < i + n →
      ∃ v, m.binaryVariables[j]? = some v ∧ c.m_binary_var_values[j]? = some v.value) :
    writeBinaryVariables c n i m = (m, true) := by
  induction n generalizing i with
  | zero => rfl
  | succ n ih =>
    obtain ⟨v, hv, hx⟩ := h i (Nat.le_refl i) (by omega)
    have hget : c.binaryVariableValue (i : Int) = some v.value := by
      rw [Case.binaryVariableValue, qvectorAt_natCast, hx]
    have hm : m.setBinaryVariableValue i v.value = m := by
      unfold Model.setBinaryVariableValue
      rw [modify_eq_self]
      intro a ha
      rw [hv] at ha
      cases ha
      rfl
    simp only [writeBinaryVariables, hget, hm]
    exact ih (i + 1) (fun j h1 h2 => h j (by omega) (by omega))

theorem copyConstraints_eq (cons : List Constraint) (c : Case) :
    copyConstraints cons c =
      { c with m_constraint_values := c.m_constraint_values ++ cons.map (fun k => k.value) } := by
  unfold copyConstraints
  induction cons generalizing c with
  | nil => simp
  | cons k cons ih =>
    rw [List.foldl_cons, ih]
    simp [Case.addConstraintValue]

end WrittenValues

/-! ## The write loop of single-well evaluation -/

section WellLoop

variable {ρ : Type}

/-- The well loop changes nothing but the real variables. -/
theorem writeWellVariables_frame (c : Case) (wv : List Nat) (n i : Nat) (m : Model ρ) :
    (writeWellVariables c wv n i m).1.binaryVariables = m.binaryVariables ∧
    (writeWellVariables c wv n i m).1.constraints = m.constraints ∧
    (writeWellVariables c wv n i m).1.objective = m.objective ∧
    (writeWellVariables c wv n i m).1.wells = m.wells ∧
    (writeWellVariables c wv n i m).1.upToDate = m.upToDate ∧
    (writeWellVariables c wv n i m).1.rest = m.rest := by
  induction n generalizing i m with
  | zero => simp [writeWellVariables]
  | succ n ih =>
    cases hk : qvectorAt wv (i : Int) with
    | none => simp [writeWellVariables, hk]
    | some k =>
      cases hget : c.realVariableValue (i : Int) with
      | none => simp [writeWellVariables, hk, hget]
      | some x =>
        simp only [writeWellVariables, hk, hget]
        have := ih (i + 1) (m.setRealVariableValue k x)
        simpa [Model.setRealVariableValue] using this

/-- The well loop over distinct positions `wv`, with enough positions and enough Case values
for its `n` iterations from index `i`: it completes, the variable at position `wv[j]` ends
with Case value `j` for every index `j` it visits, and the other variables are untouched. -/
theorem writeWellVariables_spec (c : Case) (wv : List Nat) (hnd : wv.Nodup) (n i : Nat)
    (m : Model ρ) (h1 : i + n ≤ wv.length) (h2 : i + n ≤ c.m_real_var_values.length) :
    (writeWellVariables c wv n i m).2 = true ∧
    (∀ (j k : Nat) (x : ℚ), i ≤ j → j < i + n → wv[j]? = some k →
      c.m_real_var_values[j]? = some x →
      (writeWellVariables c wv n i m).1.realVariables[k]? =
        (m.realVariables[k]?).map (fun v => v.setValue x)) ∧
    (∀ k : Nat, (∀ j : Nat, i ≤ j → j < i + n → wv[j]? ≠ some k) →
      (writeWellVariables c wv n i m).1.realVariables[k]? = m.realVariables[k]?) := by
  induction n generalizing i m with
  | zero =>
    refine ⟨rfl, ?_, ?_⟩
    · intro j k x hij hji; omega
    · intro k _; rfl
  | succ n ih =>
    have hiw : i < wv.length := by omega
    have hic : i < c.m_real_var_values.length := by omega
    have hk : qvectorAt wv (i : Int) = some wv[i] := by
      rw [qvectorAt_natCast, List.getElem?_eq_getElem hiw]
    have hget : c.realVariableValue (i : Int) = some (c.m_real_var_values[i]) := by
      unfold Case.realVariableValue
      rw [qvectorAt_natCast, List.getElem?_eq_getElem hic]
    obtain ⟨ihok, iha, ihb⟩ :=
      ih (i + 1) (m.setRealVariableValue wv[i] c.m_real_var_values[i]) (by omega) (by omega)
    have hstep : writeWellVariables c wv (n + 1) i m =
        writeWellVariables c wv n (i + 1)
          (m.setRealVariableValue wv[i] c.m_real_var_values[i]) := by
      simp only [writeWellVariables, hk, hget]
    have hlater : ∀ j : Nat, i + 1 ≤ j → wv[j]? ≠ some wv[i] := by
      intro j hj hcon
      have : i = j := List.getElem?_inj hiw hnd (by
        rw [hcon, List.getElem?_eq_getElem hiw])
      omega
    rw [hstep]
    refine ⟨ihok, ?_, ?_⟩
    · intro j k x hij hji hjk hjx
      by_cases hji2 : j = i
      · subst hji2
        rw [List.getElem?_eq_getElem hiw, Option.some.injEq] at hjk
        rw [List.getElem?_eq_getElem hic, Option.some.injEq] at hjx
        subst hjk hjx
        rw [ihb wv[j] (fun j2 h3 _ => hlater j2 h3)]
        simp [Model.setRealVariableValue, List.getElem?_modify_eq]
      · have hne : wv[i] ≠ k := by
          intro hcon
          exact hlater j (by omega) (by rw [hjk, hcon])
        rw [iha j k x (by omega) (by omega) hjk hjx]
        simp [Model.setRealVariableValue, List.getElem?_modify_ne _ _ hne]
    · intro k hk2
      have hne : wv[i] ≠ k := by
        intro hcon
        exact hk2 i (Nat.le_refl i) (by omega) (by rw [List.getElem?_eq_getElem hiw, hcon])
      rw [ihb k (fun j h3 h4 => hk2 j (by omega) (by omega))]
      simp [Model.setRealVariableValue, List.getElem?_modify_ne _ _ hne]

theorem realVariablesOf_nodup (m : Model ρ) (w : Nat) : (m.realVariablesOf w).Nodup :=
  (List.nodup_range _).filter _

/-- Every position listed by `realVariablesOf` holds a variable whose parent is that well. -/
theorem realVariablesOf_mem (m : Model ρ) (w k : Nat) (h : k ∈ m.realVariablesOf w) :
    ∃ v, m.realVariables[k]? = some v ∧
      v.parent = some { kind := ComponentKind.well, id := w } := by
  unfold Model.realVariablesOf at h
  rw [List.mem_filter] at h
  obtain ⟨_, h2⟩ := h
  cases hv : m.realVariables[k]? with
  | none => simp [hv] at h2
  | some v =>
    refine ⟨v, rfl, ?_⟩
    simpa [hv] using h2

end WellLoop

/-! ## Whole-model evaluation: the log -/

section EntireModel

variable {ρ σ : Type}

theorem evaluateEntireModel_of_skip (ops : ModelOps ρ) (sim : ReservoirSimulator ρ σ)
    (l : Launcher ρ σ) (c : Case) (h : rerunReservoirSimulator l.p_model c = some false) :
    (evaluateEntireModel ops sim l c).launcher.p_simulator = l.p_simulator ∧
    ((evaluateEntireModel ops sim l c).launcher.log = l.log ∨
     (evaluateEntireModel ops sim l c).launcher.log = l.log ++ skipSteps) := by
  unfold evaluateEntireModel
  rw [h]
  rcases hr : writeRealVariables c l.p_model.realVariables.length 0 l.p_model with ⟨m1, b1⟩
  cases b1
  · simp
  · dsimp only
    rcases hb : writeBinaryVariables c m1.binaryVariables.length 0 m1 with ⟨m2, b2⟩
    cases b2
    · simp
    · simp [Launcher.emit, skipSteps]

theorem evaluateEntireModel_of_rerun (ops : ModelOps ρ) (sim : ReservoirSimulator ρ σ)
    (l : Launcher ρ σ) (c : Case) (h : rerunReservoirSimulator l.p_model c = some true)
    (hreal : l.p_model.realVariables.length ≤ c.m_real_var_values.length)
    (hbin : l.p_model.binaryVariables.length ≤ c.m_binary_var_values.length) :
    (evaluateEntireModel ops sim l c).status = Status.returned ∧
    (evaluateEntireModel ops sim l c).launcher.log = l.log ++ rerunSteps := by
  unfold evaluateEntireModel
  rw [h]
  have hr2 := writeRealVariables_ok c l.p_model.realVariables.length 0 l.p_model (by omega)
  have hrf := writeRealVariables_frame c l.p_model.realVariables.length 0 l.p_model
  rcases hr : writeRealVariables c l.p_model.realVariables.length 0 l.p_model with ⟨m1, b1⟩
  rw [hr] at hr2 hrf
  simp only at hr2 hrf
  subst hr2
  dsimp only
  have hb2 := writeBinaryVariables_ok c m1.binaryVariables.length 0 m1 (by
    rw [hrf.1]; omega)
  rcases hb : writeBinaryVariables c m1.binaryVariables.length 0 m1 with ⟨m2, b2⟩
  rw [hb] at hb2
  simp only at hb2
  subst hb2
  simp [Launcher.emit, rerunSteps, runReservoirSimulator]

end EntireModel

/-! ## Whole-model evaluation: the result -/

section EntireModelResult

variable {ρ σ : Type}

theorem evaluateEntireModel_returned (ops : ModelOps ρ) (sim : ReservoirSimulator ρ σ)
    (l : Launcher ρ σ) (c : Case) (b : Bool) (m1 m2 : Model ρ)
    (hrun : rerunReservoirSimulator l.p_model c = some b)
    (hr : writeRealVariables c l.p_model.realVariables.length 0 l.p_model = (m1, true))
    (hb : writeBinaryVariables c m1.binaryVariables.length 0 m1 = (m2, true)) :
    (evaluateEntireModel ops sim l c).status = Status.returned ∧
    (evaluateEntireModel ops sim l c).launcher.p_model =
      (ops.updateCycle (afterSimulator sim b l.p_simulator (m2.setUpToDate false))).setUpToDate
        true ∧
    (evaluateEntireModel ops sim l c).c =
      (copyConstraints (ops.updateCycle
          (afterSimulator sim b l.p_simulator (m2.setUpToDate false))).constraints
        c).setObjectiveValue
        (ops.updateCycle (afterSimulator sim b l.p_simulator (m2.setUpToDate false))).objective
    := by
  unfold evaluateEntireModel
  rw [hrun]
  dsimp only
  rw [hr]
  dsimp only
  rw [hb]
  cases b <;>
    simp [afterSimulator, ModelOps.updateCycle, runReservoirSimulator, Launcher.emit,
      Model.setUpToDate]

/-- After a returned whole-model evaluation with well-behaved collaborators, every real and
every binary variable of the Model holds the value the Case has at its index. -/
theorem evaluateEntireModel_holds_case (ops : ModelOps ρ) (sim : ReservoirSimulator ρ σ)
    (hops : RecomputesInPlace ops sim) (l : Launcher ρ σ) (c : Case)
    (hreal : l.p_model.realVariables.length ≤ c.m_real_var_values.length)
    (hbin : l.p_model.binaryVariables.length ≤ c.m_binary_var_values.length) :
    ∃ u : Model ρ,
      (evaluateEntireModel ops sim l c).status = Status.returned ∧
      (evaluateEntireModel ops sim l c).launcher.p_model = u.setUpToDate true ∧
      (evaluateEntireModel ops sim l c).c =
        (copyConstraints u.constraints c).setObjectiveValue u.objective ∧
      (∀ b : Bool, (ops.updateCycle (u.setUpToDate b)).constraints = u.constraints ∧
        (ops.updateCycle (u.setUpToDate b)).objective = u.objective) ∧
      u.realVariables.length = l.p_model.realVariables.length ∧
      u.binaryVariables.length = l.p_model.binaryVariables.length ∧
      (∀ j : Nat, j < u.realVariables.length →
        ∃ v, u.realVariables[j]? = some v ∧ c.m_real_var_values[j]? = some v.value) ∧
      (∀ j : Nat, j < u.binaryVariables.length →
        ∃ v, u.binaryVariables[j]? = some v ∧ c.m_binary_var_values[j]? = some v.value) := by
  obtain ⟨b, hrun⟩ := rerunReservoirSimulator_isSome l.p_model c hreal
  have hok1 := writeRealVariables_ok c l.p_model.realVariables.length 0 l.p_model (by omega)
  have hf1 := writeRealVariables_frame c l.p_model.realVariables.length 0 l.p_model
  have hg1 := (writeRealVariables_get c l.p_model.realVariables.length 0 l.p_model).1
  rcases hr : writeRealVariables c l.p_model.realVariables.length 0 l.p_model with ⟨m1, b1⟩
  rw [hr] at hok1 hf1 hg1
  simp only at hok1 hf1 hg1
  subst hok1
  obtain ⟨hf1b, _, _, _, _, _, hf1len⟩ := hf1
  have hok2 := writeBinaryVariables_ok c m1.binaryVariables.length 0 m1 (by
    rw [hf1b]; omega)
  have hf2 := writeBinaryVariables_frame c m1.binaryVariables.length 0 m1
  have hg2 := (writeBinaryVariables_get c m1.binaryVariables.length 0 m1).1
  rcases hb : writeBinaryVariables c m1.binaryVariables.length 0 m1 with ⟨m2, b2⟩
  rw [hb] at hok2 hf2 hg2
  simp only at hok2 hf2 hg2
  subst hok2
  obtain ⟨hf2r, _, _, _, _, _, hf2len⟩ := hf2
  obtain ⟨hst, hmodel, hcase⟩ := evaluateEntireModel_returned ops sim l c b m1 m2 hrun hr hb
  have hAr : (afterSimulator sim b l.p_simulator (m2.setUpToDate false)).realVariables =
      m1.realVariables := by
    cases b
    · simpa [afterSimulator, Model.setUpToDate] using hf2r
    · simp only [afterSimulator, if_true]
      rw [hops.readOutput_realVariables]
      simpa [Model.setUpToDate] using hf2r
  have hAb : (afterSimulator sim b l.p_simulator (m2.setUpToDate false)).binaryVariables =
      m2.binaryVariables := by
    cases b
    · simp [afterSimulator, Model.setUpToDate]
    · simp only [afterSimulator, if_true]
      rw [hops.readOutput_binaryVariables]
      simp [Model.setUpToDate]
  refine ⟨ops.updateCycle (afterSimulator sim b l.p_simulator (m2.setUpToDate false)),
    hst, hmodel, hcase, ?_, ?_, ?_, ?_, ?_⟩
  · intro b2
    exact ⟨hops.updateCycle_again_constraints _ b2, hops.updateCycle_again_objective _ b2⟩
  · rw [hops.updateCycle_realVariables, hAr, hf1len]
  · rw [hops.updateCycle_binaryVariables, hAb, hf2len, hf1b]
  · intro j hj
    rw [hops.updateCycle_realVariables, hAr] at hj ⊢
    rw [hf1len] at hj
    have hjc : j < c.m_real_var_values.length := by omega
    rw [hg1 j c.m_real_var_values[j] (Nat.zero_le j) (by omega)
      (List.getElem?_eq_getElem hjc) rfl, List.getElem?_eq_getElem hj]
    exact ⟨_, rfl, by rw [List.getElem?_eq_getElem hjc]; rfl⟩
  · intro j hj
    rw [hops.updateCycle_binaryVariables, hAb] at hj ⊢
    rw [hf2len] at hj
    have hj0 : j < l.p_model.binaryVariables.length := by rw [← hf1b]; exact hj
    have hjc : j < c.m_binary_var_values.length := by omega
    rw [hg2 j c.m_binary_var_values[j] (Nat.zero_le j) (by omega)
      (List.getElem?_eq_getElem hjc) rfl, List.getElem?_eq_getElem hj]
    exact ⟨_, rfl, by rw [List.getElem?_eq_getElem hjc]; rfl⟩

/-- Complete result of a whole-model evaluation whose reads all succeed. -/
theorem evaluateEntireModel_full (ops : ModelOps ρ) (sim : ReservoirSimulator ρ σ)
    (l : Launcher ρ σ) (c : Case) (b : Bool) (m1 m2 : Model ρ)
    (hrun : rerunReservoirSimulator l.p_model c = some b)
    (hr : writeRealVariables c l.p_model.realVariables.length 0 l.p_model = (m1, true))
    (hb : writeBinaryVariables c m1.binaryVariables.length 0 m1 = (m2, true)) :
    (evaluateEntireModel ops sim l c).launcher.p_simulator =
      (if b then sim.launchSimulator
          (sim.generateInputFiles (m2.setUpToDate false) l.p_simulator)
        else l.p_simulator) ∧
    (evaluateEntireModel ops sim l c).launcher.log =
      l.log ++ (if b then rerunSteps else skipSteps) := by
  unfold evaluateEntireModel
  rw [hrun]
  dsimp only
  rw [hr]
  dsimp only
  rw [hb]
  cases b <;>
    simp [runReservoirSimulator, Launcher.emit, rerunSteps, skipSteps]

/-- With enough real and binary values in the Case, a whole-model evaluation returns; `m2`
is the Model after the two write loops and `setUpToDate(false)`. -/
theorem evaluateEntireModel_of_enough (ops : ModelOps ρ) (sim : ReservoirSimulator ρ σ)
    (l : Launcher ρ σ) (c : Case)
    (hreal : l.p_model.realVariables.length ≤ c.m_real_var_values.length)
    (hbin : l.p_model.binaryVariables.length ≤ c.m_binary_var_values.length) :
    ∃ (m2 : Model ρ) (b : Bool),
      rerunReservoirSimulator l.p_model c = some b ∧
      m2.upToDate = false ∧
      m2.realVariables.length = l.p_model.realVariables.length ∧
      m2.binaryVariables.length = l.p_model.binaryVariables.length ∧
      (∀ j : Nat, j < l.p_model.realVariables.length →
        ∃ v, m2.realVariables[j]? = some v ∧ c.m_real_var_values[j]? = some v.value) ∧
      (∀ j : Nat, j < l.p_model.binaryVariables.length →
        ∃ v, m2.binaryVariables[j]? = some v ∧ c.m_binary_var_values[j]? = some v.value) ∧
      (evaluateEntireModel ops sim l c).status = Status.returned ∧
      (evaluateEntireModel ops sim l c).launcher.p_model =
        (ops.updateCycle (afterSimulator sim b l.p_simulator m2)).setUpToDate true ∧
      (evaluateEntireModel ops sim l c).launcher.p_simulator =
        (if b then sim.launchSimulator (sim.generateInputFiles m2 l.p_simulator)
          else l.p_simulator) ∧
      (evaluateEntireModel ops sim l c).launcher.log =
        l.log ++ (if b then rerunSteps else skipSteps) ∧
      (evaluateEntireModel ops sim l c).c =
        (copyConstraints (ops.updateCycle (afterSimulator sim b l.p_simulator m2)).constraints
          c).setObjectiveValue
          (ops.updateCycle (afterSimulator sim b l.p_simulator m2)).objective := by
  obtain ⟨b, hrun⟩ := rerunReservoirSimulator_isSome l.p_model c hreal
  have hok1 := writeRealVariables_ok c l.p_model.realVariables.length 0 l.p_model (by omega)
  have hf1 := writeRealVariables_frame c l.p_model.realVariables.length 0 l.p_model
  have hg1 := (writeRealVariables_get c l.p_model.realVariables.length 0 l.p_model).1
  rcases hr : writeRealVariables c l.p_model.realVariables.length 0 l.p_model with ⟨m1, b1⟩
  rw [hr] at hok1 hf1 hg1
  simp only at hok1 hf1 hg1
  subst hok1
  obtain ⟨hf1b, _, _, _, _, _, hf1len⟩ := hf1
  have hok2 := writeBinaryVariables_ok c m1.binaryVariables.length 0 m1 (by
    rw [hf1b]; omega)
  have hf2 := writeBinaryVariables_frame c m1.binaryVariables.length 0 m1
  have hg2 := (writeBinaryVariables_get c m1.binaryVariables.length 0 m1).1
  rcases hb : writeBinaryVariables c m1.binaryVariables.length 0 m1 with ⟨m2, b2⟩
  rw [hb] at hok2 hf2 hg2
  simp only at hok2 hf2 hg2
  subst hok2
  obtain ⟨hf2r, _, _, _, _, _, hf2len⟩ := hf2
  obtain ⟨hst, hmodel, hcase⟩ := evaluateEntireModel_returned ops sim l c b m1 m2 hrun hr hb
  obtain ⟨hsim, hlog⟩ := evaluateEntireModel_full ops sim l c b m1 m2 hrun hr hb
  refine ⟨m2.setUpToDate false, b, hrun, rfl, ?_, ?_, ?_, ?_, hst, hmodel, hsim, hlog, hcase⟩
  · show m2.realVariables.length = _
    rw [hf2r, hf1len]
  · show m2.binaryVariables.length = _
    rw [hf2len, hf1b]
  · intro j hj
    show ∃ v, m2.realVariables[j]? = some v ∧ _
    have hjc : j < c.m_real_var_values.length := by omega
    rw [hf2r, hg1 j c.m_real_var_values[j] (Nat.zero_le j) (by omega)
      (List.getElem?_eq_getElem hjc) rfl, List.getElem?_eq_getElem hj]
    exact ⟨_, rfl, by rw [List.getElem?_eq_getElem hjc]; rfl⟩
  · intro j hj
    show ∃ v, m2.binaryVariables[j]? = some v ∧ _
    have hj1 : j < m1.binaryVariables.length := by rw [hf1b]; exact hj
    have hjc : j < c.m_binary_var_values.length := by omega
    rw [hg2 j c.m_binary_var_values[j] (Nat.zero_le j) (by omega)
      (List.getElem?_eq_getElem hjc) rfl, List.getElem?_eq_getElem hj1]
    exact ⟨_, rfl, by rw [List.getElem?_eq_getElem hjc]; rfl⟩

end EntireModelResult

/-! ## Claims on the rerun decision -/

/-- C1: for a Case carrying at least as many real values as the Model has real variables,
`rerunReservoirSimulator` returns a value, and that value is `true` if and only if the Model
is not up to date or some real variable of the Model owned by a Well has a Case value
different from the value stored in the Model at the same index. -/
theorem rerunReservoirSimulator_true_iff {ρ : Type} (m : Model ρ) (c : Case)
    (h : (m.realVariables.length : Int) ≤ c.numberOfRealVariables) :
    ∃ b, rerunReservoirSimulator m c = some b ∧
      (b = true ↔ (m.isUpToDate = false ∨
        ∃ (i : Nat) (v : RealVariable) (x : ℚ), m.realVariables[i]? = some v ∧
          v.parentIsWell = true ∧ c.realVariableValue (i : Int) = some x ∧ x ≠ v.value)) := by
  have hlen : 0 + m.realVariables.length ≤ c.m_real_var_values.length := by
    unfold Case.numberOfRealVariables at h; omega
  obtain ⟨b, hb, hiff⟩ := rerunLoop_spec c m.realVariables 0 hlen
  by_cases hu : m.isUpToDate = true
  · refine ⟨b, by simp [rerunReservoirSimulator, hu, hb], ?_⟩
    rw [hiff]
    simp only [hu, Bool.true_eq_false, false_or, Nat.zero_add, Case.realVariableValue,
      qvectorAt_natCast]
  · refine ⟨true, by simp [rerunReservoirSimulator, hu], ?_⟩
    simp only [true_iff]
    left
    simpa using hu

/-- Witness of C1 on a Case that changes the well variable of `freshModel`. -/
theorem rerunReservoirSimulator_true_iff_witness :
    ((freshModel.realVariables.length : Int) ≤ (caseOfReals [6, 1]).numberOfRealVariables) ∧
    ∃ b, rerunReservoirSimulator freshModel (caseOfReals [6, 1]) = some b ∧
      (b = true ↔ (freshModel.isUpToDate = false ∨
        ∃ (i : Nat) (v : RealVariable) (x : ℚ), freshModel.realVariables[i]? = some v ∧
          v.parentIsWell = true ∧ (caseOfReals [6, 1]).realVariableValue (i : Int) = some x ∧
          x ≠ v.value)) :=
  ⟨by decide, rerunReservoirSimulator_true_iff freshModel (caseOfReals [6, 1]) (by decide)⟩

/-- C5: for a fixed Model state, two Cases that agree at the index of every real variable
owned by a Well get the same result from `rerunReservoirSimulator`, whatever their values at
the other real indices and whatever their binary and integer values. -/
theorem rerunReservoirSimulator_nonwell_irrelevant {ρ : Type} (m : Model ρ) (c1 c2 : Case)
    (h : ∀ (i : Nat) (v : RealVariable), m.realVariables[i]? = some v →
      v.parentIsWell = true → c1.realVariableValue (i : Int) = c2.realVariableValue (i : Int)) :
    rerunReservoirSimulator m c1 = rerunReservoirSimulator m c2 := by
  unfold rerunReservoirSimulator
  have := rerunLoop_congr c1 c2 m.realVariables 0 (by
    intro j v hj hw
    simpa using h j v hj hw)
  rw [this]

/-- Witness of C5: the two Cases differ at the pipe variable, in their binary values and in
their integer values. -/
theorem rerunReservoirSimulator_nonwell_irrelevant_witness :
    (∀ (i : Nat) (v : RealVariable), freshModel.realVariables[i]? = some v →
      v.parentIsWell = true →
      (caseOfReals [5, 1]).realVariableValue (i : Int) =
        ({ caseOfReals [5, 9] with m_binary_var_values := [1],
                                   m_integer_var_values := [4] } : Case).realVariableValue
          (i : Int)) ∧
    rerunReservoirSimulator freshModel (caseOfReals [5, 1]) =
      rerunReservoirSimulator freshModel
        { caseOfReals [5, 9] with m_binary_var_values := [1], m_integer_var_values := [4] } :=
  have hyp : ∀ (i : Nat) (v : RealVariable), freshModel.realVariables[i]? = some v →
      v.parentIsWell = true →
      (caseOfReals [5, 1]).realVariableValue (i : Int) =
        ({ caseOfReals [5, 9] with m_binary_var_values := [1],
                                   m_integer_var_values := [4] } : Case).realVariableValue
          (i : Int) := by
    intro i v hv hw
    match i, hv with
    | 0, _ => rfl
    | 1, hv =>
      simp only [freshModel, List.getElem?_cons_succ, List.getElem?_cons_zero,
        Option.some.injEq] at hv
      subst hv
      exact absurd hw (by decide)
    | _ + 2, hv => simp [freshModel] at hv
  ⟨hyp, rerunReservoirSimulator_nonwell_irrelevant freshModel _ _ hyp⟩

/-! ## Claims on whole-model evaluation -/

/-- C2: when the Case has as many real values as the Model has real variables, the Model is
up to date and every real variable owned by a Well has in the Case the value stored in the
Model, `evaluateEntireModel` adds no simulator call (`generateInputFiles`,
`launchSimulator`, `readOutput`) to the log and leaves the simulator state as it was. -/
theorem evaluateEntireModel_skips_simulator {ρ σ : Type} (ops : ModelOps ρ)
    (sim : ReservoirSimulator ρ σ) (l : Launcher ρ σ) (c : Case)
    (hcount : c.numberOfRealVariables = (l.p_model.realVariables.length : Int))
    (hfresh : l.p_model.isUpToDate = true)
    (hsame : ∀ (i : Nat) (v : RealVariable), l.p_model.realVariables[i]? = some v →
      v.parentIsWell = true → c.realVariableValue (i : Int) = some v.value) :
    (∃ es, (evaluateEntireModel ops sim l c).launcher.log = l.log ++ es ∧
      ∀ e ∈ es, e.isSimulatorCall = false) ∧
    (evaluateEntireModel ops sim l c).launcher.p_simulator = l.p_simulator := by
  have hskip : rerunReservoirSimulator l.p_model c = some false := by
    apply rerunReservoirSimulator_of_same l.p_model c _ hfresh
    · intro i v hv hw
      have := hsame i v hv hw
      rwa [Case.realVariableValue, qvectorAt_natCast] at this
    · unfold Case.numberOfRealVariables at hcount; omega
  obtain ⟨hsim, hlog | hlog⟩ := evaluateEntireModel_of_skip ops sim l c hskip
  · exact ⟨⟨[], by simp [hlog], by simp⟩, hsim⟩
  · refine ⟨⟨skipSteps, hlog, ?_⟩, hsim⟩
    intro e he
    simp only [skipSteps, List.mem_cons, List.mem_singleton, List.not_mem_nil, or_false] at he
    rcases he with rfl | rfl | rfl | rfl | rfl <;> rfl

/-- Witness of C2: the Case keeps the well variable of `freshModel` and changes its pipe
variable. -/
theorem evaluateEntireModel_skips_simulator_witness :
    ((caseOfReals [5, 3]).numberOfRealVariables =
      (freshLauncher.p_model.realVariables.length : Int)) ∧
    freshLauncher.p_model.isUpToDate = true ∧
    (∀ (i : Nat) (v : RealVariable), freshLauncher.p_model.realVariables[i]? = some v →
      v.parentIsWell = true → (caseOfReals [5, 3]).realVariableValue (i : Int) = some v.value) ∧
    (∃ es, (evaluateEntireModel idleOps countingSimulator freshLauncher
          (caseOfReals [5, 3])).launcher.log = freshLauncher.log ++ es ∧
      ∀ e ∈ es, e.isSimulatorCall = false) ∧
    (evaluateEntireModel idleOps countingSimulator freshLauncher
      (caseOfReals [5, 3])).launcher.p_simulator = freshLauncher.p_simulator :=
  have hyp : ∀ (i : Nat) (v : RealVariable), freshLauncher.p_model.realVariables[i]? = some v →
      v.parentIsWell = true →
      (caseOfReals [5, 3]).realVariableValue (i : Int) = some v.value := by
    intro i v hv hw
    match i, hv with
    | 0, hv =>
      simp only [freshLauncher, freshModel, List.getElem?_cons_zero, Option.some.injEq] at hv
      subst hv
      rfl
    | 1, hv =>
      simp only [freshLauncher, freshModel, List.getElem?_cons_succ, List.getElem?_cons_zero,
        Option.some.injEq] at hv
      subst hv
      exact absurd hw (by decide)
    | _ + 2, hv => simp [freshLauncher, freshModel] at hv
  ⟨by decide, rfl, hyp,
    evaluateEntireModel_skips_simulator idleOps countingSimulator freshLauncher
      (caseOfReals [5, 3]) (by decide) rfl hyp⟩

/-- C3: when the Case has as many real values as the Model has real variables and some real
variable owned by a Well differs from the stored value, `evaluateEntireModel` runs to its
end after logging exactly one `generateInputFiles`, then one `launchSimulator`, then one
`readOutput`, and no other simulator call. As the contract of a `Case` requires (`case.h`:
the numbers of binary and real variables in the Case must match the Model), the Case holds
a value for each binary variable of the Model (hypothesis `hbin`), so that every read of the
call stays within the bounds. -/
theorem evaluateEntireModel_reruns_once {ρ σ : Type} (ops : ModelOps ρ)
    (sim : ReservoirSimulator ρ σ) (l : Launcher ρ σ) (c : Case)
    (hcount : c.numberOfRealVariables = (l.p_model.realVariables.length : Int))
    (hbin : (l.p_model.binaryVariables.length : Int) ≤ c.numberOfBinaryVariables)
    (hdiff : ∃ (i : Nat) (v : RealVariable) (x : ℚ), l.p_model.realVariables[i]? = some v ∧
      v.parentIsWell = true ∧ c.realVariableValue (i : Int) = some x ∧ x ≠ v.value) :
    (evaluateEntireModel ops sim l c).status = Status.returned ∧
    ∃ es, (evaluateEntireModel ops sim l c).launcher.log = l.log ++ es ∧
      es.filter Event.isSimulatorCall =
        [Event.generateInputFiles, Event.launchSimulator, Event.readOutput] := by
  unfold Case.numberOfRealVariables at hcount
  unfold Case.numberOfBinaryVariables at hbin
  have hrerun : rerunReservoirSimulator l.p_model c = some true := by
    apply rerunReservoirSimulator_of_diff l.p_model c (by omega)
    obtain ⟨i, v, x, h1, h2, h3, h4⟩ := hdiff
    rw [Case.realVariableValue, qvectorAt_natCast] at h3
    exact ⟨i, v, x, h1, h2, h3, h4⟩
  obtain ⟨hst, hlog⟩ := evaluateEntireModel_of_rerun ops sim l c hrerun (by omega) (by omega)
  exact ⟨hst, rerunSteps, hlog, rfl⟩

/-- Witness of C3 on `binaryModel`, with a Case that changes the well variable and carries a
binary value. -/
theorem evaluateEntireModel_reruns_once_witness :
    (({ caseOfReals [6] with m_binary_var_values := [1] } : Case).numberOfRealVariables =
      (binaryLauncher.p_model.realVariables.length : Int)) ∧
    ((binaryLauncher.p_model.binaryVariables.length : Int) ≤
      ({ caseOfReals [6] with m_binary_var_values := [1] } : Case).numberOfBinaryVariables) ∧
    (evaluateEntireModel idleOps countingSimulator binaryLauncher
      { caseOfReals [6] with m_binary_var_values := [1] }).status = Status.returned ∧
    ∃ es, (evaluateEntireModel idleOps countingSimulator binaryLauncher
        { caseOfReals [6] with m_binary_var_values := [1] }).launcher.log
          = binaryLauncher.log ++ es ∧
      es.filter Event.isSimulatorCall =
        [Event.generateInputFiles, Event.launchSimulator, Event.readOutput] :=
  ⟨by decide, by decide,
    evaluateEntireModel_reruns_once idleOps countingSimulator binaryLauncher
      { caseOfReals [6] with m_binary_var_values := [1] } (by decide) (by decide)
      ⟨0, wellVariable 0 5, 6, rfl, rfl, rfl, by decide⟩⟩

/-- C4, as stated, fails: `mirrorOps` and `countingSimulator` recompute in place, the Case
`(6, 1)` matches the variable counts of `freshModel` and is evaluated (the simulator runs,
the Case receives the constraint values 6 and 1); evaluating then the identical copy of
that evaluated Case, which carries the same real and binary values, skips the simulator and
leaves the copy with four constraint values where the first Case has two. -/
theorem evaluateEntireModel_roundtrip_counterexample :
    RecomputesInPlace mirrorOps countingSimulator ∧
    (caseOfReals [6, 1]).numberOfRealVariables =
      (freshLauncher.p_model.realVariables.length : Int) ∧
    (caseOfReals [6, 1]).numberOfBinaryVariables =
      (freshLauncher.p_model.binaryVariables.length : Int) ∧
    (evaluateEntireModel mirrorOps countingSimulator freshLauncher
      (caseOfReals [6, 1])).c.m_real_var_values = (caseOfReals [6, 1]).m_real_var_values ∧
    (evaluateEntireModel mirrorOps countingSimulator freshLauncher
      (caseOfReals [6, 1])).c.m_binary_var_values = (caseOfReals [6, 1]).m_binary_var_values ∧
    (evaluateEntireModel mirrorOps countingSimulator freshLauncher
      (caseOfReals [6, 1])).c.m_constraint_values = [6, 1] ∧
    (evaluateEntireModel mirrorOps countingSimulator
      (evaluateEntireModel mirrorOps countingSimulator freshLauncher
        (caseOfReals [6, 1])).launcher
      (evaluateEntireModel mirrorOps countingSimulator freshLauncher
        (caseOfReals [6, 1])).c).c.m_constraint_values = [6, 1, 6, 1] ∧
    (evaluateEntireModel mirrorOps countingSimulator
      (evaluateEntireModel mirrorOps countingSimulator freshLauncher
        (caseOfReals [6, 1])).launcher
      (evaluateEntireModel mirrorOps countingSimulator freshLauncher
        (caseOfReals [6, 1])).c).c.numberOfConstraints ≠
      (evaluateEntireModel mirrorOps countingSimulator freshLauncher
        (caseOfReals [6, 1])).c.numberOfConstraints :=
  ⟨⟨fun _ _ => rfl, fun _ _ => rfl, fun _ => rfl, fun _ => rfl, fun _ _ => rfl,
      fun _ _ => rfl⟩,
    by decide, by decide, by decide, by decide, by decide, by decide, by decide⟩

/-- C4, amended: with collaborators that recompute in place, for a Case `c` whose variable
counts match the Model and a second Case `c2` that carries the same real and binary values
and, on submission, the same constraint values as `c` carried on its own submission (for
instance none in both), evaluating `c` and then `c2` returns both times and leaves `c2` with
the same objective value and the same constraint values as `c` has after its evaluation. -/
theorem evaluateEntireModel_roundtrip {ρ σ : Type} (ops : ModelOps ρ)
    (sim : ReservoirSimulator ρ σ) (hops : RecomputesInPlace ops sim) (l : Launcher ρ σ)
    (c c2 : Case)
    (hreal : c.numberOfRealVariables = (l.p_model.realVariables.length : Int))
    (hbin : c.numberOfBinaryVariables = (l.p_model.binaryVariables.length : Int))
    (h2r : c2.m_real_var_values = c.m_real_var_values)
    (h2b : c2.m_binary_var_values = c.m_binary_var_values)
    (h2c : c2.m_constraint_values = c.m_constraint_values) :
    (evaluateEntireModel ops sim l c).status = Status.returned ∧
    (evaluateEntireModel ops sim (evaluateEntireModel ops sim l c).launcher c2).status =
      Status.returned ∧
    (evaluateEntireModel ops sim (evaluateEntireModel ops sim l c).launcher c2).c.objectiveValue
      = (evaluateEntireModel ops sim l c).c.objectiveValue ∧
    (evaluateEntireModel ops sim
      (evaluateEntireModel ops sim l c).launcher c2).c.m_constraint_values =
      (evaluateEntireModel ops sim l c).c.m_constraint_values := by
  unfold Case.numberOfRealVariables at hreal
  unfold Case.numberOfBinaryVariables at hbin
  obtain ⟨u, hst, hmodel, hcase, hagain, hlr, hlb, hvr, hvb⟩ :=
    evaluateEntireModel_holds_case ops sim hops l c (by omega) (by omega)
  have hvr2 : ∀ j : Nat, 0 ≤ j → j < 0 + (u.setUpToDate true).realVariables.length →
      ∃ v, (u.setUpToDate true).realVariables[j]? = some v ∧
        c2.m_real_var_values[j]? = some v.value := by
    intro j _ hj
    rw [h2r]
    exact hvr j (by simpa [Model.setUpToDate] using hj)
  have hvb2 : ∀ j : Nat, 0 ≤ j → j < 0 + (u.setUpToDate true).binaryVariables.length →
      ∃ v, (u.setUpToDate true).binaryVariables[j]? = some v ∧
        c2.m_binary_var_values[j]? = some v.value := by
    intro j _ hj
    rw [h2b]
    exact hvb j (by simpa [Model.setUpToDate] using hj)
  have hrun2 : rerunReservoirSimulator (evaluateEntireModel ops sim l c).launcher.p_model c2 =
      some false := by
    rw [hmodel]
    apply rerunReservoirSimulator_of_same
    · rw [h2r]
      show u.realVariables.length ≤ c.m_real_var_values.length
      omega
    · rfl
    · intro i v hv _
      have hi : i < (u.setUpToDate true).realVariables.length := by
        by_contra hcon
        rw [List.getElem?_eq_none (Nat.le_of_not_lt hcon)] at hv
        cases hv
      obtain ⟨v2, hv2, hx⟩ := hvr2 i (Nat.zero_le i) (by omega)
      rw [hv] at hv2
      cases hv2
      exact hx
  have hr2 : writeRealVariables c2
      (evaluateEntireModel ops sim l c).launcher.p_model.realVariables.length 0
      (evaluateEntireModel ops sim l c).launcher.p_model =
      ((evaluateEntireModel ops sim l c).launcher.p_model, true) := by
    rw [hmodel]
    exact writeRealVariables_same c2 _ 0 _ hvr2
  have hb2 : writeBinaryVariables c2
      (evaluateEntireModel ops sim l c).launcher.p_model.binaryVariables.length 0
      (evaluateEntireModel ops sim l c).launcher.p_model =
      ((evaluateEntireModel ops sim l c).launcher.p_model, true) := by
    rw [hmodel]
    exact writeBinaryVariables_same c2 _ 0 _ hvb2
  obtain ⟨hst2, _, hcase2⟩ := evaluateEntireModel_returned ops sim
    (evaluateEntireModel ops sim l c).launcher c2 false _ _ hrun2 hr2 hb2
  have hflag : (evaluateEntireModel ops sim l c).launcher.p_model.setUpToDate false =
      u.setUpToDate false := by
    rw [hmodel]; rfl
  refine ⟨hst, hst2, ?_, ?_⟩
  · rw [hcase2, hcase]
    simp only [afterSimulator, Bool.false_eq_true, if_false, hflag, (hagain false).2,
      Case.setObjectiveValue, Case.objectiveValue]
  · rw [hcase2, hcase]
    simp only [afterSimulator, Bool.false_eq_true, if_false, hflag, (hagain false).1,
      Case.setObjectiveValue, copyConstraints_eq, h2c]

/-- Witness of C4 (amended): the Case `(6, 1)` on `freshModel`, then a copy of it as it was
submitted; both end with the constraint values 6 and 1 and the objective 6. -/
theorem evaluateEntireModel_roundtrip_witness :
    RecomputesInPlace mirrorOps countingSimulator ∧
    (caseOfReals [6, 1]).numberOfRealVariables =
      (freshLauncher.p_model.realVariables.length : Int) ∧
    (caseOfReals [6, 1]).numberOfBinaryVariables =
      (freshLauncher.p_model.binaryVariables.length : Int) ∧
    (evaluateEntireModel mirrorOps countingSimulator
      (evaluateEntireModel mirrorOps countingSimulator freshLauncher
        (caseOfReals [6, 1])).launcher (caseOfReals [6, 1])).c =
      { caseOfReals [6, 1] with m_constraint_values := [6, 1], m_objective_value := 6 } ∧
    (evaluateEntireModel mirrorOps countingSimulator freshLauncher (caseOfReals [6, 1])).status =
      Status.returned ∧
    (evaluateEntireModel mirrorOps countingSimulator
      (evaluateEntireModel mirrorOps countingSimulator freshLauncher
        (caseOfReals [6, 1])).launcher (caseOfReals [6, 1])).status = Status.returned ∧
    (evaluateEntireModel mirrorOps countingSimulator
      (evaluateEntireModel mirrorOps countingSimulator freshLauncher
        (caseOfReals [6, 1])).launcher (caseOfReals [6, 1])).c.objectiveValue =
      (evaluateEntireModel mirrorOps countingSimulator freshLauncher
        (caseOfReals [6, 1])).c.objectiveValue ∧
    (evaluateEntireModel mirrorOps countingSimulator
      (evaluateEntireModel mirrorOps countingSimulator freshLauncher
        (caseOfReals [6, 1])).launcher (caseOfReals [6, 1])).c.m_constraint_values =
      (evaluateEntireModel mirrorOps countingSimulator freshLauncher
        (caseOfReals [6, 1])).c.m_constraint_values :=
  have hops : RecomputesInPlace mirrorOps countingSimulator :=
    ⟨fun _ _ => rfl, fun _ _ => rfl, fun _ => rfl, fun _ => rfl, fun _ _ => rfl,
      fun _ _ => rfl⟩
  ⟨hops, by decide, by decide, by decide,
    evaluateEntireModel_roundtrip mirrorOps countingSimulator hops freshLauncher
      (caseOfReals [6, 1]) (caseOfReals [6, 1]) (by decide) (by decide) rfl rfl rfl⟩

/-! ## Claims on single-pipe evaluation -/

/-- C6: for a Case whose real-variable count is not 4, `evaluatePipe` reports a runtime
error and stops the process with exit status 1; it logs nothing else (no pressure drop
call, no simulator call), leaves the Model (variable values and up-to-date flag) and the
simulator as they were, and leaves the Case, its objective included, unchanged. -/
theorem evaluatePipe_wrong_count_exits {ρ σ : Type} (l : Launcher ρ σ) (c : Case) (p : Pipe)
    (h : c.numberOfRealVariables ≠ 4) :
    (evaluatePipe l c p).status = Status.exited 1 ∧
    (evaluatePipe l c p).launcher.log = l.log ++ [Event.runtimeError] ∧
    (evaluatePipe l c p).launcher.p_model = l.p_model ∧
    (evaluatePipe l c p).launcher.p_simulator = l.p_simulator ∧
    (evaluatePipe l c p).c = c := by
  simp [evaluatePipe, h, Launcher.emit]

/-- Witness of C6 on a Case with two real values. -/
theorem evaluatePipe_wrong_count_exits_witness :
    (caseOfReals [5, 3]).numberOfRealVariables ≠ 4 ∧
    (evaluatePipe freshLauncher (caseOfReals [5, 3]) samplePipe).status = Status.exited 1 ∧
    (evaluatePipe freshLauncher (caseOfReals [5, 3]) samplePipe).launcher.log =
      freshLauncher.log ++ [Event.runtimeError] ∧
    (evaluatePipe freshLauncher (caseOfReals [5, 3]) samplePipe).launcher.p_model =
      freshLauncher.p_model ∧
    (evaluatePipe freshLauncher (caseOfReals [5, 3]) samplePipe).launcher.p_simulator =
      freshLauncher.p_simulator ∧
    (evaluatePipe freshLauncher (caseOfReals [5, 3]) samplePipe).c = caseOfReals [5, 3] :=
  ⟨by decide, evaluatePipe_wrong_count_exits freshLauncher (caseOfReals [5, 3]) samplePipe
    (by decide)⟩

/-- C7: for a Case with exactly 4 real values `v0, v1, v2, v3`, `evaluatePipe` returns with
the Case's objective set to the pipe calculator's `pressureDrop` of the stream
`Stream(0, v0, v1, v2, 0)` with boundary pressure `v3`; the other fields of the Case are
unchanged, the only logged step is that one calculator call (no simulator call), and the
Model and the simulator are left as they were. -/
theorem evaluatePipe_sets_pressure_drop {ρ σ : Type} (l : Launcher ρ σ) (c : Case) (p : Pipe)
    (v0 v1 v2 v3 : ℚ) (h : c.m_real_var_values = [v0, v1, v2, v3]) :
    (evaluatePipe l c p).status = Status.returned ∧
    (evaluatePipe l c p).c =
      { c with m_objective_value :=
          p.calculator { time := 0, oilRate := v0, gasRate := v1, waterRate := v2,
                         pressure := 0 } v3 } ∧
    (evaluatePipe l c p).launcher.log =
      l.log ++ [Event.pressureDrop p.number
        { time := 0, oilRate := v0, gasRate := v1, waterRate := v2, pressure := 0 } v3] ∧
    (evaluatePipe l c p).launcher.p_model = l.p_model ∧
    (evaluatePipe l c p).launcher.p_simulator = l.p_simulator := by
  simp [evaluatePipe, Case.numberOfRealVariables, Case.realVariableValue, qvectorAt, h,
    Launcher.emit, Case.setObjectiveValue]

/-- Witness of C7 on the Case `(10, 20, 30, 100)` and `samplePipe`: the objective becomes
`100 + 10 + 20 + 30`. -/
theorem evaluatePipe_sets_pressure_drop_witness :
    (caseOfReals [10, 20, 30, 100]).m_real_var_values = [10, 20, 30, 100] ∧
    (evaluatePipe freshLauncher (caseOfReals [10, 20, 30, 100]) samplePipe).c.objectiveValue
      = 160 ∧
    (evaluatePipe freshLauncher (caseOfReals [10, 20, 30, 100]) samplePipe).status =
      Status.returned ∧
    (evaluatePipe freshLauncher (caseOfReals [10, 20, 30, 100]) samplePipe).c =
      Case.mk [10, 20, 30, 100] [] [] [] (samplePipe.calculator (Stream.mk 0 10 20 30 0) 100) 0 ∧
    (evaluatePipe freshLauncher (caseOfReals [10, 20, 30, 100]) samplePipe).launcher.log =
      freshLauncher.log ++ [Event.pressureDrop samplePipe.number (Stream.mk 0 10 20 30 0) 100] ∧
    (evaluatePipe freshLauncher (caseOfReals [10, 20, 30, 100]) samplePipe).launcher.p_model =
      freshLauncher.p_model ∧
    (evaluatePipe freshLauncher (caseOfReals [10, 20, 30, 100])
      samplePipe).launcher.p_simulator = freshLauncher.p_simulator :=
  ⟨rfl,
    by norm_num [evaluatePipe, caseOfReals, samplePipe, Case.numberOfRealVariables,
      Case.realVariableValue, qvectorAt, Case.setObjectiveValue, Case.objectiveValue,
      Int.toNat],
    evaluatePipe_sets_pressure_drop freshLauncher (caseOfReals [10, 20, 30, 100])
      samplePipe 10 20 30 100 rfl⟩

/-! ## Claims on single-well evaluation -/

/-- C8: for a Case whose real-variable count differs from the number of real variables the
Model reports for the well, `evaluateWell` reports a runtime error and stops the process
with exit status 1; the Model has received no value, no simulator operation has been
called, and the Case, its objective included, is unchanged. -/
theorem evaluateWell_wrong_count_exits {ρ σ : Type} (sim : ReservoirSimulator ρ σ)
    (l : Launcher ρ σ) (c : Case) (w : Nat)
    (h : c.numberOfRealVariables ≠ ((l.p_model.realVariablesOf w).length : Int)) :
    (evaluateWell sim l c w).status = Status.exited 1 ∧
    (evaluateWell sim l c w).launcher.log = l.log ++ [Event.runtimeError] ∧
    (evaluateWell sim l c w).launcher.p_model = l.p_model ∧
    (evaluateWell sim l c w).launcher.p_simulator = l.p_simulator ∧
    (evaluateWell sim l c w).c = c := by
  simp [evaluateWell, h, Launcher.emit]

/-- Witness of C8: well 0 of `freshModel` owns one real variable, the Case carries two. -/
theorem evaluateWell_wrong_count_exits_witness :
    (caseOfReals [5, 3]).numberOfRealVariables ≠
      ((freshLauncher.p_model.realVariablesOf 0).length : Int) ∧
    (evaluateWell countingSimulator freshLauncher (caseOfReals [5, 3]) 0).status =
      Status.exited 1 ∧
    (evaluateWell countingSimulator freshLauncher (caseOfReals [5, 3]) 0).launcher.log =
      freshLauncher.log ++ [Event.runtimeError] ∧
    (evaluateWell countingSimulator freshLauncher (caseOfReals [5, 3]) 0).launcher.p_model =
      freshLauncher.p_model ∧
    (evaluateWell countingSimulator freshLauncher (caseOfReals [5, 3]) 0).launcher.p_simulator =
      freshLauncher.p_simulator ∧
    (evaluateWell countingSimulator freshLauncher (caseOfReals [5, 3]) 0).c =
      caseOfReals [5, 3] :=
  ⟨by decide, evaluateWell_wrong_count_exits countingSimulator freshLauncher
    (caseOfReals [5, 3]) 0 (by decide)⟩

/-- C9: for a Case whose real-variable count equals the number of real variables of the
well, `evaluateWell` first brings the Model to a state `m1` in which the `i`-th real
variable of the well holds Case value `i`, for every `i`; it then runs the simulator exactly
once on `m1` (`generateInputFiles`, `launchSimulator`, `readOutput`, in that order),
whatever the up-to-date flag and whether or not a value changed; and, with `s` the well's
stream at time step 0 after `readOutput`, it returns with the Case's objective set to the
pressure of `s`. -/
theorem evaluateWell_forces_simulator {ρ σ : Type} (sim : ReservoirSimulator ρ σ)
    (l : Launcher ρ σ) (c : Case) (w : Nat)
    (hcount : c.numberOfRealVariables = ((l.p_model.realVariablesOf w).length : Int)) :
    ∃ m1 : Model ρ,
      (∀ (i k : Nat), (l.p_model.realVariablesOf w)[i]? = some k →
        ∃ v, m1.realVariables[k]? = some v ∧
          v.parent = some { kind := ComponentKind.well, id := w } ∧
          c.realVariableValue (i : Int) = some v.value) ∧
      (∀ k : Nat, k ∉ l.p_model.realVariablesOf w →
        m1.realVariables[k]? = l.p_model.realVariables[k]?) ∧
      m1.binaryVariables = l.p_model.binaryVariables ∧
      (evaluateWell sim l c w).launcher.p_simulator =
        sim.launchSimulator (sim.generateInputFiles m1 l.p_simulator) ∧
      (evaluateWell sim l c w).launcher.p_model =
        sim.readOutput (sim.launchSimulator (sim.generateInputFiles m1 l.p_simulator)) m1 ∧
      (evaluateWell sim l c w).launcher.log =
        l.log ++ [Event.runningReservoirSimulator, Event.generateInputFiles,
          Event.launchSimulator, Event.readOutput] ∧
      (∀ s : Stream,
        qvectorAt ((evaluateWell sim l c w).launcher.p_model.wellStreams w) 0 = some s →
        (evaluateWell sim l c w).status = Status.returned ∧
        (evaluateWell sim l c w).c = { c with m_objective_value := s.pressure }) := by
  have hlen : c.m_real_var_values.length = (l.p_model.realVariablesOf w).length := by
    unfold Case.numberOfRealVariables at hcount; omega
  obtain ⟨hok, hval, hrest⟩ := writeWellVariables_spec c (l.p_model.realVariablesOf w)
    (realVariablesOf_nodup l.p_model w) c.m_real_var_values.length 0 l.p_model
    (by omega) (by omega)
  have hframe := writeWellVariables_frame c (l.p_model.realVariablesOf w)
    c.m_real_var_values.length 0 l.p_model
  rcases hw : writeWellVariables c (l.p_model.realVariablesOf w) c.m_real_var_values.length 0
    l.p_model with ⟨m1, b⟩
  rw [hw] at hok hval hrest hframe
  simp only at hok hval hrest hframe
  subst hok
  have hev : evaluateWell sim l c w =
      match qvectorAt ((runReservoirSimulator sim { l with p_model := m1 }).p_model.wellStreams
          w) 0 with
      | none => { status := Status.indexOutOfRange,
                  launcher := runReservoirSimulator sim { l with p_model := m1 }, c := c }
      | some s => { status := Status.returned,
                    launcher := runReservoirSimulator sim { l with p_model := m1 },
                    c := c.setObjectiveValue s.pressure } := by
    simp only [evaluateWell, hcount, ne_eq, not_true_eq_false, if_false, hw]
  have hlauncher : (evaluateWell sim l c w).launcher =
      runReservoirSimulator sim { l with p_model := m1 } := by
    rw [hev]; split <;> rfl
  refine ⟨m1, ?_, ?_, hframe.1, ?_, ?_, ?_, ?_⟩
  · intro i k hik
    have hi : i < (l.p_model.realVariablesOf w).length := by
      by_contra hcon
      rw [List.getElem?_eq_none (Nat.le_of_not_lt hcon)] at hik
      cases hik
    have hic : i < c.m_real_var_values.length := by omega
    have hmem : k ∈ l.p_model.realVariablesOf w := List.getElem?_mem hik
    obtain ⟨v0, hv0, hp0⟩ := realVariablesOf_mem l.p_model w k hmem
    refine ⟨v0.setValue c.m_real_var_values[i], ?_, hp0, ?_⟩
    · rw [hval i k c.m_real_var_values[i] (Nat.zero_le i) (by omega) hik
        (List.getElem?_eq_getElem hic), hv0]
      rfl
    · unfold Case.realVariableValue
      rw [qvectorAt_natCast, List.getElem?_eq_getElem hic]
      rfl
  · intro k hk
    exact hrest k (fun j _ _ hjk => hk (List.getElem?_mem hjk))
  · rw [hlauncher]; rfl
  · rw [hlauncher]; rfl
  · rw [hlauncher]; simp [runReservoirSimulator, Launcher.emit]
  · intro s hs
    rw [hlauncher] at hs
    rw [hev, hs]
    exact ⟨rfl, rfl⟩

/-- Witness of C9: well 0 of `freshModel` owns one real variable; the Case gives it the
value 8, the simulator is launched once and the objective becomes the pressure 40 of the
well's first stream. -/
theorem evaluateWell_forces_simulator_witness :
    ((caseOfReals [8]).numberOfRealVariables =
      ((freshLauncher.p_model.realVariablesOf 0).length : Int)) ∧
    (evaluateWell countingSimulator freshLauncher (caseOfReals [8]) 0).launcher.p_simulator = 1 ∧
    (evaluateWell countingSimulator freshLauncher (caseOfReals [8]) 0).c.objectiveValue = 40 ∧
    ∃ m1 : Model Unit,
      (∀ (i k : Nat), (freshLauncher.p_model.realVariablesOf 0)[i]? = some k →
        ∃ v, m1.realVariables[k]? = some v ∧
          v.parent = some { kind := ComponentKind.well, id := 0 } ∧
          (caseOfReals [8]).realVariableValue (i : Int) = some v.value) ∧
      (∀ k : Nat, k ∉ freshLauncher.p_model.realVariablesOf 0 →
        m1.realVariables[k]? = freshLauncher.p_model.realVariables[k]?) ∧
      m1.binaryVariables = freshLauncher.p_model.binaryVariables ∧
      (evaluateWell countingSimulator freshLauncher (caseOfReals [8]) 0).launcher.p_simulator =
        countingSimulator.launchSimulator
          (countingSimulator.generateInputFiles m1 freshLauncher.p_simulator) ∧
      (evaluateWell countingSimulator freshLauncher (caseOfReals [8]) 0).launcher.p_model =
        countingSimulator.readOutput (countingSimulator.launchSimulator
          (countingSimulator.generateInputFiles m1 freshLauncher.p_simulator)) m1 ∧
      (evaluateWell countingSimulator freshLauncher (caseOfReals [8]) 0).launcher.log =
        freshLauncher.log ++ [Event.runningReservoirSimulator, Event.generateInputFiles,
          Event.launchSimulator, Event.readOutput] ∧
      (∀ s : Stream,
        qvectorAt ((evaluateWell countingSimulator freshLauncher
          (caseOfReals [8]) 0).launcher.p_model.wellStreams 0) 0 = some s →
        (evaluateWell countingSimulator freshLauncher (caseOfReals [8]) 0).status =
          Status.returned ∧
        (evaluateWell countingSimulator freshLauncher (caseOfReals [8]) 0).c =
          { caseOfReals [8] with m_objective_value := s.pressure }) :=
  ⟨by decide, by decide, by decide,
    evaluateWell_forces_simulator countingSimulator freshLauncher (caseOfReals [8]) 0
      (by decide)⟩

/-! ## Variable counts in whole-model evaluation -/

/-- C10 at a failing input: `freshModel` has two real variables and the Case carries three
real values, yet `evaluateEntireModel` returns normally, with the Model's constraint value
and objective copied to the Case; the third value is never read. -/
theorem evaluateEntireModel_extra_values_return :
    (caseOfReals [5, 1, 99]).numberOfRealVariables ≠
      (freshLauncher.p_model.realVariables.length : Int) ∧
    (evaluateEntireModel idleOps countingSimulator freshLauncher
      (caseOfReals [5, 1, 99])).status = Status.returned ∧
    (evaluateEntireModel idleOps countingSimulator freshLauncher (caseOfReals [5, 1, 99])).c =
      { caseOfReals [5, 1, 99] with m_constraint_values := [3], m_objective_value := 7 } ∧
    (evaluateEntireModel idleOps countingSimulator freshLauncher
      (caseOfReals [5, 1, 99])).launcher.log = skipSteps :=
  ⟨by decide, by decide, by decide, by decide⟩

/-! ## Claims on the Case container -/

/-- C18: `clearConstraints()` leaves `numberOfConstraints()` equal to 0 and leaves the real,
binary and integer value sequences (hence their counts and every value) and the objective
value unchanged. -/
theorem clearConstraints_keeps_variables (c : Case) :
    c.clearConstraints.numberOfConstraints = 0 ∧
    c.clearConstraints.m_real_var_values = c.m_real_var_values ∧
    c.clearConstraints.m_binary_var_values = c.m_binary_var_values ∧
    c.clearConstraints.m_integer_var_values = c.m_integer_var_values ∧
    c.clearConstraints.numberOfRealVariables = c.numberOfRealVariables ∧
    c.clearConstraints.numberOfBinaryVariables = c.numberOfBinaryVariables ∧
    c.clearConstraints.numberOfIntegerVariables = c.numberOfIntegerVariables ∧
    c.clearConstraints.objectiveValue = c.objectiveValue := by
  refine ⟨?_, rfl, rfl, rfl, rfl, rfl, rfl, rfl⟩
  simp [Case.clearConstraints, Case.numberOfConstraints]

/-- C20: `addRealVariableValue(v)` on a Case with `n` real values makes
`numberOfRealVariables()` equal `n + 1` with `realVariableValue(n) = v`, keeps
`realVariableValue(i)` for every `i < n`, and leaves the binary, integer and constraint
sequences and the objective unchanged; the same holds, each for its own sequence, for
`addBinaryVariableValue`, `addIntegerVariableValue` and `addConstraintValue`. -/
theorem addValue_appends (c : Case) (v : ℚ) (k : Int) :
    ((c.addRealVariableValue v).numberOfRealVariables = c.numberOfRealVariables + 1 ∧
      (c.addRealVariableValue v).realVariableValue c.numberOfRealVariables = some v ∧
      (∀ i : Int, 0 ≤ i → i < c.numberOfRealVariables →
        (c.addRealVariableValue v).realVariableValue i = c.realVariableValue i) ∧
      (c.addRealVariableValue v).m_binary_var_values = c.m_binary_var_values ∧
      (c.addRealVariableValue v).m_integer_var_values = c.m_integer_var_values ∧
      (c.addRealVariableValue v).m_constraint_values = c.m_constraint_values ∧
      (c.addRealVariableValue v).objectiveValue = c.objectiveValue) ∧
    ((c.addBinaryVariableValue v).numberOfBinaryVariables = c.numberOfBinaryVariables + 1 ∧
      (c.addBinaryVariableValue v).binaryVariableValue c.numberOfBinaryVariables = some v ∧
      (∀ i : Int, 0 ≤ i → i < c.numberOfBinaryVariables →
        (c.addBinaryVariableValue v).binaryVariableValue i = c.binaryVariableValue i) ∧
      (c.addBinaryVariableValue v).m_real_var_values = c.m_real_var_values ∧
      (c.addBinaryVariableValue v).m_integer_var_values = c.m_integer_var_values ∧
      (c.addBinaryVariableValue v).m_constraint_values = c.m_constraint_values ∧
      (c.addBinaryVariableValue v).objectiveValue = c.objectiveValue) ∧
    ((c.addIntegerVariableValue k).numberOfIntegerVariables = c.numberOfIntegerVariables + 1 ∧
      (c.addIntegerVariableValue k).integerVariableValue c.numberOfIntegerVariables = some k ∧
      (∀ i : Int, 0 ≤ i → i < c.numberOfIntegerVariables →
        (c.addIntegerVariableValue k).integerVariableValue i = c.integerVariableValue i) ∧
      (c.addIntegerVariableValue k).m_real_var_values = c.m_real_var_values ∧
      (c.addIntegerVariableValue k).m_binary_var_values = c.m_binary_var_values ∧
      (c.addIntegerVariableValue k).m_constraint_values = c.m_constraint_values ∧
      (c.addIntegerVariableValue k).objectiveValue = c.objectiveValue) ∧
    ((c.addConstraintValue v).numberOfConstraints = c.numberOfConstraints + 1 ∧
      (c.addConstraintValue v).constraintValue c.numberOfConstraints = some v ∧
      (∀ i : Int, 0 ≤ i → i < c.numberOfConstraints →
        (c.addConstraintValue v).constraintValue i = c.constraintValue i) ∧
      (c.addConstraintValue v).m_real_var_values = c.m_real_var_values ∧
      (c.addConstraintValue v).m_binary_var_values = c.m_binary_var_values ∧
      (c.addConstraintValue v).m_integer_var_values = c.m_integer_var_values ∧
      (c.addConstraintValue v).objectiveValue = c.objectiveValue) := by
  refine ⟨⟨?_, qvectorAt_append_last _ v, qvectorAt_append_before _ v, rfl, rfl, rfl, rfl⟩,
    ⟨?_, qvectorAt_append_last _ v, qvectorAt_append_before _ v, rfl, rfl, rfl, rfl⟩,
    ⟨?_, qvectorAt_append_last _ k, qvectorAt_append_before _ k, rfl, rfl, rfl, rfl⟩,
    ⟨?_, qvectorAt_append_last _ v, qvectorAt_append_before _ v, rfl, rfl, rfl, rfl⟩⟩
  · simp [Case.addRealVariableValue, Case.numberOfRealVariables]
  · simp [Case.addBinaryVariableValue, Case.numberOfBinaryVariables]
  · simp [Case.addIntegerVariableValue, Case.numberOfIntegerVariables]
  · simp [Case.addConstraintValue, Case.numberOfConstraints]

/-! ## Claims on the results and the writes of whole-model evaluation -/

/-- C11, as stated, fails: a Case that already carries the constraint value 9 is evaluated
on `freshModel` (one constraint, value 3); afterwards the Case has two constraint values, 9
and 3, where the Model has one, and `constraintValue(0)` is 9, not the Model's 3. -/
theorem evaluateEntireModel_outputs_counterexample :
    (evaluateEntireModel idleOps countingSimulator freshLauncher
      { caseOfReals [5, 1] with m_constraint_values := [9] }).status = Status.returned ∧
    (evaluateEntireModel idleOps countingSimulator freshLauncher
      { caseOfReals [5, 1] with m_constraint_values := [9] }).launcher.p_model.constraints =
      [{ value := 3, min := 0, max := 10 }] ∧
    (evaluateEntireModel idleOps countingSimulator freshLauncher
      { caseOfReals [5, 1] with m_constraint_values := [9] }).c.numberOfConstraints = 2 ∧
    (evaluateEntireModel idleOps countingSimulator freshLauncher
      { caseOfReals [5, 1] with m_constraint_values := [9] }).c.constraintValue 0 = some 9 ∧
    (evaluateEntireModel idleOps countingSimulator freshLauncher
      { caseOfReals [5, 1] with m_constraint_values := [9] }).c.constraintValue 1 = some 3 :=
  ⟨by decide, by decide, by decide, by decide, by decide⟩

/-- C11, amended: for a Case that carries no constraint value when it is submitted, and at
least as many real and binary values as the Model has variables, whole-model evaluation
returns and the Case's outputs are then exactly the Model's results: `numberOfConstraints()`
equals the Model's constraint count, `constraintValue(i)` is the value of the Model's `i`-th
constraint for every `i`, and `objectiveValue()` is the value of the Model's objective. -/
theorem evaluateEntireModel_outputs {ρ σ : Type} (ops : ModelOps ρ)
    (sim : ReservoirSimulator ρ σ) (l : Launcher ρ σ) (c : Case)
    (hreal : (l.p_model.realVariables.length : Int) ≤ c.numberOfRealVariables)
    (hbin : (l.p_model.binaryVariables.length : Int) ≤ c.numberOfBinaryVariables)
    (hnone : c.numberOfConstraints = 0) :
    (evaluateEntireModel ops sim l c).status = Status.returned ∧
    (evaluateEntireModel ops sim l c).c.numberOfConstraints =
      ((evaluateEntireModel ops sim l c).launcher.p_model.constraints.length : Int) ∧
    (∀ (i : Nat) (k : Constraint),
      (evaluateEntireModel ops sim l c).launcher.p_model.constraints[i]? = some k →
      (evaluateEntireModel ops sim l c).c.constraintValue (i : Int) = some k.value) ∧
    (evaluateEntireModel ops sim l c).c.objectiveValue =
      (evaluateEntireModel ops sim l c).launcher.p_model.objective := by
  unfold Case.numberOfRealVariables at hreal
  unfold Case.numberOfBinaryVariables at hbin
  have hnil : c.m_constraint_values = [] := by
    unfold Case.numberOfConstraints at hnone
    exact List.length_eq_zero.mp (by omega)
  obtain ⟨m2, b, _, _, _, _, _, _, hst, hmodel, _, _, hcase⟩ :=
    evaluateEntireModel_of_enough ops sim l c (by omega) (by omega)
  rw [hcase, hmodel, copyConstraints_eq, hnil]
  refine ⟨hst, ?_, ?_, rfl⟩
  · simp [Case.setObjectiveValue, Case.numberOfConstraints, Model.setUpToDate]
  · intro i k hk
    have hk2 : (ops.updateCycle (afterSimulator sim b l.p_simulator m2)).constraints[i]? =
        some k := hk
    simp only [Case.setObjectiveValue, Case.constraintValue, qvectorAt_natCast,
      List.nil_append, List.getElem?_map, hk2, Option.map_some']

/-- Witness of C11 (amended): the Case `(6, 1)`, without constraint values, on `freshModel`
with the recomputing operations; it ends with the constraint values 6 and 1 of the Model. -/
theorem evaluateEntireModel_outputs_witness :
    ((freshLauncher.p_model.realVariables.length : Int) ≤
      (caseOfReals [6, 1]).numberOfRealVariables) ∧
    ((freshLauncher.p_model.binaryVariables.length : Int) ≤
      (caseOfReals [6, 1]).numberOfBinaryVariables) ∧
    (caseOfReals [6, 1]).numberOfConstraints = 0 ∧
    (evaluateEntireModel mirrorOps countingSimulator freshLauncher
      (caseOfReals [6, 1])).c.m_constraint_values = [6, 1] ∧
    (evaluateEntireModel mirrorOps countingSimulator freshLauncher (caseOfReals [6, 1])).status =
      Status.returned ∧
    (evaluateEntireModel mirrorOps countingSimulator freshLauncher
      (caseOfReals [6, 1])).c.numberOfConstraints =
      ((evaluateEntireModel mirrorOps countingSimulator freshLauncher
        (caseOfReals [6, 1])).launcher.p_model.constraints.length : Int) ∧
    (∀ (i : Nat) (k : Constraint),
      (evaluateEntireModel mirrorOps countingSimulator freshLauncher
        (caseOfReals [6, 1])).launcher.p_model.constraints[i]? = some k →
      (evaluateEntireModel mirrorOps countingSimulator freshLauncher
        (caseOfReals [6, 1])).c.constraintValue (i : Int) = some k.value) ∧
    (evaluateEntireModel mirrorOps countingSimulator freshLauncher
      (caseOfReals [6, 1])).c.objectiveValue =
      (evaluateEntireModel mirrorOps countingSimulator freshLauncher
        (caseOfReals [6, 1])).launcher.p_model.objective :=
  ⟨by decide, by decide, by decide, by decide,
    evaluateEntireModel_outputs mirrorOps countingSimulator freshLauncher (caseOfReals [6, 1])
      (by decide) (by decide) (by decide)⟩

/-- C12: for a Case carrying at least as many real and binary values as the Model has real
and binary variables, whole-model evaluation writes every value index for index before any
simulator or update step: there is a Model state `m2`, in which the `i`-th real variable
holds `realVariableValue(i)` for every `i` and the `j`-th binary variable holds
`binaryVariableValue(j)` for every `j`, such that the simulator calls (when the rerun
decision `b` is true) and then the update cycle are applied to `m2`, and these are the only
steps logged. -/
theorem evaluateEntireModel_writes_before_steps {ρ σ : Type} (ops : ModelOps ρ)
    (sim : ReservoirSimulator ρ σ) (l : Launcher ρ σ) (c : Case)
    (hreal : (l.p_model.realVariables.length : Int) ≤ c.numberOfRealVariables)
    (hbin : (l.p_model.binaryVariables.length : Int) ≤ c.numberOfBinaryVariables) :
    ∃ (m2 : Model ρ) (b : Bool),
      m2.realVariables.length = l.p_model.realVariables.length ∧
      m2.binaryVariables.length = l.p_model.binaryVariables.length ∧
      (∀ i : Nat, i < l.p_model.realVariables.length →
        ∃ v, m2.realVariables[i]? = some v ∧ c.realVariableValue (i : Int) = some v.value) ∧
      (∀ j : Nat, j < l.p_model.binaryVariables.length →
        ∃ v, m2.binaryVariables[j]? = some v ∧
          c.binaryVariableValue (j : Int) = some v.value) ∧
      (evaluateEntireModel ops sim l c).status = Status.returned ∧
      (evaluateEntireModel ops sim l c).launcher.p_model =
        (ops.updateObjectiveValue (ops.updateConstraints (ops.calculatePipePressures
          (ops.updateStreams
            (if b then
              sim.readOutput (sim.launchSimulator (sim.generateInputFiles m2 l.p_simulator)) m2
            else m2))))).setUpToDate true ∧
      (evaluateEntireModel ops sim l c).launcher.log =
        l.log ++ (if b then
          [Event.runningReservoirSimulator, Event.generateInputFiles, Event.launchSimulator,
           Event.readOutput, Event.updateStreams, Event.calculatePipePressures,
           Event.updateConstraints, Event.updateObjectiveValue]
        else
          [Event.noRerunMessage, Event.updateStreams, Event.calculatePipePressures,
           Event.updateConstraints, Event.updateObjectiveValue]) := by
  unfold Case.numberOfRealVariables at hreal
  unfold Case.numberOfBinaryVariables at hbin
  obtain ⟨m2, b, _, _, hlr, hlb, hvr, hvb, hst, hmodel, _, hlog, _⟩ :=
    evaluateEntireModel_of_enough ops sim l c (by omega) (by omega)
  refine ⟨m2, b, hlr, hlb, ?_, ?_, hst, ?_, ?_⟩
  · intro i hi
    obtain ⟨v, hv, hx⟩ := hvr i hi
    exact ⟨v, hv, by rw [Case.realVariableValue, qvectorAt_natCast, hx]⟩
  · intro j hj
    obtain ⟨v, hv, hx⟩ := hvb j hj
    exact ⟨v, hv, by rw [Case.binaryVariableValue, qvectorAt_natCast, hx]⟩
  · rw [hmodel]; rfl
  · rw [hlog]; rfl

/-- Witness of C12: the Case `(6, 1)` on `freshModel`. -/
theorem evaluateEntireModel_writes_before_steps_witness :
    ((freshLauncher.p_model.realVariables.length : Int) ≤
      (caseOfReals [6, 1]).numberOfRealVariables) ∧
    ((freshLauncher.p_model.binaryVariables.length : Int) ≤
      (caseOfReals [6, 1]).numberOfBinaryVariables) ∧
    (evaluateEntireModel mirrorOps countingSimulator freshLauncher
      (caseOfReals [6, 1])).launcher.p_model.realVariables =
      [wellVariable 0 6, pipeVariable 0 1] ∧
    ∃ (m2 : Model Unit) (b : Bool),
      m2.realVariables.length = freshLauncher.p_model.realVariables.length ∧
      m2.binaryVariables.length = freshLauncher.p_model.binaryVariables.length ∧
      (∀ i : Nat, i < freshLauncher.p_model.realVariables.length →
        ∃ v, m2.realVariables[i]? = some v ∧
          (caseOfReals [6, 1]).realVariableValue (i : Int) = some v.value) ∧
      (∀ j : Nat, j < freshLauncher.p_model.binaryVariables.length →
        ∃ v, m2.binaryVariables[j]? = some v ∧
          (caseOfReals [6, 1]).binaryVariableValue (j : Int) = some v.value) ∧
      (evaluateEntireModel mirrorOps countingSimulator freshLauncher
        (caseOfReals [6, 1])).status = Status.returned ∧
      (evaluateEntireModel mirrorOps countingSimulator freshLauncher
        (caseOfReals [6, 1])).launcher.p_model =
        (mirrorOps.updateObjectiveValue (mirrorOps.updateConstraints
          (mirrorOps.calculatePipePressures (mirrorOps.updateStreams
            (if b then
              countingSimulator.readOutput (countingSimulator.launchSimulator
                (countingSimulator.generateInputFiles m2 freshLauncher.p_simulator)) m2
            else m2))))).setUpToDate true ∧
      (evaluateEntireModel mirrorOps countingSimulator freshLauncher
        (caseOfReals [6, 1])).launcher.log =
        freshLauncher.log ++ (if b then
          [Event.runningReservoirSimulator, Event.generateInputFiles, Event.launchSimulator,
           Event.readOutput, Event.updateStreams, Event.calculatePipePressures,
           Event.updateConstraints, Event.updateObjectiveValue]
        else
          [Event.noRerunMessage, Event.updateStreams, Event.calculatePipePressures,
           Event.updateConstraints, Event.updateObjectiveValue]) :=
  ⟨by decide, by decide, by decide,
    evaluateEntireModel_writes_before_steps mirrorOps countingSimulator freshLauncher
      (caseOfReals [6, 1]) (by decide) (by decide)⟩

/-- C13 at a failing input: on the up-to-date `freshModel`, whose well variable holds 5, the
single-well evaluation of the Case `(8)` returns with 8 written into that variable and with
`isUpToDate()` still true. -/
theorem evaluateWell_leaves_flag_set :
    freshLauncher.p_model.isUpToDate = true ∧
    freshLauncher.p_model.realVariables[0]? = some (wellVariable 0 5) ∧
    (evaluateWell countingSimulator freshLauncher (caseOfReals [8]) 0).status =
      Status.returned ∧
    (evaluateWell countingSimulator freshLauncher (caseOfReals [8]) 0).launcher.p_model.realVariables[0]?
      = some (wellVariable 0 8) ∧
    (evaluateWell countingSimulator freshLauncher (caseOfReals [8]) 0).launcher.p_model.isUpToDate
      = true :=
  ⟨by decide, by decide, by decide, by decide, by decide⟩

/-! ## ProductionWell: lemmas on the loops -/

/-- The second loop of `updateBhpConstraint` on streams that all have a pipe counterpart:
it ends, its value never exceeds the starting value, and the value is negative exactly when
the starting value or the ratio of some time step is. -/
theorem bhpLoop_spec (p : NetworkPipe) (ws : List Stream) (i : Nat) (c : ℚ)
    (hlen : i + ws.length ≤ p.streams.length) :
    ∃ c2, bhpLoop p i c ws = some c2 ∧ c2 ≤ c ∧
      (c2 < 0 ↔ (c < 0 ∨ ∃ (j : Nat) (s q : Stream), ws[j]? = some s ∧
        p.streams[i + j]? = some q ∧ (s.pressure - q.pressure) / s.pressure < 0)) := by
  induction ws generalizing i c with
  | nil => exact ⟨c, rfl, le_refl c, by simp⟩
  | cons s rest ih =>
    have hi : i < p.streams.length := by
      simp only [List.length_cons] at hlen; omega
    have hq : qvectorAt p.streams (i : Int) = some p.streams[i] := by
      rw [qvectorAt_natCast, List.getElem?_eq_getElem hi]
    obtain ⟨c2, hc2, hle, hiff⟩ := ih (i + 1)
      (if (s.pressure - p.streams[i].pressure) / s.pressure < c then
        (s.pressure - p.streams[i].pressure) / s.pressure else c)
      (by simp only [List.length_cons] at hlen; omega)
    refine ⟨c2, ?_, ?_, ?_⟩
    · simp only [bhpLoop, hq]
      exact hc2
    · refine le_trans hle ?_
      split
      · exact le_of_lt (by assumption)
      · exact le_refl c
    · rw [hiff]
      constructor
      · rintro (h | ⟨j, s2, q, h1, h2, h3⟩)
        · by_cases hlt : (s.pressure - p.streams[i].pressure) / s.pressure < c
          · rw [if_pos hlt] at h
            exact Or.inr ⟨0, s, p.streams[i], by simp,
              by simp [List.getElem?_eq_getElem hi], h⟩
          · rw [if_neg hlt] at h
            exact Or.inl h
        · refine Or.inr ⟨j + 1, s2, q, by simpa using h1, ?_, h3⟩
          rw [← h2]; congr 1; omega
      · rintro (h | ⟨j, s2, q, h1, h2, h3⟩)
        · left
          split
          · exact lt_trans (by assumption) h
          · exact h
        · cases j with
          | zero =>
            simp only [List.getElem?_cons_zero, Option.some.injEq] at h1
            subst h1
            simp only [Nat.add_zero, List.getElem?_eq_getElem hi, Option.some.injEq] at h2
            subst h2
            left
            split
            · exact h3
            · rename_i hnot
              exact lt_of_le_of_lt (not_lt.mp hnot) h3
          | succ j =>
            refine Or.inr ⟨j, s2, q, by simpa using h1, ?_, h3⟩
            rw [← h2]; congr 1; omega

/-! ## Claims on the production well -/

/-- C16: for a production well whose pressure is positive at every time step and whose
number of streams equals that of the selected pipe, `updateBhpConstraint` returns, and the
value it sets to the bottomhole pressure constraint is negative if and only if at some time
step the pressure of the selected pipe is higher than the pressure of the well. -/
theorem updateBhpConstraint_negative_iff (w : ProductionWell) (p : NetworkPipe)
    (hsel : w.selectedPipe = some p) (hcount : w.streams.length = p.streams.length)
    (hpos : ∀ s ∈ w.streams, 0 < s.pressure) :
    w.updateBhpConstraint.status = UpdateStatus.returned ∧
    (w.updateBhpConstraint.well.p_bhp_contraint.value < 0 ↔
      ∃ (i : Nat) (s q : Stream), w.streams[i]? = some s ∧ p.streams[i]? = some q ∧
        s.pressure < q.pressure) := by
  obtain ⟨c2, hc2, _, hiff⟩ := bhpLoop_spec p w.streams 0 1 (by omega)
  have hres : w.updateBhpConstraint =
      { status := UpdateStatus.returned,
        well := { w with p_bhp_contraint := { w.p_bhp_contraint with value := c2 } } } := by
    unfold ProductionWell.updateBhpConstraint
    rw [hsel]
    simp only [hcount, ne_eq, not_true_eq_false, if_false, hc2]
  rw [hres]
  refine ⟨rfl, ?_⟩
  show c2 < 0 ↔ _
  rw [hiff]
  constructor
  · rintro (h | ⟨j, s, q, h1, h2, h3⟩)
    · exact absurd h (by norm_num)
    · refine ⟨j, s, q, h1, by simpa using h2, ?_⟩
      have hs : 0 < s.pressure := hpos s (List.getElem?_mem h1)
      rcases div_neg_iff.mp h3 with ⟨_, hneg⟩ | ⟨hnum, _⟩
      · exact absurd hs (not_lt.mpr (le_of_lt hneg))
      · linarith
  · rintro ⟨j, s, q, h1, h2, h3⟩
    right
    refine ⟨j, s, q, h1, by simpa using h2, ?_⟩
    have hs : 0 < s.pressure := hpos s (List.getElem?_mem h1)
    exact div_neg_of_neg_of_pos (by linarith) hs

/-- C17: when the well's number of streams differs from the number of streams of the pipe
selected by `updateBhpConstraint`, the call stops the process with exit status 1 and leaves
the well, and so the value of its bottomhole pressure constraint, unchanged. -/
theorem updateBhpConstraint_mismatch_exits (w : ProductionWell) (p : NetworkPipe)
    (hsel : w.selectedPipe = some p) (hne : w.streams.length ≠ p.streams.length) :
    w.updateBhpConstraint.status = UpdateStatus.exited 1 ∧
    w.updateBhpConstraint.well = w ∧
    w.updateBhpConstraint.well.p_bhp_contraint.value = w.p_bhp_contraint.value := by
  have hres : w.updateBhpConstraint = { status := UpdateStatus.exited 1, well := w } := by
    unfold ProductionWell.updateBhpConstraint
    rw [hsel]
    simp only [hne, ne_eq, not_false_eq_true, if_true]
  rw [hres]
  exact ⟨rfl, rfl, rfl⟩

/-- Witness of C16 on `sampleWell`: pipe 1 is selected; at the second time step its
pressure 90 exceeds the well's 80, and the constraint value is `(80 - 90) / 80`. -/
theorem updateBhpConstraint_negative_iff_witness :
    sampleWell.selectedPipe =
      some (plainPipe 1 [pressureStream 0 50, pressureStream 1 90]) ∧
    sampleWell.streams.length =
      (plainPipe 1 [pressureStream 0 50, pressureStream 1 90]).streams.length ∧
    (∀ s ∈ sampleWell.streams, 0 < s.pressure) ∧
    sampleWell.updateBhpConstraint.well.p_bhp_contraint.value = -1 / 8 ∧
    sampleWell.updateBhpConstraint.status = UpdateStatus.returned ∧
    (sampleWell.updateBhpConstraint.well.p_bhp_contraint.value < 0 ↔
      ∃ (i : Nat) (s q : Stream), sampleWell.streams[i]? = some s ∧
        (plainPipe 1 [pressureStream 0 50, pressureStream 1 90]).streams[i]? = some q ∧
        s.pressure < q.pressure) :=
  have hsel : sampleWell.selectedPipe =
      some (plainPipe 1 [pressureStream 0 50, pressureStream 1 90]) := by
    norm_num [ProductionWell.selectedPipe, sampleWell, highestFraction, connectionTo]
  have hpos : ∀ s ∈ sampleWell.streams, 0 < s.pressure := by
    intro s hs
    simp only [sampleWell, List.mem_cons, List.mem_singleton, List.not_mem_nil, or_false] at hs
    rcases hs with rfl | rfl <;> norm_num [pressureStream]
  ⟨hsel, rfl, hpos,
    by
      unfold ProductionWell.updateBhpConstraint
      rw [hsel]
      norm_num [sampleWell, plainPipe, bhpLoop, qvectorAt, pressureStream],
    updateBhpConstraint_negative_iff sampleWell _ hsel rfl hpos⟩

/-- Witness of C17 on `mismatchedWell`: pipe 2 is selected and has one stream, the well
has two. -/
theorem updateBhpConstraint_mismatch_exits_witness :
    mismatchedWell.selectedPipe = some (plainPipe 2 [pressureStream 0 10]) ∧
    mismatchedWell.streams.length ≠ (plainPipe 2 [pressureStream 0 10]).streams.length ∧
    mismatchedWell.updateBhpConstraint.status = UpdateStatus.exited 1 ∧
    mismatchedWell.updateBhpConstraint.well = mismatchedWell ∧
    mismatchedWell.updateBhpConstraint.well.p_bhp_contraint.value =
      mismatchedWell.p_bhp_contraint.value :=
  have hsel : mismatchedWell.selectedPipe = some (plainPipe 2 [pressureStream 0 10]) := by
    norm_num [ProductionWell.selectedPipe, mismatchedWell, sampleWell, highestFraction,
      connectionTo]
  ⟨hsel, by decide, updateBhpConstraint_mismatch_exits mismatchedWell _ hsel (by decide)⟩

/-- With enough values in the Case, the rerun decision is taken on the Model as it stands
before the writes, and the simulator calls and update steps act on `writtenModel`. -/
theorem evaluateEntireModel_on_writtenModel {ρ σ : Type} (ops : ModelOps ρ)
    (sim : ReservoirSimulator ρ σ) (l : Launcher ρ σ) (c : Case)
    (hreal : l.p_model.realVariables.length ≤ c.m_real_var_values.length)
    (hbin : l.p_model.binaryVariables.length ≤ c.m_binary_var_values.length) :
    ∃ b : Bool,
      rerunReservoirSimulator l.p_model c = some b ∧
      (evaluateEntireModel ops sim l c).status = Status.returned ∧
      (evaluateEntireModel ops sim l c).launcher.p_model =
        (ops.updateCycle
          (afterSimulator sim b l.p_simulator (writtenModel c l.p_model))).setUpToDate true ∧
      (evaluateEntireModel ops sim l c).launcher.p_simulator =
        (if b then sim.launchSimulator
            (sim.generateInputFiles (writtenModel c l.p_model) l.p_simulator)
          else l.p_simulator) ∧
      (evaluateEntireModel ops sim l c).launcher.log =
        l.log ++ (if b then rerunSteps else skipSteps) ∧
      (evaluateEntireModel ops sim l c).c =
        (copyConstraints (ops.updateCycle
            (afterSimulator sim b l.p_simulator (writtenModel c l.p_model))).constraints
          c).setObjectiveValue
          (ops.updateCycle
            (afterSimulator sim b l.p_simulator (writtenModel c l.p_model))).objective := by
  obtain ⟨b, hrun⟩ := rerunReservoirSimulator_isSome l.p_model c hreal
  have hok1 := writeRealVariables_ok c l.p_model.realVariables.length 0 l.p_model (by omega)
  have hf1 := (writeRealVariables_frame c l.p_model.realVariables.length 0 l.p_model).1
  have hr : writeRealVariables c l.p_model.realVariables.length 0 l.p_model =
      ((writeRealVariables c l.p_model.realVariables.length 0 l.p_model).1, true) :=
    Prod.ext rfl hok1
  have hok2 := writeBinaryVariables_ok c
    (writeRealVariables c l.p_model.realVariables.length 0 l.p_model).1.binaryVariables.length 0
    (writeRealVariables c l.p_model.realVariables.length 0 l.p_model).1 (by rw [hf1]; omega)
  have hb : writeBinaryVariables c
      (writeRealVariables c l.p_model.realVariables.length 0 l.p_model).1.binaryVariables.length
      0 (writeRealVariables c l.p_model.realVariables.length 0 l.p_model).1 =
      ((writeBinaryVariables c
        (writeRealVariables c l.p_model.realVariables.length 0
          l.p_model).1.binaryVariables.length
        0 (writeRealVariables c l.p_model.realVariables.length 0 l.p_model).1).1, true) :=
    Prod.ext rfl hok2
  obtain ⟨hst, hmodel, hcase⟩ := evaluateEntireModel_returned ops sim l c b _ _ hrun hr hb
  obtain ⟨hsim, hlog⟩ := evaluateEntireModel_full ops sim l c b _ _ hrun hr hb
  exact ⟨b, hrun, hst, hmodel, hsim, hlog, hcase⟩

/-! ## Claims on the order of the steps of whole-model evaluation -/

/-- C22: in a whole-model evaluation (of a Case with enough values to run to its end),
whatever the rerun decision, `updateStreams`, `calculatePipePressures`, `updateConstraints`
and `updateObjectiveValue` are each logged exactly once, in that order, after the simulator
calls if there are any, and the Model is marked up to date after them: `isUpToDate()` is
true when the evaluation returns. -/
theorem evaluateEntireModel_updates_once {ρ σ : Type} (ops : ModelOps ρ)
    (sim : ReservoirSimulator ρ σ) (l : Launcher ρ σ) (c : Case)
    (hreal : (l.p_model.realVariables.length : Int) ≤ c.numberOfRealVariables)
    (hbin : (l.p_model.binaryVariables.length : Int) ≤ c.numberOfBinaryVariables) :
    (evaluateEntireModel ops sim l c).status = Status.returned ∧
    (∃ pre : List Event,
      (pre = [Event.runningReservoirSimulator, Event.generateInputFiles,
          Event.launchSimulator, Event.readOutput] ∨ pre = [Event.noRerunMessage]) ∧
      (evaluateEntireModel ops sim l c).launcher.log =
        l.log ++ pre ++ [Event.updateStreams, Event.calculatePipePressures,
          Event.updateConstraints, Event.updateObjectiveValue]) ∧
    (∃ m : Model ρ, (evaluateEntireModel ops sim l c).launcher.p_model =
      (ops.updateObjectiveValue (ops.updateConstraints (ops.calculatePipePressures
        (ops.updateStreams m)))).setUpToDate true) ∧
    (evaluateEntireModel ops sim l c).launcher.p_model.isUpToDate = true := by
  unfold Case.numberOfRealVariables at hreal
  unfold Case.numberOfBinaryVariables at hbin
  obtain ⟨b, _, hst, hmodel, _, hlog, _⟩ :=
    evaluateEntireModel_on_writtenModel ops sim l c (by omega) (by omega)
  refine ⟨hst, ?_, ⟨_, hmodel⟩, by rw [hmodel]; rfl⟩
  cases b
  · exact ⟨[Event.noRerunMessage], Or.inr rfl, by rw [hlog]; simp [skipSteps]⟩
  · exact ⟨_, Or.inl rfl, by rw [hlog]; simp [rerunSteps]⟩

/-- Witness of C22: the Case `(6, 1)` on `freshModel`. -/
theorem evaluateEntireModel_updates_once_witness :
    ((freshLauncher.p_model.realVariables.length : Int) ≤
      (caseOfReals [6, 1]).numberOfRealVariables) ∧
    ((freshLauncher.p_model.binaryVariables.length : Int) ≤
      (caseOfReals [6, 1]).numberOfBinaryVariables) ∧
    (evaluateEntireModel mirrorOps countingSimulator freshLauncher (caseOfReals [6, 1])).status =
      Status.returned ∧
    (∃ pre : List Event,
      (pre = [Event.runningReservoirSimulator, Event.generateInputFiles,
          Event.launchSimulator, Event.readOutput] ∨ pre = [Event.noRerunMessage]) ∧
      (evaluateEntireModel mirrorOps countingSimulator freshLauncher
        (caseOfReals [6, 1])).launcher.log =
        freshLauncher.log ++ pre ++ [Event.updateStreams, Event.calculatePipePressures,
          Event.updateConstraints, Event.updateObjectiveValue]) ∧
    (∃ m : Model Unit, (evaluateEntireModel mirrorOps countingSimulator freshLauncher
        (caseOfReals [6, 1])).launcher.p_model =
      (mirrorOps.updateObjectiveValue (mirrorOps.updateConstraints
        (mirrorOps.calculatePipePressures (mirrorOps.updateStreams m)))).setUpToDate true) ∧
    (evaluateEntireModel mirrorOps countingSimulator freshLauncher
      (caseOfReals [6, 1])).launcher.p_model.isUpToDate = true :=
  ⟨by decide, by decide,
    evaluateEntireModel_updates_once mirrorOps countingSimulator freshLauncher
      (caseOfReals [6, 1]) (by decide) (by decide)⟩

/-- C23, as stated, fails: on the up-to-date `freshModel` the Case `(5, 1)` repeats the
stored values. Taken on the Model state that results from the write (values written, Model
marked stale), the rerun decision is `true`; the evaluation nevertheless skips the
simulator, because it takes the decision before the write, where it is `false`. -/
theorem evaluateEntireModel_order_counterexample :
    rerunReservoirSimulator (writtenModel (caseOfReals [5, 1]) freshLauncher.p_model)
      (caseOfReals [5, 1]) = some true ∧
    rerunReservoirSimulator freshLauncher.p_model (caseOfReals [5, 1]) = some false ∧
    (evaluateEntireModel idleOps countingSimulator freshLauncher
      (caseOfReals [5, 1])).status = Status.returned ∧
    (evaluateEntireModel idleOps countingSimulator freshLauncher
      (caseOfReals [5, 1])).launcher.log =
      [Event.noRerunMessage, Event.updateStreams, Event.calculatePipePressures,
       Event.updateConstraints, Event.updateObjectiveValue] ∧
    (evaluateEntireModel idleOps countingSimulator freshLauncher
      (caseOfReals [5, 1])).launcher.p_simulator = 0 :=
  ⟨by decide, by decide, by decide, by decide, by decide⟩

/-- C23, amended: in whole-model evaluation (of a Case with enough values) the decision `b`
whether the reservoir simulator must be rerun is taken first, on the Model as the previous
evaluation left it; the Case's real and binary values are then written into the Model and
the Model is marked stale, and the simulator calls (exactly when `b` is true) and the update
steps run after that, on the written Model. -/
theorem evaluateEntireModel_decides_before_write {ρ σ : Type} (ops : ModelOps ρ)
    (sim : ReservoirSimulator ρ σ) (l : Launcher ρ σ) (c : Case)
    (hreal : (l.p_model.realVariables.length : Int) ≤ c.numberOfRealVariables)
    (hbin : (l.p_model.binaryVariables.length : Int) ≤ c.numberOfBinaryVariables) :
    ∃ b : Bool,
      rerunReservoirSimulator l.p_model c = some b ∧
      (writtenModel c l.p_model).isUpToDate = false ∧
      (evaluateEntireModel ops sim l c).status = Status.returned ∧
      (evaluateEntireModel ops sim l c).launcher.log =
        l.log ++ (if b then
          [Event.runningReservoirSimulator, Event.generateInputFiles, Event.launchSimulator,
           Event.readOutput, Event.updateStreams, Event.calculatePipePressures,
           Event.updateConstraints, Event.updateObjectiveValue]
        else
          [Event.noRerunMessage, Event.updateStreams, Event.calculatePipePressures,
           Event.updateConstraints, Event.updateObjectiveValue]) ∧
      (evaluateEntireModel ops sim l c).launcher.p_model =
        (ops.updateObjectiveValue (ops.updateConstraints (ops.calculatePipePressures
          (ops.updateStreams
            (if b then
              sim.readOutput (sim.launchSimulator
                (sim.generateInputFiles (writtenModel c l.p_model) l.p_simulator))
                (writtenModel c l.p_model)
            else writtenModel c l.p_model))))).setUpToDate true := by
  unfold Case.numberOfRealVariables at hreal
  unfold Case.numberOfBinaryVariables at hbin
  obtain ⟨b, hrun, hst, hmodel, _, hlog, _⟩ :=
    evaluateEntireModel_on_writtenModel ops sim l c (by omega) (by omega)
  refine ⟨b, hrun, rfl, hst, ?_, ?_⟩
  · rw [hlog]; rfl
  · rw [hmodel]; rfl

/-- Witness of C23 (amended): the Case `(6, 1)` on `freshModel`; the decision before the
write is `true` and the simulator is launched once. -/
theorem evaluateEntireModel_decides_before_write_witness :
    ((freshLauncher.p_model.realVariables.length : Int) ≤
      (caseOfReals [6, 1]).numberOfRealVariables) ∧
    ((freshLauncher.p_model.binaryVariables.length : Int) ≤
      (caseOfReals [6, 1]).numberOfBinaryVariables) ∧
    rerunReservoirSimulator freshLauncher.p_model (caseOfReals [6, 1]) = some true ∧
    (evaluateEntireModel mirrorOps countingSimulator freshLauncher
      (caseOfReals [6, 1])).launcher.p_simulator = 1 ∧
    ∃ b : Bool,
      rerunReservoirSimulator freshLauncher.p_model (caseOfReals [6, 1]) = some b ∧
      (writtenModel (caseOfReals [6, 1]) freshLauncher.p_model).isUpToDate = false ∧
      (evaluateEntireModel mirrorOps countingSimulator freshLauncher
        (caseOfReals [6, 1])).status = Status.returned ∧
      (evaluateEntireModel mirrorOps countingSimulator freshLauncher
        (caseOfReals [6, 1])).launcher.log =
        freshLauncher.log ++ (if b then
          [Event.runningReservoirSimulator, Event.generateInputFiles, Event.launchSimulator,
           Event.readOutput, Event.updateStreams, Event.calculatePipePressures,
           Event.updateConstraints, Event.updateObjectiveValue]
        else
          [Event.noRerunMessage, Event.updateStreams, Event.calculatePipePressures,
           Event.updateConstraints, Event.updateObjectiveValue]) ∧
      (evaluateEntireModel mirrorOps countingSimulator freshLauncher
        (caseOfReals [6, 1])).launcher.p_model =
        (mirrorOps.updateObjectiveValue (mirrorOps.updateConstraints
          (mirrorOps.calculatePipePressures (mirrorOps.updateStreams
            (if b then
              countingSimulator.readOutput (countingSimulator.launchSimulator
                (countingSimulator.generateInputFiles
                  (writtenModel (caseOfReals [6, 1]) freshLauncher.p_model)
                  freshLauncher.p_simulator))
                (writtenModel (caseOfReals [6, 1]) freshLauncher.p_model)
            else writtenModel (caseOfReals [6, 1]) freshLauncher.p_model))))).setUpToDate
          true :=
  ⟨by decide, by decide, by decide, by decide,
    evaluateEntireModel_decides_before_write mirrorOps countingSimulator freshLauncher
      (caseOfReals [6, 1]) (by decide) (by decide)⟩

/-- C27: whole-model evaluation appends its constraint results: for a Case that carries `k`
constraint values (and enough variable values for the evaluation to run to its end), after
`evaluateEntireModel` the Case carries `k + n` constraint values, `n` being the number of
constraints of the Model; the first `k` are unchanged and the value at index `k + i` is the
value of the Model's `i`-th constraint, for every `i < n`. -/
theorem evaluateEntireModel_appends_constraints {ρ σ : Type} (ops : ModelOps ρ)
    (sim : ReservoirSimulator ρ σ) (l : Launcher ρ σ) (c : Case)
    (hreal : (l.p_model.realVariables.length : Int) ≤ c.numberOfRealVariables)
    (hbin : (l.p_model.binaryVariables.length : Int) ≤ c.numberOfBinaryVariables) :
    (evaluateEntireModel ops sim l c).status = Status.returned ∧
    (evaluateEntireModel ops sim l c).c.numberOfConstraints =
      c.numberOfConstraints +
        ((evaluateEntireModel ops sim l c).launcher.p_model.constraints.length : Int) ∧
    (∀ i : Int, 0 ≤ i → i < c.numberOfConstraints →
      (evaluateEntireModel ops sim l c).c.constraintValue i = c.constraintValue i) ∧
    (∀ (i : Nat) (k : Constraint),
      (evaluateEntireModel ops sim l c).launcher.p_model.constraints[i]? = some k →
      (evaluateEntireModel ops sim l c).c.constraintValue (c.numberOfConstraints + (i : Int)) =
        some k.value) := by
  unfold Case.numberOfRealVariables at hreal
  unfold Case.numberOfBinaryVariables at hbin
  obtain ⟨b, _, hst, hmodel, _, _, hcase⟩ :=
    evaluateEntireModel_on_writtenModel ops sim l c (by omega) (by omega)
  rw [hcase, hmodel, copyConstraints_eq]
  refine ⟨hst, ?_, ?_, ?_⟩
  · simp [Case.setObjectiveValue, Case.numberOfConstraints, Model.setUpToDate]
  · intro i h0 h1
    unfold Case.numberOfConstraints at h1
    have hlt : i.toNat < c.m_constraint_values.length := by omega
    have h2 : i < ((c.m_constraint_values ++
        List.map (fun k => k.value) (ops.updateCycle
          (afterSimulator sim b l.p_simulator
            (writtenModel c l.p_model))).constraints).length : Int) := by
      simp only [List.length_append, Nat.cast_add]; omega
    simp only [Case.setObjectiveValue, Case.constraintValue, qvectorAt, h0, h1, h2, and_self,
      if_true]
    rw [List.getElem?_append_left hlt]
  · intro i k hk
    have hk2 : (ops.updateCycle (afterSimulator sim b l.p_simulator
        (writtenModel c l.p_model))).constraints[i]? = some k := hk
    have hcast : c.numberOfConstraints + (i : Int) =
        ((c.m_constraint_values.length + i : Nat) : Int) := by
      simp [Case.numberOfConstraints]
    rw [hcast]
    simp only [Case.setObjectiveValue, Case.constraintValue, qvectorAt_natCast]
    rw [List.getElem?_append_right (Nat.le_add_right _ _)]
    simp [hk2]

/-- Witness of C27: a Case that carries the constraint value 9 ends, on `freshModel`, with
the values 9 and 3. -/
theorem evaluateEntireModel_appends_constraints_witness :
    ((freshLauncher.p_model.realVariables.length : Int) ≤
      ({ caseOfReals [5, 1] with m_constraint_values := [9] } : Case).numberOfRealVariables) ∧
    ((freshLauncher.p_model.binaryVariables.length : Int) ≤
      ({ caseOfReals [5, 1] with m_constraint_values := [9] } : Case).numberOfBinaryVariables) ∧
    (evaluateEntireModel idleOps countingSimulator freshLauncher
      { caseOfReals [5, 1] with m_constraint_values := [9] }).c.m_constraint_values = [9, 3] ∧
    (evaluateEntireModel idleOps countingSimulator freshLauncher
      { caseOfReals [5, 1] with m_constraint_values := [9] }).status = Status.returned ∧
    (evaluateEntireModel idleOps countingSimulator freshLauncher
      { caseOfReals [5, 1] with m_constraint_values := [9] }).c.numberOfConstraints =
      ({ caseOfReals [5, 1] with m_constraint_values := [9] } : Case).numberOfConstraints +
        ((evaluateEntireModel idleOps countingSimulator freshLauncher
          { caseOfReals [5, 1] with
            m_constraint_values := [9] }).launcher.p_model.constraints.length : Int) ∧
    (∀ i : Int, 0 ≤ i →
      i < ({ caseOfReals [5, 1] with m_constraint_values := [9] } : Case).numberOfConstraints →
      (evaluateEntireModel idleOps countingSimulator freshLauncher
        { caseOfReals [5, 1] with m_constraint_values := [9] }).c.constraintValue i =
        ({ caseOfReals [5, 1] with m_constraint_values := [9] } : Case).constraintValue i) ∧
    (∀ (i : Nat) (k : Constraint),
      (evaluateEntireModel idleOps countingSimulator freshLauncher
        { caseOfReals [5, 1] with
          m_constraint_values := [9] }).launcher.p_model.constraints[i]? = some k →
      (evaluateEntireModel idleOps countingSimulator freshLauncher
        { caseOfReals [5, 1] with m_constraint_values := [9] }).c.constraintValue
        (({ caseOfReals [5, 1] with m_constraint_values := [9] } : Case).numberOfConstraints +
          (i : Int)) = some k.value) :=
  ⟨by decide, by decide, by decide,
    evaluateEntireModel_appends_constraints idleOps countingSimulator freshLauncher
      { caseOfReals [5, 1] with m_constraint_values := [9] } (by decide) (by decide)⟩

/-! ## Claim on the dispatch of `Launcher::evaluate` -/

/-- C28: for a non-null component that is neither a Pipe nor a Well (here a Separator),
`Launcher::evaluate` returns with the Case and the Model unchanged and the simulator
untouched; the only step it logs is the `finished` signal, once: no simulator call, no
pressure drop call, no error report. -/
theorem evaluate_other_component_only_finishes {ρ σ : Type} (ops : ModelOps ρ)
    (sim : ReservoirSimulator ρ σ) (l : Launcher ρ σ) (c : Case) (id : Nat) :
    (evaluate ops sim l c (some (Component.separator id))).status = Status.returned ∧
    (evaluate ops sim l c (some (Component.separator id))).c = c ∧
    (evaluate ops sim l c (some (Component.separator id))).launcher.p_model = l.p_model ∧
    (evaluate ops sim l c (some (Component.separator id))).launcher.p_simulator =
      l.p_simulator ∧
    (evaluate ops sim l c (some (Component.separator id))).launcher.log =
      l.log ++ [Event.finished] ∧
    (∀ e ∈ [Event.finished], e.isSimulatorCall = false ∧ e.isPressureDropCall = false ∧
      e ≠ Event.runtimeError) := by
  refine ⟨rfl, rfl, rfl, rfl, rfl, ?_⟩
  intro e he
  rw [List.mem_singleton] at he
  subst he
  exact ⟨rfl, rfl, by decide⟩

/-! ## Runner: lemmas on the summary rows -/

section RunnerLemmas

variable {ρ σ : Type}

theorem getElem?_append4_second {α : Type} (a b zs d : List α) (i : Nat) (h : i < b.length) :
    (a ++ b ++ zs ++ d)[a.length + i]? = b[i]? := by
  rw [List.append_assoc, List.append_assoc, List.getElem?_append_right (Nat.le_add_right _ _),
    Nat.add_sub_cancel_left, List.getElem?_append_left h]

theorem getElem?_append4_third {α : Type} (a b zs d : List α) (j : Nat) (h : j < zs.length) :
    (a ++ b ++ zs ++ d)[a.length + b.length + j]? = zs[j]? := by
  rw [List.getElem?_append_left (by simp only [List.length_append]; omega),
    List.getElem?_append_right (by simp only [List.length_append]; omega)]
  simp only [List.length_append, Nat.add_sub_cancel_left]

theorem getElem?_append4_fourth {α : Type} (a b zs d : List α) (l : Nat) :
    (a ++ b ++ zs ++ d)[a.length + b.length + zs.length + l]? = d[l]? := by
  rw [List.getElem?_append_right (by simp only [List.length_append]; omega)]
  simp only [List.length_append, Nat.add_sub_cancel_left]

theorem iterationRow_length (n : Int) (m : Model ρ) :
    (iterationRow n m).length =
      2 + m.realVariables.length + m.binaryVariables.length + m.constraints.length := by
  simp only [iterationRow, List.length_append, List.length_map, List.length_cons,
    List.length_nil]

theorem columnHeader_length (m : Model ρ) :
    (columnHeader m).length =
      2 + m.realVariables.length + m.binaryVariables.length + m.constraints.length := by
  simp only [columnHeader, List.length_append, List.length_map, List.length_range,
    List.length_cons, List.length_nil]

/-- Within the range of an `int` nothing is reduced. -/
theorem wrapInt32_of_inRange (x : Int) (hlo : -2147483648 ≤ x) (hhi : x ≤ 2147483647) :
    wrapInt32 x = x := by
  unfold wrapInt32
  omega

/-- Reducing an intermediate result does not change the reduced sum. -/
theorem wrapInt32_add (x y : Int) : wrapInt32 (wrapInt32 x + y) = wrapInt32 (x + y) := by
  unfold wrapInt32
  omega

theorem Runner.evaluate_counter (ops : ModelOps ρ) (sim : ReservoirSimulator ρ σ)
    (r : Runner ρ σ) :
    (Runner.evaluate ops sim r).1.m_number_of_runs = wrapInt32 (r.m_number_of_runs + 1) := by
  unfold Runner.evaluate Runner.writeIterationToSummary
  cases r.p_summary <;> rfl

theorem Runner.evaluate_summary (ops : ModelOps ρ) (sim : ReservoirSimulator ρ σ)
    (r : Runner ρ σ) (lines : List SummaryLine) (h : r.p_summary = some lines) :
    (Runner.evaluate ops sim r).1.p_summary =
      some (lines ++ [SummaryLine.row (iterationRow (Runner.evaluate ops sim r).1.m_number_of_runs
        (Runner.evaluate ops sim r).1.p_model)]) := by
  unfold Runner.evaluate Runner.writeIterationToSummary
  simp only [h]

/-- The counter after `k` calls from 0 is `k` reduced to the range of an `int`. -/
theorem Runner.evaluateTimes_counter (ops : ModelOps ρ) (sim : ReservoirSimulator ρ σ)
    (r : Runner ρ σ) (h0 : r.m_number_of_runs = 0) (k : Nat) :
    (Runner.evaluateTimes ops sim k r).m_number_of_runs = wrapInt32 (k : Int) := by
  induction k with
  | zero =>
    simp only [Runner.evaluateTimes, h0]
    rfl
  | succ k ih =>
    simp only [Runner.evaluateTimes]
    rw [Runner.evaluate_counter, ih, wrapInt32_add]
    push_cast
    rfl

end RunnerLemmas

/-! ## Claims on the Runner -/

/-- C21, as stated, fails: the iteration counter is an `int`. On a runner whose counter is
at 2147483647, a call of `Runner::evaluate` leaves the counter at -2147483648, not at
2147483648, and the row it appends carries -2147483648; counted from 0, the call number
2147483648 therefore does not record its number. -/
theorem Runner_evaluate_counter_counterexample :
    lastCountRunner.m_number_of_runs = 2147483647 ∧
    (Runner.evaluate idleOps countingSimulator lastCountRunner).1.m_number_of_runs =
      -2147483648 ∧
    (Runner.evaluate idleOps countingSimulator lastCountRunner).1.m_number_of_runs ≠
      lastCountRunner.m_number_of_runs + 1 ∧
    (Runner.evaluate idleOps countingSimulator lastCountRunner).1.p_summary =
      some [SummaryLine.row [Cell.counter (-2147483648), Cell.number 7, Cell.number 5,
        Cell.number 1, Cell.number 3]] ∧
    freshRunner.m_number_of_runs = 0 ∧
    (Runner.evaluateTimes idleOps countingSimulator 2147483648 freshRunner).m_number_of_runs ≠
      ((2147483648 : Nat) : Int) := by
  refine ⟨rfl, by decide, by decide, by decide, rfl, ?_⟩
  rw [Runner.evaluateTimes_counter idleOps countingSimulator freshRunner rfl]
  decide

/-- C21, amended: each call of `Runner::evaluate` made while the iteration counter is below
2147483647, the largest `int`, increments the counter by exactly one; every call, when the
summary file is open, appends exactly one row to it (nothing when it is not open), and the
row is made of the iteration counter as the call leaves it, the objective value, every real
variable value, every binary variable value and every constraint value of the Model, in
that order, that is `2 + (real variables) + (binary variables) + (constraints)` fields.
With the counter starting at 0, it is `k` after `k` calls for every `k` up to 2147483647,
and the row of the call number `k + 1` carries `k + 1`. -/
theorem Runner_evaluate_counts_and_logs {ρ σ : Type} (ops : ModelOps ρ)
    (sim : ReservoirSimulator ρ σ) (r0 : Runner ρ σ) (k : Nat)
    (h0 : r0.m_number_of_runs = 0) (hk : (k : Int) < 2147483647) :
    (∀ r : Runner ρ σ,
      (-2147483648 ≤ r.m_number_of_runs → r.m_number_of_runs < 2147483647 →
        (Runner.evaluate ops sim r).1.m_number_of_runs = r.m_number_of_runs + 1) ∧
      (∀ lines : List SummaryLine, r.p_summary = some lines →
        (Runner.evaluate ops sim r).1.p_summary =
          some (lines ++ [SummaryLine.row
            (iterationRow (Runner.evaluate ops sim r).1.m_number_of_runs
              (Runner.evaluate ops sim r).1.p_model)])) ∧
      (r.p_summary = none → (Runner.evaluate ops sim r).1.p_summary = none)) ∧
    (∀ (n : Int) (m : Model ρ),
      iterationRow n m =
        [Cell.counter n, Cell.number m.objective] ++
        m.realVariables.map (fun v => Cell.number v.value) ++
        m.binaryVariables.map (fun v => Cell.number v.value) ++
        m.constraints.map (fun c => Cell.number c.value) ∧
      (iterationRow n m).length =
        2 + m.realVariables.length + m.binaryVariables.length + m.constraints.length) ∧
    (Runner.evaluateTimes ops sim k r0).m_number_of_runs = (k : Int) ∧
    (Runner.evaluateTimes ops sim (k + 1) r0).m_number_of_runs = (k : Int) + 1 ∧
    (∀ lines : List SummaryLine, (Runner.evaluateTimes ops sim k r0).p_summary = some lines →
      (Runner.evaluateTimes ops sim (k + 1) r0).p_summary =
        some (lines ++ [SummaryLine.row (iterationRow ((k : Int) + 1)
          (Runner.evaluateTimes ops sim (k + 1) r0).p_model)])) := by
  have hcount : (Runner.evaluateTimes ops sim k r0).m_number_of_runs = (k : Int) := by
    rw [Runner.evaluateTimes_counter ops sim r0 h0]
    exact wrapInt32_of_inRange _ (by omega) (by omega)
  have hnext : (Runner.evaluateTimes ops sim (k + 1) r0).m_number_of_runs = (k : Int) + 1 := by
    rw [Runner.evaluateTimes_counter ops sim r0 h0]
    push_cast
    exact wrapInt32_of_inRange _ (by omega) (by omega)
  refine ⟨?_, ?_, hcount, hnext, ?_⟩
  · intro r
    refine ⟨?_, Runner.evaluate_summary ops sim r, ?_⟩
    · intro hlo hhi
      rw [Runner.evaluate_counter]
      exact wrapInt32_of_inRange _ (by omega) (by omega)
    · intro hnone
      unfold Runner.evaluate Runner.writeIterationToSummary
      simp only [hnone]
  · intro n m
    exact ⟨rfl, iterationRow_length n m⟩
  · intro lines hl
    have hrow := Runner.evaluate_summary ops sim (Runner.evaluateTimes ops sim k r0) lines hl
    have hstep : (Runner.evaluate ops sim (Runner.evaluateTimes ops sim k r0)).1 =
        Runner.evaluateTimes ops sim (k + 1) r0 := rfl
    rw [hstep, hnext] at hrow
    exact hrow

/-- Witness of C21 (amended): two calls on `freshRunner` leave the rows of the iterations 1
and 2 in the summary file and the counter at 2. -/
theorem Runner_evaluate_counts_and_logs_witness :
    freshRunner.m_number_of_runs = 0 ∧
    (((1 : Nat) : Int) < 2147483647) ∧
    (Runner.evaluateTimes idleOps countingSimulator 2 freshRunner).p_summary =
      some [SummaryLine.row [Cell.counter 1, Cell.number 7, Cell.number 5, Cell.number 1,
              Cell.number 3],
            SummaryLine.row [Cell.counter 2, Cell.number 7, Cell.number 5, Cell.number 1,
              Cell.number 3]] ∧
    (Runner.evaluateTimes idleOps countingSimulator 1 freshRunner).m_number_of_runs =
      ((1 : Nat) : Int) ∧
    (Runner.evaluateTimes idleOps countingSimulator (1 + 1) freshRunner).m_number_of_runs =
      ((1 : Nat) : Int) + 1 :=
  ⟨rfl, by decide, by decide,
    (Runner_evaluate_counts_and_logs idleOps countingSimulator freshRunner 1 rfl
      (by decide)).2.2.1,
    (Runner_evaluate_counts_and_logs idleOps countingSimulator freshRunner 1 rfl
      (by decide)).2.2.2.1⟩

/-- The fields `columnHeader mh` and the fields `iterationRow n m`, for Models with the same
numbers of real variables, binary variables and constraints, position by position. -/
theorem columnHeader_aligned {ρ : Type} (mh m : Model ρ) (n : Int)
    (hr : m.realVariables.length = mh.realVariables.length)
    (hb : m.binaryVariables.length = mh.binaryVariables.length)
    (hc : m.constraints.length = mh.constraints.length) :
    (columnHeader mh).length = (iterationRow n m).length ∧
    ((columnHeader mh)[0]? = some (Cell.text "#") ∧
      (iterationRow n m)[0]? = some (Cell.counter n)) ∧
    ((columnHeader mh)[1]? = some (Cell.text "OBJ") ∧
      (iterationRow n m)[1]? = some (Cell.number m.objective)) ∧
    (∀ (i : Nat) (v : RealVariable), m.realVariables[i]? = some v →
      (columnHeader mh)[2 + i]? = some (Cell.label "VAR_C" ((i : Int) + 1)) ∧
      (iterationRow n m)[2 + i]? = some (Cell.number v.value)) ∧
    (∀ (j : Nat) (v : BinaryVariable), m.binaryVariables[j]? = some v →
      (columnHeader mh)[2 + mh.realVariables.length + j]? =
        some (Cell.label "VAR_B" ((j : Int) + 1)) ∧
      (iterationRow n m)[2 + m.realVariables.length + j]? = some (Cell.number v.value)) ∧
    (∀ (l : Nat) (k : Constraint), m.constraints[l]? = some k →
      (columnHeader mh)[2 + mh.realVariables.length + mh.binaryVariables.length + l]? =
        some (Cell.label "CON" ((l : Int) + 1)) ∧
      (iterationRow n m)[2 + m.realVariables.length + m.binaryVariables.length + l]? =
        some (Cell.number k.value)) := by
  refine ⟨?_, ⟨rfl, rfl⟩, ⟨?_, ?_⟩, ?_, ?_, ?_⟩
  · rw [columnHeader_length, iterationRow_length, hr, hb, hc]
  · simp only [columnHeader, List.append_assoc, List.cons_append, List.nil_append,
      List.getElem?_cons_succ, List.getElem?_cons_zero]
  · simp only [iterationRow, List.append_assoc, List.cons_append, List.nil_append,
      List.getElem?_cons_succ, List.getElem?_cons_zero]
  · intro i v hv
    have hi : i < m.realVariables.length := by
      by_contra hcon
      rw [List.getElem?_eq_none (Nat.le_of_not_lt hcon)] at hv
      cases hv
    have hi2 : i < mh.realVariables.length := by omega
    constructor
    · refine (getElem?_append4_second [Cell.text "#", Cell.text "OBJ"] _ _ _ i
        (by simp only [List.length_map, List.length_range]; exact hi2)).trans ?_
      rw [List.getElem?_map, List.getElem?_range hi2]
      rfl
    · refine (getElem?_append4_second [Cell.counter n, Cell.number m.objective] _ _ _ i
        (by simp only [List.length_map]; exact hi)).trans ?_
      rw [List.getElem?_map, hv]
      rfl
  · intro j v hv
    have hj : j < m.binaryVariables.length := by
      by_contra hcon
      rw [List.getElem?_eq_none (Nat.le_of_not_lt hcon)] at hv
      cases hv
    have hj2 : j < mh.binaryVariables.length := by omega
    constructor
    · have h := getElem?_append4_third [Cell.text "#", Cell.text "OBJ"]
        ((List.range mh.realVariables.length).map
          (fun (i : Nat) => Cell.label "VAR_C" ((i : Int) + 1)))
        ((List.range mh.binaryVariables.length).map
          (fun (i : Nat) => Cell.label "VAR_B" ((i : Int) + 1)))
        ((List.range mh.constraints.length).map
          (fun (i : Nat) => Cell.label "CON" ((i : Int) + 1))) j
        (by simp only [List.length_map, List.length_range]; exact hj2)
      simp only [List.length_map, List.length_range, List.length_cons, List.length_nil] at h
      refine h.trans ?_
      rw [List.getElem?_map, List.getElem?_range hj2]
      rfl
    · have h := getElem?_append4_third [Cell.counter n, Cell.number m.objective]
        (m.realVariables.map (fun v => Cell.number v.value))
        (m.binaryVariables.map (fun v => Cell.number v.value))
        (m.constraints.map (fun k => Cell.number k.value)) j
        (by simp only [List.length_map]; exact hj)
      simp only [List.length_map, List.length_cons, List.length_nil] at h
      refine h.trans ?_
      rw [List.getElem?_map, hv]
      rfl
  · intro l k hk
    constructor
    · have hl : l < mh.constraints.length := by
        by_contra hcon
        rw [List.getElem?_eq_none (by omega)] at hk
        cases hk
      have h := getElem?_append4_fourth [Cell.text "#", Cell.text "OBJ"]
        ((List.range mh.realVariables.length).map
          (fun (i : Nat) => Cell.label "VAR_C" ((i : Int) + 1)))
        ((List.range mh.binaryVariables.length).map
          (fun (i : Nat) => Cell.label "VAR_B" ((i : Int) + 1)))
        ((List.range mh.constraints.length).map
          (fun (i : Nat) => Cell.label "CON" ((i : Int) + 1))) l
      simp only [List.length_map, List.length_range, List.length_cons, List.length_nil] at h
      refine h.trans ?_
      rw [List.getElem?_map, List.getElem?_range hl]
      rfl
    · have h := getElem?_append4_fourth [Cell.counter n, Cell.number m.objective]
        (m.realVariables.map (fun v => Cell.number v.value))
        (m.binaryVariables.map (fun v => Cell.number v.value))
        (m.constraints.map (fun k => Cell.number k.value)) l
      simp only [List.length_map, List.length_cons, List.length_nil] at h
      refine h.trans ?_
      rw [List.getElem?_map, hk]
      rfl

/-! ## ProductionWell: the selected pipe and the minimum -/

/-- C25: on a runner whose summary file is open, `writeProblemDefToSummary` appends its
text block and then exactly one row, the column header, and `writeIterationToSummary`
appends exactly one row, the iteration row. For Models with the same numbers of real
variables (`n`), binary variables (`m`) and constraints (`k`), the header row has exactly
as many tab-terminated columns as the iteration row, `2 + n + m + k`, in the same order:
`#` over the counter, `OBJ` over the objective value, `VAR_Ci` over the value of the `i`-th
real variable, `VAR_Bj` over the value of the `j`-th binary variable and `CONl` over the
value of the `l`-th constraint, the labels being numbered from 1. -/
theorem writeProblemDefToSummary_header_matches_rows {ρ σ : Type} (rh r : Runner ρ σ)
    (block before lines : List SummaryLine)
    (hopen : rh.p_summary = some before) (hlines : r.p_summary = some lines)
    (hr : r.p_model.realVariables.length = rh.p_model.realVariables.length)
    (hb : r.p_model.binaryVariables.length = rh.p_model.binaryVariables.length)
    (hc : r.p_model.constraints.length = rh.p_model.constraints.length) :
    ∃ header row : List Cell,
      (rh.writeProblemDefToSummary block).p_summary =
        some (before ++ block ++ [SummaryLine.row header]) ∧
      r.writeIterationToSummary.p_summary = some (lines ++ [SummaryLine.row row]) ∧
      header.length = 2 + rh.p_model.realVariables.length +
        rh.p_model.binaryVariables.length + rh.p_model.constraints.length ∧
      row.length = header.length ∧
      (header[0]? = some (Cell.text "#") ∧ row[0]? = some (Cell.counter r.m_number_of_runs)) ∧
      (header[1]? = some (Cell.text "OBJ") ∧
        row[1]? = some (Cell.number r.p_model.objective)) ∧
      (∀ (i : Nat) (v : RealVariable), r.p_model.realVariables[i]? = some v →
        header[2 + i]? = some (Cell.label "VAR_C" ((i : Int) + 1)) ∧
        row[2 + i]? = some (Cell.number v.value)) ∧
      (∀ (j : Nat) (v : BinaryVariable), r.p_model.binaryVariables[j]? = some v →
        header[2 + rh.p_model.realVariables.length + j]? =
          some (Cell.label "VAR_B" ((j : Int) + 1)) ∧
        row[2 + r.p_model.realVariables.length + j]? = some (Cell.number v.value)) ∧
      (∀ (l : Nat) (q : Constraint), r.p_model.constraints[l]? = some q →
        header[2 + rh.p_model.realVariables.length + rh.p_model.binaryVariables.length + l]? =
          some (Cell.label "CON" ((l : Int) + 1)) ∧
        row[2 + r.p_model.realVariables.length + r.p_model.binaryVariables.length + l]? =
          some (Cell.number q.value)) := by
  obtain ⟨hlen, h0, h1, hreal, hbin, hcon⟩ :=
    columnHeader_aligned rh.p_model r.p_model r.m_number_of_runs hr hb hc
  refine ⟨columnHeader rh.p_model, iterationRow r.m_number_of_runs r.p_model, ?_, ?_,
    columnHeader_length rh.p_model, hlen.symm, h0, h1, hreal, hbin, hcon⟩
  · unfold Runner.writeProblemDefToSummary
    simp only [hopen]
  · unfold Runner.writeIterationToSummary
    simp only [hlines]

/-- Witness of C25 on `freshRunner`, whose Model has two real variables, no binary variable
and one constraint: the header row is written after the text block, and an iteration row
written next stands under it column by column. -/
theorem writeProblemDefToSummary_header_matches_rows_witness :
    freshRunner.p_summary = some [] ∧
    (freshRunner.writeProblemDefToSummary [SummaryLine.description "MODEL DESCRIPTION"]).p_summary
      = some [SummaryLine.description "MODEL DESCRIPTION",
          SummaryLine.row [Cell.text "#", Cell.text "OBJ", Cell.label "VAR_C" 1,
            Cell.label "VAR_C" 2, Cell.label "CON" 1]] ∧
    (freshRunner.writeProblemDefToSummary
        [SummaryLine.description "MODEL DESCRIPTION"]).writeIterationToSummary.p_summary
      = some [SummaryLine.description "MODEL DESCRIPTION",
          SummaryLine.row [Cell.text "#", Cell.text "OBJ", Cell.label "VAR_C" 1,
            Cell.label "VAR_C" 2, Cell.label "CON" 1],
          SummaryLine.row [Cell.counter 0, Cell.number 7, Cell.number 5, Cell.number 1,
            Cell.number 3]] ∧
    ∃ header row : List Cell,
      (freshRunner.writeProblemDefToSummary
          [SummaryLine.description "MODEL DESCRIPTION"]).p_summary =
        some ([] ++ [SummaryLine.description "MODEL DESCRIPTION"] ++ [SummaryLine.row header]) ∧
      (freshRunner.writeProblemDefToSummary
          [SummaryLine.description "MODEL DESCRIPTION"]).writeIterationToSummary.p_summary =
        some ([SummaryLine.description "MODEL DESCRIPTION",
            SummaryLine.row (columnHeader freshModel)] ++ [SummaryLine.row row]) ∧
      header.length = 2 + 2 + 0 + 1 ∧ row.length = header.length :=
  have h := writeProblemDefToSummary_header_matches_rows freshRunner
    (freshRunner.writeProblemDefToSummary [SummaryLine.description "MODEL DESCRIPTION"])
    [SummaryLine.description "MODEL DESCRIPTION"] []
    [SummaryLine.description "MODEL DESCRIPTION", SummaryLine.row (columnHeader freshModel)]
    rfl rfl rfl rfl rfl
  ⟨rfl, by decide, by decide,
    h.elim fun header hh => hh.elim fun row hrow =>
      ⟨header, row, hrow.1, hrow.2.1, hrow.2.2.1, hrow.2.2.2.1⟩⟩

section CacheSoundness

variable {ρ σ : Type}

theorem rerunLoop_false (c : Case) (vars : List RealVariable) (i : Nat)
    (h : rerunLoop c i vars = some false) :
    ∀ (j : Nat) (v : RealVariable), vars[j]? = some v → v.parentIsWell = true →
      c.m_real_var_values[i + j]? = some v.value := by
  induction vars generalizing i with
  | nil => intro j v hv; simp at hv
  | cons x rest ih =>
    by_cases hw : x.parentIsWell = true
    · cases hget : c.realVariableValue (i : Int) with
      | none => simp [rerunLoop, hw, hget] at h
      | some y =>
        by_cases hy : y = x.value
        · have hrest : rerunLoop c (i + 1) rest = some false := by
            simpa [rerunLoop, hw, hget, hy] using h
          intro j v hv hvw
          cases j with
          | zero =>
            simp only [List.getElem?_cons_zero, Option.some.injEq] at hv
            subst hv
            rw [Nat.add_zero, ← hy]
            rwa [Case.realVariableValue, qvectorAt_natCast] at hget
          | succ j =>
            have := ih (i + 1) hrest j v (by simpa using hv) hvw
            rw [← this]; congr 1; omega
        · simp [rerunLoop, hw, hget, hy] at h
    · have hrest : rerunLoop c (i + 1) rest = some false := by
        simpa [rerunLoop, hw] using h
      intro j v hv hvw
      cases j with
      | zero =>
        simp only [List.getElem?_cons_zero, Option.some.injEq] at hv
        subst hv
        exact absurd hvw hw
      | succ j =>
        have := ih (i + 1) hrest j v (by simpa using hv) hvw
        rw [← this]; congr 1; omega

theorem rerunReservoirSimulator_false (m : Model ρ) (c : Case)
    (h : rerunReservoirSimulator m c = some false) :
    m.isUpToDate = true ∧
    ∀ (i : Nat) (v : RealVariable), m.realVariables[i]? = some v → v.parentIsWell = true →
      c.m_real_var_values[i]? = some v.value := by
  by_cases hu : m.isUpToDate = true
  · refine ⟨hu, ?_⟩
    have hloop : rerunLoop c 0 m.realVariables = some false := by
      simpa [rerunReservoirSimulator, hu] using h
    intro i v hv hw
    have := rerunLoop_false c m.realVariables 0 hloop i v hv hw
    rwa [Nat.zero_add] at this
  · simp [rerunReservoirSimulator, hu] at h

theorem writeRealVariables_reads (c : Case) (n i : Nat) (m : Model ρ)
    (h : (writeRealVariables c n i m).2 = true) :
    ∀ j : Nat, i ≤ j → j < i + n → ∃ x, c.m_real_var_values[j]? = some x := by
  induction n generalizing i m with
  | zero => intro j h1 h2; omega
  | succ n ih =>
    cases hget : c.realVariableValue (i : Int) with
    | none => simp [writeRealVariables, hget] at h
    | some y =>
      have hy : c.m_real_var_values[i]? = some y := by
        rwa [Case.realVariableValue, qvectorAt_natCast] at hget
      simp only [writeRealVariables, hget] at h
      intro j h1 h2
      by_cases hji : j = i
      · subst hji; exact ⟨y, hy⟩
      · exact ih (i + 1) _ h j (by omega) (by omega)

/-- A whole-model evaluation that returns has taken a rerun decision and completed both
write loops. -/
theorem evaluateEntireModel_returned_cases (ops : ModelOps ρ) (sim : ReservoirSimulator ρ σ)
    (l : Launcher ρ σ) (c : Case)
    (h : (evaluateEntireModel ops sim l c).status = Status.returned) :
    ∃ (b : Bool) (m1 m2 : Model ρ),
      rerunReservoirSimulator l.p_model c = some b ∧
      writeRealVariables c l.p_model.realVariables.length 0 l.p_model = (m1, true) ∧
      writeBinaryVariables c m1.binaryVariables.length 0 m1 = (m2, true) := by
  unfold evaluateEntireModel at h
  cases hrun : rerunReservoirSimulator l.p_model c with
  | none => rw [hrun] at h; cases h
  | some b =>
    rw [hrun] at h
    dsimp only at h
    rcases hr : writeRealVariables c l.p_model.realVariables.length 0 l.p_model with ⟨m1, b1⟩
    rw [hr] at h
    cases b1
    · cases h
    · dsimp only at h
      rcases hb : writeBinaryVariables c m1.binaryVariables.length 0 m1 with ⟨m2, b2⟩
      rw [hb] at h
      cases b2
      · cases h
      · exact ⟨b, m1, m2, rfl, rfl, hb⟩

/-- A whole-model evaluation whose log gains exactly the steps of a skipping run has taken
the decision not to rerun. -/
theorem rerun_false_of_skipSteps (ops : ModelOps ρ) (sim : ReservoirSimulator ρ σ)
    (l : Launcher ρ σ) (c : Case)
    (h : (evaluateEntireModel ops sim l c).launcher.log = l.log ++ skipSteps) :
    rerunReservoirSimulator l.p_model c = some false := by
  have hlen := congrArg List.length h
  unfold evaluateEntireModel at hlen
  cases hrun : rerunReservoirSimulator l.p_model c with
  | none =>
    rw [hrun] at hlen
    simp [skipSteps] at hlen
  | some b =>
    cases b
    · rfl
    · rw [hrun] at hlen
      dsimp only at hlen
      rcases hr : writeRealVariables c l.p_model.realVariables.length 0 l.p_model with ⟨m1, b1⟩
      rw [hr] at hlen
      cases b1
      · simp [skipSteps] at hlen
      · dsimp only at hlen
        rcases hb : writeBinaryVariables c m1.binaryVariables.length 0 m1 with ⟨m2, b2⟩
        rw [hb] at hlen
        cases b2
        · simp [skipSteps] at hlen
        · simp [skipSteps, runReservoirSimulator, Launcher.emit] at hlen

/-- Writing, over variables `vars`, values that repeat the stored value of every well-owned
variable leaves the well values as they were. -/
theorem wellValues_of_written (vars written : List RealVariable) (vals : List ℚ)
    (hin : ∀ j : Nat, j < vars.length → ∃ x, vals[j]? = some x ∧
      written[j]? = (vars[j]?).map (fun v => v.setValue x))
    (hout : ∀ j : Nat, vars.length ≤ j → written[j]? = vars[j]?)
    (hsame : ∀ (j : Nat) (v : RealVariable), vars[j]? = some v → v.parentIsWell = true →
      vals[j]? = some v.value) :
    wellValues written = wellValues vars := by
  apply List.ext_getElem?
  intro j
  unfold wellValues
  rw [List.getElem?_map, List.getElem?_map]
  by_cases hj : j < vars.length
  · obtain ⟨x, hx, hw⟩ := hin j hj
    rw [hw, List.getElem?_eq_getElem hj]
    simp only [Option.map_some']
    by_cases hwell : vars[j].parentIsWell = true
    · have := hsame j vars[j] (List.getElem?_eq_getElem hj) hwell
      rw [hx] at this
      cases this
      rfl
    · have h2 : (vars[j].setValue x).parentIsWell = vars[j].parentIsWell := rfl
      simp [h2, hwell]
  · rw [hout j (Nat.le_of_not_lt hj)]

theorem CacheSound_evaluateEntireModel (ops : ModelOps ρ) (sim : ReservoirSimulator ρ σ)
    (seen : σ → Option (List RealVariable))
    (hgen : ∀ (m : Model ρ) (s : σ), seen (sim.generateInputFiles m s) = some m.realVariables)
    (hlaunch : ∀ s : σ, seen (sim.launchSimulator s) = seen s)
    (hread : ∀ (s : σ) (m : Model ρ), (sim.readOutput s m).realVariables = m.realVariables)
    (hupd : ∀ m : Model ρ, (ops.updateCycle m).realVariables = m.realVariables)
    (l : Launcher ρ σ) (c : Case) (hinv : CacheSound seen l)
    (hret : (evaluateEntireModel ops sim l c).status = Status.returned) :
    CacheSound seen (evaluateEntireModel ops sim l c).launcher := by
  obtain ⟨b, m1, m2, hrun, hr, hb⟩ := evaluateEntireModel_returned_cases ops sim l c hret
  obtain ⟨_, hmodel, _⟩ := evaluateEntireModel_returned ops sim l c b m1 m2 hrun hr hb
  obtain ⟨hsim, _⟩ := evaluateEntireModel_full ops sim l c b m1 m2 hrun hr hb
  have hf2 := (writeBinaryVariables_frame c m1.binaryVariables.length 0 m1).1
  rw [hb] at hf2
  simp only at hf2
  have hfinal : (evaluateEntireModel ops sim l c).launcher.p_model.realVariables =
      m1.realVariables := by
    rw [hmodel]
    show (ops.updateCycle _).realVariables = _
    rw [hupd]
    cases b
    · simpa [afterSimulator, Model.setUpToDate] using hf2
    · simp only [afterSimulator, if_true]
      rw [hread]
      simpa [Model.setUpToDate] using hf2
  intro _
  rw [hfinal, hsim]
  cases b
  · obtain ⟨hfresh, hsame⟩ := rerunReservoirSimulator_false l.p_model c hrun
    obtain ⟨vs, hvs, hwv⟩ := hinv hfresh
    refine ⟨vs, by simpa using hvs, ?_⟩
    rw [hwv]
    symm
    have hok : (writeRealVariables c l.p_model.realVariables.length 0 l.p_model).2 = true := by
      rw [hr]
    have hreads := writeRealVariables_reads c _ 0 l.p_model hok
    have hget := writeRealVariables_get c l.p_model.realVariables.length 0 l.p_model
    rw [hr] at hget
    simp only at hget
    apply wellValues_of_written l.p_model.realVariables m1.realVariables c.m_real_var_values
    · intro j hj
      obtain ⟨x, hx⟩ := hreads j (Nat.zero_le j) (by omega)
      exact ⟨x, hx, hget.1 j x (Nat.zero_le j) (by omega) hx trivial⟩
    · intro j hj
      exact hget.2 j (Or.inr (by omega))
    · exact hsame
  · refine ⟨m1.realVariables, ?_, rfl⟩
    simp only [if_true]
    rw [hlaunch, hgen]
    simpa [Model.setUpToDate] using hf2

theorem CacheSound_evaluateWell (sim : ReservoirSimulator ρ σ)
    (seen : σ → Option (List RealVariable))
    (hgen : ∀ (m : Model ρ) (s : σ), seen (sim.generateInputFiles m s) = some m.realVariables)
    (hlaunch : ∀ s : σ, seen (sim.launchSimulator s) = seen s)
    (hread : ∀ (s : σ) (m : Model ρ), (sim.readOutput s m).realVariables = m.realVariables)
    (l : Launcher ρ σ) (c : Case) (w : Nat)
    (hret : (evaluateWell sim l c w).status = Status.returned) :
    CacheSound seen (evaluateWell sim l c w).launcher := by
  have hcases : ∃ m1 : Model ρ, (evaluateWell sim l c w).launcher =
      runReservoirSimulator sim { l with p_model := m1 } := by
    unfold evaluateWell at hret ⊢
    by_cases hcount : c.numberOfRealVariables = ((l.p_model.realVariablesOf w).length : Int)
    · simp only [hcount, ne_eq, not_true_eq_false, if_false] at hret ⊢
      rcases hw : writeWellVariables c (l.p_model.realVariablesOf w)
        c.m_real_var_values.length 0 l.p_model with ⟨m1, b1⟩
      rw [hw] at hret
      cases b1
      · cases hret
      · refine ⟨m1, ?_⟩
        dsimp only
        split <;> rfl
    · simp only [hcount, ne_eq, not_false_eq_true, if_true] at hret
      cases hret
  obtain ⟨m1, hl⟩ := hcases
  intro _
  rw [hl]
  refine ⟨m1.realVariables, ?_, ?_⟩
  · show seen (sim.launchSimulator (sim.generateInputFiles m1 l.p_simulator)) = _
    rw [hlaunch, hgen]
  · show wellValues m1.realVariables = wellValues (sim.readOutput _ m1).realVariables
    rw [hread]

theorem evaluatePipe_keeps_state (l : Launcher ρ σ) (c : Case) (p : Pipe) :
    (evaluatePipe l c p).launcher.p_model = l.p_model ∧
    (evaluatePipe l c p).launcher.p_simulator = l.p_simulator := by
  unfold evaluatePipe
  split
  · exact ⟨rfl, rfl⟩
  · split <;> exact ⟨rfl, rfl⟩

theorem CacheSound_evaluate (ops : ModelOps ρ) (sim : ReservoirSimulator ρ σ)
    (seen : σ → Option (List RealVariable))
    (hgen : ∀ (m : Model ρ) (s : σ), seen (sim.generateInputFiles m s) = some m.realVariables)
    (hlaunch : ∀ s : σ, seen (sim.launchSimulator s) = seen s)
    (hread : ∀ (s : σ) (m : Model ρ), (sim.readOutput s m).realVariables = m.realVariables)
    (hupd : ∀ m : Model ρ, (ops.updateCycle m).realVariables = m.realVariables)
    (l : Launcher ρ σ) (c : Case) (comp : Option Component) (hinv : CacheSound seen l)
    (hret : (evaluate ops sim l c comp).status = Status.returned) :
    CacheSound seen (evaluate ops sim l c comp).launcher := by
  have key : ∀ r : Evaluation ρ σ, (r.status = Status.returned → CacheSound seen r.launcher) →
      (match r.status with
        | Status.returned => { r with launcher := r.launcher.emit Event.finished }
        | _ => r).status = Status.returned →
      CacheSound seen (match r.status with
        | Status.returned => { r with launcher := r.launcher.emit Event.finished }
        | _ => r).launcher := by
    intro r hr hst
    cases hs : r.status with
    | returned =>
      simp only [hs]
      exact hr hs
    | exited code => rw [hs] at hst; simp only at hst; rw [hs] at hst; cases hst
    | indexOutOfRange => rw [hs] at hst; simp only at hst; rw [hs] at hst; cases hst
  unfold evaluate at hret ⊢
  apply key _ _ hret
  intro hst
  match comp with
  | none => exact CacheSound_evaluateEntireModel ops sim seen hgen hlaunch hread hupd l c hinv hst
  | some (Component.pipe p) =>
    intro hu
    obtain ⟨hm, hs⟩ := evaluatePipe_keeps_state l c p
    simp only at hu ⊢
    rw [hm] at hu
    rw [hm, hs]
    exact hinv hu
  | some (Component.well w) => exact CacheSound_evaluateWell sim seen hgen hlaunch hread l c w hst
  | some (Component.separator _) => exact hinv

theorem CacheSound_evaluateAll (ops : ModelOps ρ) (sim : ReservoirSimulator ρ σ)
    (seen : σ → Option (List RealVariable))
    (hgen : ∀ (m : Model ρ) (s : σ), seen (sim.generateInputFiles m s) = some m.realVariables)
    (hlaunch : ∀ s : σ, seen (sim.launchSimulator s) = seen s)
    (hread : ∀ (s : σ) (m : Model ρ), (sim.readOutput s m).realVariables = m.realVariables)
    (hupd : ∀ m : Model ρ, (ops.updateCycle m).realVariables = m.realVariables)
    (reqs : List (Case × Option Component)) (l0 l : Launcher ρ σ) (hinv : CacheSound seen l0)
    (hrun : evaluateAll ops sim l0 reqs = some l) : CacheSound seen l := by
  induction reqs generalizing l0 with
  | nil =>
    simp only [evaluateAll, Option.some.injEq] at hrun
    rw [← hrun]
    exact hinv
  | cons req rest ih =>
    obtain ⟨c, comp⟩ := req
    unfold evaluateAll at hrun
    cases hst : (evaluate ops sim l0 c comp).status with
    | returned =>
      rw [hst] at hrun
      exact ih _ (CacheSound_evaluate ops sim seen hgen hlaunch hread hupd l0 c comp hinv hst)
        hrun
    | exited code => rw [hst] at hrun; cases hrun
    | indexOutOfRange => rw [hst] at hrun; cases hrun

end CacheSoundness

/-! ## Claim on the soundness of the rerun skip -/

/-- C26: let `seen` read off the simulator state the real variables handed to the most
recent `generateInputFiles`, and let `readOutput` and the update cycle leave the real
variables as they are (only the Launcher changes them). Start from a stale Model and run any
sequence of `Launcher::evaluate` calls (whole model, single pipe, single well) that all
return. Whenever a whole-model evaluation then skips the simulator, every well-owned real
variable gets from the Case, at its index, the value that this variable had at the most
recent simulator invocation. -/
theorem rerun_skip_is_sound {ρ σ : Type} (ops : ModelOps ρ) (sim : ReservoirSimulator ρ σ)
    (seen : σ → Option (List RealVariable))
    (hgen : ∀ (m : Model ρ) (s : σ), seen (sim.generateInputFiles m s) = some m.realVariables)
    (hlaunch : ∀ s : σ, seen (sim.launchSimulator s) = seen s)
    (hread : ∀ (s : σ) (m : Model ρ), (sim.readOutput s m).realVariables = m.realVariables)
    (hupd : ∀ m : Model ρ, (ops.updateCycle m).realVariables = m.realVariables)
    (l0 l : Launcher ρ σ) (hstale : l0.p_model.isUpToDate = false)
    (reqs : List (Case × Option Component)) (hrun : evaluateAll ops sim l0 reqs = some l)
    (c : Case)
    (hskip : (evaluateEntireModel ops sim l c).launcher.log =
      l.log ++ [Event.noRerunMessage, Event.updateStreams, Event.calculatePipePressures,
        Event.updateConstraints, Event.updateObjectiveValue]) :
    ∀ (i : Nat) (v : RealVariable), l.p_model.realVariables[i]? = some v →
      v.parentIsWell = true →
      ∃ (vs : List RealVariable) (u : RealVariable),
        seen l.p_simulator = some vs ∧ vs[i]? = some u ∧ u.parentIsWell = true ∧
        c.realVariableValue (i : Int) = some u.value := by
  have hinv0 : CacheSound seen l0 := by
    intro h
    rw [hstale] at h
    cases h
  have hinv := CacheSound_evaluateAll ops sim seen hgen hlaunch hread hupd reqs l0 l hinv0 hrun
  have hfalse := rerun_false_of_skipSteps ops sim l c hskip
  obtain ⟨hfresh, hsame⟩ := rerunReservoirSimulator_false l.p_model c hfalse
  obtain ⟨vs, hvs, hwv⟩ := hinv hfresh
  intro i v hv hw
  have h1 : (wellValues l.p_model.realVariables)[i]? = some (some v.value) := by
    unfold wellValues
    rw [List.getElem?_map, hv]
    simp [hw]
  rw [← hwv] at h1
  unfold wellValues at h1
  rw [List.getElem?_map] at h1
  cases hu : vs[i]? with
  | none => rw [hu] at h1; cases h1
  | some u =>
    rw [hu] at h1
    simp only [Option.map_some', Option.some.injEq] at h1
    by_cases huw : u.parentIsWell = true
    · rw [if_pos huw] at h1
      refine ⟨vs, u, hvs, hu, huw, ?_⟩
      rw [Case.realVariableValue, qvectorAt_natCast, hsame i v hv hw, Option.some.inj h1]
    · rw [if_neg huw] at h1
      cases h1

/-- Witness of C26: from the stale `freshModel`, the whole model is evaluated with `(6, 1)`
and then well 0 alone with `(8)`, which leaves the Model marked up to date; the whole-model
evaluation of `(8, 3)` then skips the simulator, and 8 is the value the well variable had
when the simulator last ran. -/
theorem rerun_skip_is_sound_witness :
    staleLauncher.p_model.isUpToDate = false ∧
    evaluateAll mirrorOps recordingSimulator staleLauncher sampleRequests =
      some launcherAfterRequests ∧
    (evaluateEntireModel mirrorOps recordingSimulator launcherAfterRequests
      (caseOfReals [8, 3])).launcher.log =
      launcherAfterRequests.log ++ [Event.noRerunMessage, Event.updateStreams,
        Event.calculatePipePressures, Event.updateConstraints, Event.updateObjectiveValue] ∧
    launcherAfterRequests.p_simulator = some [wellVariable 0 8, pipeVariable 0 1] ∧
    ∀ (i : Nat) (v : RealVariable), launcherAfterRequests.p_model.realVariables[i]? = some v →
      v.parentIsWell = true →
      ∃ (vs : List RealVariable) (u : RealVariable),
        launcherAfterRequests.p_simulator = some vs ∧ vs[i]? = some u ∧
        u.parentIsWell = true ∧ (caseOfReals [8, 3]).realVariableValue (i : Int) = some u.value :=
  have hrun : evaluateAll mirrorOps recordingSimulator staleLauncher sampleRequests =
      some launcherAfterRequests := by
    have h1 : (evaluate mirrorOps recordingSimulator staleLauncher (caseOfReals [6, 1])
        none).status = Status.returned := by decide
    have h2 : (evaluate mirrorOps recordingSimulator
        (evaluate mirrorOps recordingSimulator staleLauncher (caseOfReals [6, 1]) none).launcher
        (caseOfReals [8]) (some (Component.well 0))).status = Status.returned := by decide
    simp only [sampleRequests, evaluateAll, h1, h2, launcherAfterRequests]
  have hskip : (evaluateEntireModel mirrorOps recordingSimulator launcherAfterRequests
      (caseOfReals [8, 3])).launcher.log =
      launcherAfterRequests.log ++ [Event.noRerunMessage, Event.updateStreams,
        Event.calculatePipePressures, Event.updateConstraints, Event.updateObjectiveValue] := by
    decide
  ⟨rfl, hrun, hskip, by decide,
    rerun_skip_is_sound mirrorOps recordingSimulator (fun s => s) (fun _ _ => rfl)
      (fun _ => rfl) (fun _ _ => rfl) (fun _ => rfl) staleLauncher launcherAfterRequests rfl
      sampleRequests hrun (caseOfReals [8, 3]) hskip⟩

/-! ## When a whole-model evaluation returns -/

theorem writeBinaryVariables_reads {ρ : Type} (c : Case) (n i : Nat) (m : Model ρ)
    (h : (writeBinaryVariables c n i m).2 = true) :
    ∀ j : Nat, i ≤ j → j < i + n → ∃ x, c.m_binary_var_values[j]? = some x := by
  induction n generalizing i m with
  | zero => intro j h1 h2; omega
  | succ n ih =>
    cases hget : c.binaryVariableValue (i : Int) with
    | none => simp [writeBinaryVariables, hget] at h
    | some y =>
      have hy : c.m_binary_var_values[i]? = some y := by
        rwa [Case.binaryVariableValue, qvectorAt_natCast] at hget
      simp only [writeBinaryVariables, hget] at h
      intro j h1 h2
      by_cases hji : j = i
      · subst hji; exact ⟨y, hy⟩
      · exact ih (i + 1) _ h j (by omega) (by omega)

theorem length_le_of_reads {α : Type} (xs : List α) (n : Nat)
    (h : ∀ j : Nat, 0 ≤ j → j < 0 + n → ∃ x, xs[j]? = some x) : n ≤ xs.length := by
  by_contra hcon
  have hlt : xs.length < n := Nat.lt_of_not_le hcon
  obtain ⟨x, hx⟩ := h xs.length (Nat.zero_le _) (by omega)
  rw [List.getElem?_eq_none (Nat.le_refl _)] at hx
  cases hx

/-- In the embedding, a whole-model evaluation runs to its end exactly when every read stays
within the bounds: when the Case carries at least as many real and binary values as the
Model has real and binary variables. -/
theorem evaluateEntireModel_returned_iff {ρ σ : Type} (ops : ModelOps ρ)
    (sim : ReservoirSimulator ρ σ) (l : Launcher ρ σ) (c : Case) :
    (evaluateEntireModel ops sim l c).status = Status.returned ↔
      (l.p_model.realVariables.length ≤ c.m_real_var_values.length ∧
        l.p_model.binaryVariables.length ≤ c.m_binary_var_values.length) := by
  constructor
  · intro h
    obtain ⟨b, m1, m2, _, hr, hb⟩ := evaluateEntireModel_returned_cases ops sim l c h
    have hf1 := (writeRealVariables_frame c l.p_model.realVariables.length 0 l.p_model).1
    rw [hr] at hf1
    simp only at hf1
    constructor
    · apply length_le_of_reads
      exact writeRealVariables_reads c _ 0 l.p_model (by rw [hr])
    · rw [← hf1]
      apply length_le_of_reads
      exact writeBinaryVariables_reads c _ 0 m1 (by rw [hb])
  · rintro ⟨h1, h2⟩
    obtain ⟨_, _, hst, _⟩ := evaluateEntireModel_on_writtenModel ops sim l c h1 h2
    exact hst

end ResOpt
